import Mathlib

/-!
# dtach: the command line front end (`main.c`)

A shallow embedding of `main` of dtach into Lean 4.

* A C string is the list of its bytes, the terminating NUL excluded; reading
  the byte at an index at or past the end gives the terminator `0`.
* Plain `char` is signed or unsigned depending on the platform; the choice is
  a field of `Platform`, as are the `errno` constants and the build macros
  that `main.c` takes from headers.
* The outside world (`getenv`, `stat`, `mkdir`, `tcgetattr`, `attach_main`,
  `master_main`, `errno`) is a record of oracles, `Extern`. Every external
  call made by `main` is appended to a trace, and the oracles of the calls
  whose answer may change during a run read that trace.
* `main` returns a `Run`: the trace of calls and the way the process ended.
* Taken for granted: `calloc` does not fail, and `attach_main` and
  `master_main`, whose code is in other files, return to `main` with an
  `int`. A write past the end of the `calloc` block lands in the byte that
  follows it (the block keeps the list of offsets written).
-/

namespace Dtach

/-! ## C strings and the library functions used by `main.c` -/

/-- The bytes of a NUL-terminated string, terminator excluded. -/
abbrev CStr := List Nat

/-- The bytes of an ASCII literal of the source. -/
def lit (s : String) : CStr := s.toList.map Char.toNat

/-- A list of bytes is a C string: every byte is a non-NUL value below 256. -/
def CStr.WF (s : CStr) : Prop := ∀ b ∈ s, 0 < b ∧ b < 256

instance (s : CStr) : Decidable (CStr.WF s) := by
  unfold CStr.WF; infer_instance

/-- Byte `s[i]` of a C string, the terminator when `i` is at the end. -/
def charAt (s : CStr) (i : Nat) : Nat := s.getD i 0

/-- Value of a byte read through plain `char` and promoted to `int`. -/
def charVal (char_signed : Bool) (b : Nat) : Int :=
  if char_signed && decide (128 ≤ b) then (b : Int) - 256 else (b : Int)

/-- Length of a C string, `strlen`. -/
def strlen (s : CStr) : Nat := s.length

/-- Comparison of at most `n` bytes, `strncmp`: the difference of the first
bytes that differ (as `unsigned char`), `0` when none differs before a NUL
or before `n` bytes were compared. -/
def strncmp : CStr → CStr → Nat → Int
  | _, _, 0 => 0
  | a, b, n + 1 =>
    if charAt a 0 ≠ charAt b 0 then (charAt a 0 : Int) - (charAt b 0 : Int)
    else if charAt a 0 = 0 then 0
    else strncmp a.tail b.tail n

/-- Comparison of two strings, `strcmp`. -/
def strcmp : CStr → CStr → Int
  | [], b => if charAt b 0 = 0 then 0 else - (charAt b 0 : Int)
  | x :: a, b =>
    if x ≠ charAt b 0 then (x : Int) - (charAt b 0 : Int)
    else if x = 0 then 0
    else strcmp a b.tail

/-- Search of a substring, `strstr`: the offset of the first occurrence of
`needle` in `hay`, `none` for the null pointer. -/
def strstr : CStr → CStr → Option Nat
  | [], needle => if needle.isEmpty then some 0 else none
  | x :: hay, needle =>
    if needle.isPrefixOf (x :: hay) then some 0
    else (strstr hay needle).map (· + 1)

/-! ## The block allocated for the combined socket path -/

/-- A block returned by `calloc`, seen as the byte found at each offset from
its start. Offsets at or past `size` lie outside the allocation. `writes`
lists the offsets stored to, oldest first. -/
structure Block where
  size : Nat
  mem : Nat → Nat
  writes : List Nat

/-- The call `calloc(n, sizeof(char))`: `n` zero bytes. What memory holds
after the block is not known to the program and is given by `beyond`.
Allocation is taken to succeed. -/
def calloc (n : Nat) (beyond : Nat → Nat) : Block :=
  { size := n, mem := fun i => if i < n then 0 else beyond i, writes := [] }

/-- Store of one byte at an offset. -/
def Block.store (b : Block) (i v : Nat) : Block :=
  { b with mem := fun j => if j = i then v else b.mem j, writes := b.writes ++ [i] }

/-- Store of consecutive bytes from offset `i` on. -/
def Block.storeAll (b : Block) (i : Nat) : List Nat → Block
  | [] => b
  | v :: vs => (b.store i v).storeAll (i + 1) vs

/-- Offset of the first NUL at or after offset `i`, looking at no more than
`fuel` bytes. -/
def Block.nul (b : Block) : Nat → Nat → Option Nat
  | 0, _ => none
  | fuel + 1, i => if b.mem i = 0 then some i else b.nul fuel (i + 1)

/-- End of the string held at the start of a block. The scan is followed
through the block and the one byte after it; a string that is still not
terminated there has no end in the model. -/
def Block.strend (b : Block) : Option Nat := b.nul (b.size + 1) 0

/-- The string held at the start of a block. -/
def Block.str (b : Block) : Option CStr :=
  b.strend.map fun e => (List.range e).map b.mem

/-- The call `strncpy(dst, src, n)`: exactly `n` bytes are stored, the bytes
of `src` followed, when `src` is shorter than `n`, by NUL bytes. -/
def strncpy (dst : Block) (src : CStr) (n : Nat) : Block :=
  dst.storeAll 0 (src.take n ++ List.replicate (n - strlen src) 0)

/-- The call `strncat(dst, src, n)`: at most `n` bytes of `src` are stored
from the end of the string in `dst` on, then a terminating NUL. -/
def strncat (dst : Block) (src : CStr) (n : Nat) : Option Block :=
  dst.strend.map fun e => dst.storeAll e (src.take n ++ [0])

/-! ## Platform, global variables, external calls -/

/-- What `main.c` takes from the platform and from the build: signedness of
plain `char`, the two `errno` constants, `sizeof(struct termios)`, and the
macros `PACKAGE_VERSION`, `PACKAGE_BUGREPORT`, `__DATE__`, `__TIME__`. -/
structure Platform where
  char_signed : Bool
  ECONNREFUSED : Int
  ENOENT : Int
  sizeof_termios : Nat
  PACKAGE_VERSION : CStr
  PACKAGE_BUGREPORT : CStr
  DATE : CStr
  TIME : CStr

/-- Modelled from the spec: the redraw methods `REDRAW_UNSPEC`, `REDRAW_NONE`,
`REDRAW_CTRL_L`, `REDRAW_WINCH` come from `dtach.h`, which is not among the
sources; the spec lists them as four different methods (unspecified, none,
ctrl_l, winch). -/
inductive Redraw
  | REDRAW_UNSPEC
  | REDRAW_NONE
  | REDRAW_CTRL_L
  | REDRAW_WINCH
deriving DecidableEq, Repr

/-- The global variables of `main.c`. A `char *` is `none` while it is the
null pointer; `orig_term` is the bytes of the `struct termios`. -/
structure Globals where
  progname : Option CStr
  sockname : Option CStr
  dtach_env : Option CStr
  detach_char : Int
  no_suspend : Int
  redraw_method : Redraw
  orig_term : List Nat
  dont_have_tty : Int
deriving DecidableEq, Repr

/-- The globals when `main` is entered: the initialisers of the source, and
zero for the variables without one. -/
def Globals.init (pf : Platform) : Globals :=
  { progname := none
    sockname := none
    dtach_env := none
    detach_char := 92 - 64
    no_suspend := 0
    redraw_method := Redraw.REDRAW_UNSPEC
    orig_term := List.replicate pf.sizeof_termios 0
    dont_have_tty := 0 }

/-- One call from `main` to the outside. `attach_main` and `master_main`
record the globals they find on entry. -/
inductive Call
  | printf (out : List Nat)
  | perror (s : CStr)
  | exit (status : Int)
  | getenv (name : CStr)
  | stat (path : CStr)
  | mkdir (path : CStr) (mode : Nat)
  | calloc (nmemb : Nat) (size : Nat)
  | tcgetattr (fd : Int)
  | unlink (path : Option CStr)
  | attach_main (noerror : Int) (g : Globals)
  | master_main (argv : List CStr) (waitattach : Int) (g : Globals)
deriving DecidableEq, Repr

/-- The answers of the outside world. `stat` gives `none` when it fails and
`some d` when it succeeds, `d` telling whether `S_ISDIR(st_mode)` holds;
`tcgetattr` gives `none` when it fails and the settings read otherwise.
`attach_main`, `master_main` and `errno` are given the trace of the run up to
and including the call being answered. `beyond` is the memory that follows
the block of `calloc`. -/
structure Extern where
  getenv : CStr → Option CStr
  stat : CStr → Option Bool
  mkdir : CStr → Nat → Int
  beyond : Nat → Nat
  tcgetattr : Int → Option (List Nat)
  attach_main : List Call → Int
  master_main : List Call → Int
  errno : List Call → Int

/-- How the process ended: `main` returned, `exit` was called, or the run
left defined behaviour. -/
inductive Outcome
  | returned (status : Int)
  | exited (status : Int)
  | undefined
deriving DecidableEq, Repr

/-- A run of `main`: the calls made, oldest first, and the way it ended. -/
structure Run where
  trace : List Call
  result : Outcome
deriving DecidableEq, Repr

/-- State threaded through `main`: the globals and the calls made so far. -/
structure St where
  g : Globals
  trace : List Call
deriving DecidableEq, Repr

/-- A part of `main` either ends the run or hands over to the next part. -/
inductive Stage (α : Type)
  | stop (r : Run)
  | go (a : α)

/-- Record of a call. -/
def St.call (st : St) (c : Call) : St := { st with trace := st.trace ++ [c] }

/-- The text put out for `%s`. -/
def fmt_s : Option CStr → CStr
  | some s => s
  | none => lit "(null)"

/-- The call `printf("Try '%s --help' for more information.\n", progname)`. -/
def St.tryHelp (st : St) : St :=
  st.call (.printf (lit "Try '" ++ fmt_s st.g.progname ++ lit " --help' for more information.\n"))

/-- The call `printf("%s: " msg, progname)` for a message `msg` without
conversions. -/
def St.complain (st : St) (msg : String) : St :=
  st.call (.printf (fmt_s st.g.progname ++ lit ": " ++ lit msg))

/-- End of the run by `return status` from `main`. -/
def St.ret (st : St) (status : Int) : Run := ⟨st.trace, .returned status⟩

/-- The line `dtach - version %s, compiled on %s at %s.\n`. -/
def versionLine (pf : Platform) : List Nat :=
  lit "dtach - version " ++ pf.PACKAGE_VERSION ++ lit ", compiled on " ++ pf.DATE
    ++ lit " at " ++ pf.TIME ++ lit ".\n"

/-- The text printed by `usage`. -/
def usageText (pf : Platform) : List Nat :=
  versionLine pf ++ lit (
    "Usage: dtach -a <socket> <options>\n" ++
    "\t\tdtach -A <socket> <options> <command...>\n" ++
    "\t\tdtach -c <socket> <options> <command...>\n" ++
    "\t\tdtach -n <socket> <options> <command...>\n" ++
    "Modes:\n" ++
    "  -a\t\tAttach to the specified socket.\n" ++
    "  -A\t\tAttach to the specified socket, or create it if it\n" ++
    "\t\t  does not exist, running the specified command.\n" ++
    "  -c\t\tCreate a new socket and run the specified command.\n" ++
    "  -n\t\tCreate a new socket and run the specified command " ++
    "detached.\n" ++
    "Options:\n" ++
    "  -e <char>\tSet the detach character to <char>, defaults " ++
    "to ^\\.\n" ++
    "  -E\t\tDisable the detach character.\n" ++
    "  -r <method>\tSet the redraw method to <method>. The " ++
    "valid methods are:\n" ++
    "\t\t\t  none: Don't redraw at all.\n" ++
    "\t\t\tctrl_l: Send a Ctrl L character to the program.\n" ++
    "\t\t\t winch: Send a WINCH signal to the program.\n" ++
    "  -z\t\tDisable processing of the suspend key.\n" ++
    "\nIf the environment variable $DTACH is set, the location\n" ++
    "it points to will be used as the socket folder. For example:\n" ++
    "\tDTACH=/tmp/dtach dtach -A foo ...\n" ++
    "will connect the socket /tmp/dtach/foo. You can override this by\n" ++
    "providing an absolute path for the socket, i.e.:\n" ++
    "\tDTACH=/tmp/dtach dtach -A /tmp/foo ...\n" ++
    "will create the socket at /tmp/foo, not /tmp/dtach/tmp/foo.\n" ++
    "\nReport any bugs to <") ++ pf.PACKAGE_BUGREPORT ++ lit ">.\n"

/-- The function `usage`: prints the help text and calls `exit(0)`. -/
def usage (pf : Platform) (st : St) : Run :=
  ⟨((st.call (.printf (usageText pf))).call (.exit 0)).trace, .exited 0⟩

/-! ## `main`, lines 98 to 137: the mode and the socket name -/

/-- Lines 99 to 128, with `a :: rest` the arguments after the program name
(`[]` when there is none). Gives the mode letter as the `int` that `mode`
holds. -/
def parseMode (pf : Platform) (st : St) : List CStr → Stage Int
  | [] => .stop ((st.complain "No mode was specified.\n").tryHelp.ret 1)
  | a :: _ =>
    if charAt a 0 = 45 then
      if strncmp a (lit "--help") (strlen a) = 0 then .stop (usage pf st)
      else if strncmp a (lit "--version") (strlen a) = 0 then
        .stop ((st.call (.printf (versionLine pf))).ret 0)
      else
        let mode := charVal pf.char_signed (charAt a 1)
        if mode = 63 then .stop (usage pf st)
        else if mode ≠ 97 ∧ mode ≠ 99 ∧ mode ≠ 110 ∧ mode ≠ 65 then
          .stop (((st.call (.printf (fmt_s st.g.progname ++ lit ": Invalid mode '-"
            ++ [(mode % 256).toNat] ++ lit "'\n"))).tryHelp).ret 1)
        else if mode = 0 then .stop ((st.complain "No mode was specified.\n").tryHelp.ret 1)
        else .go mode
    else .stop ((st.complain "No mode was specified.\n").tryHelp.ret 1)

/-! ## `main`, lines 138 to 177: the socket name and `$DTACH` -/

/-- Lines 170 to 174: the block for the combined path and the three copies
into it. Gives the block as it is left, `none` when a string function ran
off the end of the strings it was handed. -/
def joinPath (beyond : Nat → Nat) (dtach_env sockname : CStr) : Option Block :=
  let maxlen := strlen sockname + strlen dtach_env + 1
  let newsock := calloc maxlen beyond
  let newsock := strncpy newsock dtach_env (strlen dtach_env)
  (strncat newsock (lit "/") 1).bind fun newsock =>
    strncat newsock sockname (strlen sockname)

/-- Lines 138 to 177, with `name` the argument `*argv` assigned to `sockname`
in line 138. -/
def resolveSocket (ext : Extern) (st : St) (name : CStr) : Stage St :=
  let st := { st with g := { st.g with sockname := some name } }
  let st := st.call (.getenv (lit "DTACH"))
  let st := { st with g := { st.g with dtach_env := ext.getenv (lit "DTACH") } }
  match st.g.dtach_env with
  | none => .go st
  | some dtach_env =>
    let not_abs := strncmp name (lit "/") 1
    let not_cwd := strncmp name (lit "./") 2
    let not_traversal : Int := if (strstr name (lit "..")).isSome then 0 else 1
    if not_abs ≠ 0 ∧ not_cwd ≠ 0 ∧ not_traversal ≠ 0 then
      let st := st.call (.stat dtach_env)
      let checked : Stage St :=
        match ext.stat dtach_env with
        | some isdir =>
          if ¬ isdir then
            let st := st.call (.printf (fmt_s st.g.progname ++ lit ": "))
            let st := st.call (.printf (lit "$DTACH exists but is not a directory.\n"))
            let st := st.call (.printf (lit "Either delete it or point $DTACH elsewhere.\n"))
            let st := st.call (.printf (lit "$DTACH is: " ++ dtach_env ++ lit "\n"))
            .stop (st.ret 1)
          else .go st
        | none =>
          let st := st.call (.mkdir dtach_env 0o755)
          if ext.mkdir dtach_env 0o755 ≠ 0 then
            .stop ((st.call (.perror dtach_env)).ret 1)
          else .go st
      match checked with
      | .stop r => .stop r
      | .go st =>
        let st := st.call (.calloc (strlen name + strlen dtach_env + 1) 1)
        match (joinPath ext.beyond dtach_env name).bind Block.str with
        | none => .stop ⟨st.trace, .undefined⟩
        | some path => .go { st with g := { st.g with sockname := some path } }
    else .go st

/-! ## `main`, lines 180 to 249: the options -/

/-- Lines 201 to 209: the detach character given by the argument of `-e`. -/
def escapeChar (pf : Platform) (arg : CStr) : Int :=
  if charAt arg 0 = 94 ∧ charAt arg 1 ≠ 0 then
    if charAt arg 1 = 63 then 127
    else Int.land (charVal pf.char_signed (charAt arg 1)) 0o37
  else charVal pf.char_signed (charAt arg 0)

/-- Lines 223 to 236: the redraw method named by the argument of `-r`,
`none` when it names no method. -/
def redrawMethod (arg : CStr) : Option Redraw :=
  if strcmp arg (lit "none") = 0 then some .REDRAW_NONE
  else if strcmp arg (lit "ctrl_l") = 0 then some .REDRAW_CTRL_L
  else if strcmp arg (lit "winch") = 0 then some .REDRAW_WINCH
  else none

/-- How the `for` loop over the letters of one option argument is left: at
the terminating NUL, at a letter `e` or `r` (whose value is the next
argument), or at a letter that is no option. -/
inductive Letters
  | finished (g : Globals)
  | at_e (g : Globals)
  | at_r (g : Globals)
  | bad (c : Nat)
deriving DecidableEq, Repr

/-- Lines 184 to 247 up to the point where the loop over the letters is left:
the letters `E` and `z` met on the way are applied to the globals. -/
def scanLetters : List Nat → Globals → Letters
  | [], g => .finished g
  | p :: ps, g =>
    if p = 69 then scanLetters ps { g with detach_char := -1 }
    else if p = 122 then scanLetters ps { g with no_suspend := 1 }
    else if p = 101 then .at_e g
    else if p = 114 then .at_r g
    else .bad p

/-- Lines 180 to 249: the `while` loop over the option arguments. Gives the
arguments left when the loop ends, which are the command. After the letter
`e` or `r` the following argument is taken as the value and the loop over
the letters is left by `break`, so that the rest of that option argument is
not looked at. -/
def parseOptions (pf : Platform) : List CStr → St → Stage (List CStr × St)
  | [], st => .go ([], st)
  | a :: rest, st =>
    if charAt a 0 = 45 then
      match scanLetters a.tail st.g, rest with
      | .finished g, rest => parseOptions pf rest { st with g := g }
      | .at_e g, [] =>
        let st := { st with g := g }
        .stop ((st.complain "No escape character specified.\n").tryHelp.ret 1)
      | .at_e g, v :: rest =>
        parseOptions pf rest { st with g := { g with detach_char := escapeChar pf v } }
      | .at_r g, [] =>
        let st := { st with g := g }
        .stop ((st.complain "No redraw method specified.\n").tryHelp.ret 1)
      | .at_r g, v :: rest =>
        match redrawMethod v with
        | some m => parseOptions pf rest { st with g := { g with redraw_method := m } }
        | none =>
          let st := { st with g := g }
          .stop ((st.complain "Invalid redraw method specified.\n").tryHelp.ret 1)
      | .bad c, _ =>
        .stop (((st.call (.printf (fmt_s st.g.progname ++ lit ": Invalid option '-"
          ++ [c] ++ lit "'\n"))).tryHelp).ret 1)
    else .go (a :: rest, st)

/-! ## `main`, lines 92 to 257: everything before the terminal is looked at -/

/-- The state after line 95: `progname` is set, and no call was made yet. -/
def St.init (pf : Platform) (progname : CStr) : St :=
  { g := { Globals.init pf with progname := some progname }, trace := [] }

/-- What the argument checks hand over: the mode letter, the arguments left
after the options (the command), and the state. -/
structure Parsed where
  mode : Int
  command : List CStr
  st : St

/-- Lines 178 to 257, with `args` the arguments after the socket name: the
options, then the check that a command is there. -/
def parseRest (pf : Platform) (mode : Int) (args : List CStr) (st : St) : Stage Parsed :=
  match parseOptions pf args st with
  | .stop r => .stop r
  | .go (command, st) =>
    if mode ≠ 97 ∧ command.length < 1 then
      .stop ((st.complain "No command was specified.\n").tryHelp.ret 1)
    else .go { mode := mode, command := command, st := st }

/-- Lines 92 to 257, with `progname :: args` the argument vector. -/
def parseArgs (pf : Platform) (ext : Extern) (progname : CStr) (args : List CStr) :
    Stage Parsed :=
  let st := St.init pf progname
  match parseMode pf st args with
  | .stop r => .stop r
  | .go mode =>
    match args.tail with
    | [] => .stop ((st.complain "No socket was specified.\n").tryHelp.ret 1)
    | name :: args =>
      match resolveSocket ext st name with
      | .stop r => .stop r
      | .go st => parseRest pf mode args st

/-! ## `main`, lines 259 to 309: the terminal and the three entry points -/

/-- Lines 259 to 264: the terminal settings of descriptor 0 are read into
`orig_term`; when that fails `orig_term` is cleared and `dont_have_tty` set. -/
def saveTerm (pf : Platform) (ext : Extern) (st : St) : St :=
  let st := st.call (.tcgetattr 0)
  match ext.tcgetattr 0 with
  | some t => { st with g := { st.g with orig_term := t } }
  | none =>
    { st with g := { st.g with orig_term := List.replicate pf.sizeof_termios 0
                               dont_have_tty := 1 } }

/-- The call `attach_main(noerror)`: the call is recorded and answered. -/
def attach_main (ext : Extern) (st : St) (noerror : Int) : Int × St :=
  let st := st.call (.attach_main noerror st.g)
  (ext.attach_main st.trace, st)

/-- The call `master_main(argv, waitattach)`: the call is recorded and
answered. -/
def master_main (ext : Extern) (st : St) (argv : List CStr) (waitattach : Int) : Int × St :=
  let st := st.call (.master_main argv waitattach st.g)
  (ext.master_main st.trace, st)

/-- Lines 273 to 309: the action of each mode. -/
def dispatch (pf : Platform) (ext : Extern) (mode : Int) (argv : List CStr) (st : St) : Run :=
  if mode = 97 then
    if argv.length > 0 then (st.complain "Invalid number of arguments.\n").tryHelp.ret 1
    else
      let (r, st) := attach_main ext st 0
      st.ret r
  else if mode = 110 then
    let (r, st) := master_main ext st argv 0
    st.ret r
  else if mode = 99 then
    let (m, st) := master_main ext st argv 1
    if m ≠ 0 then st.ret 1
    else
      let (r, st) := attach_main ext st 0
      st.ret r
  else if mode = 65 then
    let (a, st) := attach_main ext st 1
    if a ≠ 0 then
      if ext.errno st.trace = pf.ECONNREFUSED ∨ ext.errno st.trace = pf.ENOENT then
        let st := if ext.errno st.trace = pf.ECONNREFUSED
          then st.call (.unlink st.g.sockname) else st
        let (m, st) := master_main ext st argv 1
        if m ≠ 0 then st.ret 1
        else
          let (r, st) := attach_main ext st 0
          st.ret r
      else
        let (r, st) := attach_main ext st 0
        st.ret r
    else st.ret 0
  else st.ret 0

/-- Lines 259 to 309. -/
def runMode (pf : Platform) (ext : Extern) (p : Parsed) : Run :=
  let st := saveTerm pf ext p.st
  if st.g.dont_have_tty ≠ 0 ∧ p.mode ≠ 110 then
    (st.complain "Attaching to a session requires a terminal.\n").ret 1
  else dispatch pf ext p.mode p.command st

/-- The function `main`. With an empty argument vector `argv[0]` is the null
pointer, which the first `printf` is handed for `%s`: no behaviour is
defined. -/
def main (pf : Platform) (ext : Extern) : List CStr → Run
  | [] => ⟨[], .undefined⟩
  | progname :: args =>
    match parseArgs pf ext progname args with
    | .stop r => r
    | .go p => runMode pf ext p

/-- The block starts with the bytes `l`. -/
def Block.Holds (b : Block) (l : List Nat) : Prop := ∀ k, k < l.length → b.mem k = l.getD k 0

/-! ## Vocabulary of the statements -/

/-- The call is a call of `attach_main`. -/
def Call.isAttach : Call → Bool
  | .attach_main _ _ => true
  | _ => false

/-- The call is a call of `master_main`. -/
def Call.isMaster : Call → Bool
  | .master_main _ _ _ => true
  | _ => false

/-- The call is a call of `unlink`. -/
def Call.isUnlink : Call → Bool
  | .unlink _ => true
  | _ => false

/-- The call is a call of `mkdir`. -/
def Call.isMkdir : Call → Bool
  | .mkdir _ _ => true
  | _ => false

/-- The call is a call of `stat`. -/
def Call.isStat : Call → Bool
  | .stat _ => true
  | _ => false

/-- The call is one that `main` makes only from line 259 on: `tcgetattr`,
the entry points, `unlink`, and the messages. -/
def Call.late : Call → Bool
  | .printf _ => true
  | .tcgetattr _ => true
  | .unlink _ => true
  | .attach_main _ _ => true
  | .master_main _ _ _ => true
  | _ => false

/-- The globals found by a call of `attach_main` or `master_main`. -/
def Call.seen : Call → Option Globals
  | .attach_main _ g => some g
  | .master_main _ _ g => some g
  | _ => none

/-- The run made no call of `attach_main` and none of `master_main`. -/
def Run.noEntry (r : Run) : Prop := ∀ c ∈ r.trace, c.isAttach = false ∧ c.isMaster = false

instance (r : Run) : Decidable r.noEntry := by
  unfold Run.noEntry; infer_instance

/-- `$DTACH` applies to a socket name: the name does not begin with `/`, does
not begin with `./`, and does not contain `..`. -/
def dtachApplies (s : CStr) : Prop :=
  ¬ lit "/" <+: s ∧ ¬ lit "./" <+: s ∧ ¬ lit ".." <:+: s

instance (s : CStr) : Decidable (dtachApplies s) := by
  unfold dtachApplies; infer_instance

/-- The check of the `$DTACH` directory passes: it is there as a directory,
or it is not there and can be made. -/
def dirCheckPasses (ext : Extern) (d : CStr) : Prop :=
  ext.stat d = some true ∨ (ext.stat d = none ∧ ext.mkdir d 0o755 = 0)

instance (ext : Extern) (d : CStr) : Decidable (dirCheckPasses ext d) := by
  unfold dirCheckPasses; infer_instance

/-- The effective socket path in the words of the spec: `$DTACH/name` when
`$DTACH` is set and applies to the name, the name itself otherwise. -/
def effectivePath (dtach : Option CStr) (s : CStr) : CStr :=
  match dtach with
  | some d => if dtachApplies s then d ++ lit "/" ++ s else s
  | none => s

/-- A platform for the worked examples: signed `char`, the Linux values of
the two `errno` constants. -/
def linux : Platform :=
  { char_signed := true, ECONNREFUSED := 111, ENOENT := 2, sizeof_termios := 60,
    PACKAGE_VERSION := lit "0.8", PACKAGE_BUGREPORT := lit "crigler@users.sourceforge.net",
    DATE := lit "Jan  1 2008", TIME := lit "00:00:00" }

/-- An outside world for the worked examples: `$DTACH` is `/tmp/d`, which is
a directory; standard input is a terminal; a session is there, so that
`attach_main` returns `0`, and `master_main` returns `0`. -/
def world : Extern :=
  { getenv := fun _ => some (lit "/tmp/d")
    stat := fun _ => some true
    mkdir := fun _ _ => 0
    beyond := fun _ => 255
    tcgetattr := fun _ => some (List.replicate 60 1)
    attach_main := fun _ => 0
    master_main := fun _ => 0
    errno := fun _ => 0 }

/-- Two values of the globals differ at most in the three option settings. -/
def Globals.sameButOptions (g g' : Globals) : Prop :=
  g'.progname = g.progname ∧ g'.sockname = g.sockname ∧ g'.dtach_env = g.dtach_env ∧
    g'.orig_term = g.orig_term ∧ g'.dont_have_tty = g.dont_have_tty

/-- The call puts out a message or ends the process. -/
def Call.quiet : Call → Bool
  | .printf _ => true
  | .perror _ => true
  | .exit _ => true
  | _ => false

/-- The string left in the block of the combined path. -/
def joinedPath (beyond : Nat → Nat) (d s : CStr) : CStr :=
  ((joinPath beyond d s).bind Block.str).getD []

/-- The call is one that `main` makes before line 259: the messages and the
look at `$DTACH`. -/
def Call.startup : Call → Bool
  | .printf _ => true
  | .perror _ => true
  | .exit _ => true
  | .getenv _ => true
  | .stat _ => true
  | .mkdir _ _ => true
  | .calloc _ _ => true
  | _ => false

/-- Two values of the globals differ at most in `sockname` and `dtach_env`. -/
def Globals.sameButSocket (g g' : Globals) : Prop :=
  g'.progname = g.progname ∧ g'.detach_char = g.detach_char ∧ g'.no_suspend = g.no_suspend ∧
    g'.redraw_method = g.redraw_method ∧ g'.orig_term = g.orig_term ∧
    g'.dont_have_tty = g.dont_have_tty

/-- An outside world for the worked examples: `$DTACH` is unset, standard
input is a terminal, and a stale socket is in the way: `attach_main(1)`
returns `1` with `errno` equal to `ECONNREFUSED`; every other call of
`attach_main` returns `7`, and `master_main` returns `0`. -/
def staleWorld : Extern :=
  { getenv := fun _ => none
    stat := fun _ => none
    mkdir := fun _ _ => 0
    beyond := fun _ => 255
    tcgetattr := fun _ => some (List.replicate 60 1)
    attach_main := fun tr =>
      match tr.getLast? with
      | some (.attach_main 1 _) => 1
      | _ => 7
    master_main := fun _ => 0
    errno := fun _ => 111 }

/-- What the argument checks hand over for `dtach <mode> /tmp/s vi` without
`$DTACH`. -/
def parsedFor (mode : Int) : Parsed :=
  { mode := mode
    command := [lit "vi"]
    st := { g := { Globals.init linux with progname := some (lit "dtach")
                                           sockname := some (lit "/tmp/s") }
            trace := [.getenv (lit "DTACH")] } }

/-- An outside world for the worked examples: as `staleWorld`, but standard
input is not a terminal. -/
def noTtyWorld : Extern := { staleWorld with tcgetattr := fun _ => none }

/-- An option, as the usage text lists them: `-E`, `-z`, `-e <char>`,
`-r <method>`. -/
inductive Opt
  | E
  | z
  | e (value : CStr)
  | r (value : CStr)
deriving DecidableEq, Repr

/-- The letter is one of the two options without a value, `E` and `z`. -/
def isFlag (c : Nat) : Prop := c = 69 ∨ c = 122

instance (c : Nat) : Decidable (isFlag c) := by
  unfold isFlag; infer_instance

/-- The option that a letter `E` or `z` stands for. -/
def flagOpt (c : Nat) : Opt := if c = 69 then .E else .z

/-- The string is one of the three redraw methods of the usage text. -/
def isMethod (v : CStr) : Prop := v = lit "none" ∨ v = lit "ctrl_l" ∨ v = lit "winch"

instance (v : CStr) : Decidable (isMethod v) := by
  unfold isMethod; infer_instance

/-- The grammar of the options: `Opts args opts` says that the arguments
`args` are option arguments throughout and spell the options `opts`, in
order. An option argument is `-` followed by letters `E` and `z`, at the end
of which a letter `e` or `r` may stand; the value of that letter is the next
argument, and what follows the letter inside its own argument is no option.
The value of `r` is one of the three methods. -/
inductive Opts : List CStr → List Opt → Prop
  | done : Opts [] []
  | flags (l : List Nat) (rest : List CStr) (opts : List Opt) :
      (∀ c ∈ l, isFlag c) → Opts rest opts →
      Opts ((45 :: l) :: rest) (l.map flagOpt ++ opts)
  | e (l junk : List Nat) (v : CStr) (rest : List CStr) (opts : List Opt) :
      (∀ c ∈ l, isFlag c) → Opts rest opts →
      Opts ((45 :: (l ++ 101 :: junk)) :: v :: rest) (l.map flagOpt ++ .e v :: opts)
  | r (l junk : List Nat) (v : CStr) (rest : List CStr) (opts : List Opt) :
      (∀ c ∈ l, isFlag c) → isMethod v → Opts rest opts →
      Opts ((45 :: (l ++ 114 :: junk)) :: v :: rest) (l.map flagOpt ++ .r v :: opts)

/-- The effect of one option on the globals, in the words of the usage text:
`-E` disables the detach character (the value `-1`), `-z` sets `no_suspend`,
`-e` sets the detach character (to what lines 201 to 209 make of its value),
`-r` sets the redraw method. -/
def Opt.apply (pf : Platform) : Opt → Globals → Globals
  | .E, g => { g with detach_char := -1 }
  | .z, g => { g with no_suspend := 1 }
  | .e v, g => { g with detach_char := escapeChar pf v }
  | .r v, g =>
    match redrawMethod v with
    | some m => { g with redraw_method := m }
    | none => g

/-- The effect of a list of options, first to last. -/
def applyOpts (pf : Platform) (opts : List Opt) (g : Globals) : Globals :=
  opts.foldl (fun g o => o.apply pf g) g

/-- The letter is one of the four mode letters `a`, `A`, `c`, `n`. -/
def isModeLetter (c : Nat) : Prop := c = 97 ∨ c = 65 ∨ c = 99 ∨ c = 110

instance (c : Nat) : Decidable (isModeLetter c) := by
  unfold isModeLetter; infer_instance

/-- The argument names a mode: it is `-` followed by a mode letter (and by
anything). -/
def validMode (a : CStr) : Prop := charAt a 0 = 45 ∧ isModeLetter (charAt a 1)

instance (a : CStr) : Decidable (validMode a) := by
  unfold validMode; infer_instance

/-- The argument asks for the help text or for the version: it begins with
`-` and is the beginning of `--help` or of `--version`, or its second byte is
`?`. -/
def helpRequest (a : CStr) : Prop :=
  charAt a 0 = 45 ∧ (a <+: lit "--help" ∨ a <+: lit "--version" ∨ charAt a 1 = 63)

instance (a : CStr) : Decidable (helpRequest a) := by
  unfold helpRequest; infer_instance

/-- The usage errors, on the arguments after the program name. In the last
five cases the mode argument is valid, `s` is the socket name, and `pre` is a
list of options (grammar `Opts`) that comes before the place of the error.
* `no_args`, `no_mode`: there is no first argument, or it does not begin
  with `-`.
* `bad_mode`: the first argument begins with `-`, is no request for help or
  version, and its second byte is no mode letter.
* `no_socket`: nothing follows the mode argument.
* `bad_letter`: an option argument has, after letters `E` and `z` only, a
  letter that is none of `E`, `z`, `e`, `r`.
* `no_value`: the last argument is an option argument that has, after
  letters `E` and `z` only, a letter `e` or `r`.
* `bad_method`: the value of `r` is none of the three methods.
* `no_command`: the mode is not `a` and the options are the last arguments.
* `extra_args`: the mode is `a` and an argument that does not begin with `-`
  follows the options. -/
inductive UsageError : List CStr → Prop
  | no_args : UsageError []
  | no_mode (a : CStr) (rest : List CStr) : charAt a 0 ≠ 45 → UsageError (a :: rest)
  | bad_mode (a : CStr) (rest : List CStr) :
      charAt a 0 = 45 → ¬ helpRequest a → ¬ isModeLetter (charAt a 1) → UsageError (a :: rest)
  | no_socket (a : CStr) : validMode a → UsageError [a]
  | bad_letter (a s : CStr) (pre : List CStr) (opts : List Opt) (l : List Nat) (c : Nat)
      (junk : List Nat) (more : List CStr) :
      validMode a → Opts pre opts → (∀ x ∈ l, isFlag x) →
      c ≠ 69 → c ≠ 122 → c ≠ 101 → c ≠ 114 →
      UsageError (a :: s :: (pre ++ (45 :: (l ++ c :: junk)) :: more))
  | no_value (a s : CStr) (pre : List CStr) (opts : List Opt) (l : List Nat) (c : Nat)
      (junk : List Nat) :
      validMode a → Opts pre opts → (∀ x ∈ l, isFlag x) → (c = 101 ∨ c = 114) →
      UsageError (a :: s :: (pre ++ [45 :: (l ++ c :: junk)]))
  | bad_method (a s : CStr) (pre : List CStr) (opts : List Opt) (l junk : List Nat)
      (v : CStr) (more : List CStr) :
      validMode a → Opts pre opts → (∀ x ∈ l, isFlag x) → ¬ isMethod v →
      UsageError (a :: s :: (pre ++ (45 :: (l ++ 114 :: junk)) :: v :: more))
  | no_command (a s : CStr) (pre : List CStr) (opts : List Opt) :
      validMode a → charAt a 1 ≠ 97 → Opts pre opts → UsageError (a :: s :: pre)
  | extra_args (a s : CStr) (pre : List CStr) (opts : List Opt) (x : CStr)
      (more : List CStr) :
      validMode a → charAt a 1 = 97 → Opts pre opts → charAt x 0 ≠ 45 →
      UsageError (a :: s :: (pre ++ x :: more))

/-- A run that ended with `return 1` without a call of an entry point. -/
def Run.failed (r : Run) : Prop := r.result = .returned 1 ∧ r.noEntry

/-- The redraw method that a value of `-r` names, in the words of the usage
text; `none` for a string that names no method. -/
def methodNamed (v : CStr) : Option Redraw :=
  if v = lit "none" then some .REDRAW_NONE
  else if v = lit "ctrl_l" then some .REDRAW_CTRL_L
  else if v = lit "winch" then some .REDRAW_WINCH
  else none

/-- The second argument of a call of `master_main`. -/
def Call.masterFlag : Call → Option Int
  | .master_main _ waitattach _ => some waitattach
  | _ => none

/-- The arguments from the first one that does not begin with `-` on. -/
def fromFirstNonDash (args : List CStr) : List CStr :=
  args.dropWhile fun x => decide (charAt x 0 = 45)

/-- The argument list of a call of `master_main`. -/
def Call.masterArgv : Call → Option (List CStr)
  | .master_main argv _ _ => some argv
  | _ => none

/-- The globals with the variable `dtach_env` put back to the null pointer. -/
def Globals.unsetEnv (g : Globals) : Globals := { g with dtach_env := none }

/-- A call with `dtach_env` put back to the null pointer in the globals that
an entry point finds. -/
def Call.unsetEnv : Call → Call
  | .attach_main n g => .attach_main n g.unsetEnv
  | .master_main argv n g => .master_main argv n g.unsetEnv
  | c => c

/-- A state seen through `unsetEnv`. -/
def St.unsetEnv (st : St) : St :=
  { g := st.g.unsetEnv, trace := st.trace.map Call.unsetEnv }

/-- A run seen through `unsetEnv`: the same calls and the same end, but for
the value of `dtach_env` found by the entry points. -/
def Run.unsetEnv (r : Run) : Run := ⟨r.trace.map Call.unsetEnv, r.result⟩

/-- The outcome of the loop over the letters seen through `unsetEnv`. -/
def Letters.unsetEnv : Letters → Letters
  | .finished g => .finished g.unsetEnv
  | .at_e g => .at_e g.unsetEnv
  | .at_r g => .at_r g.unsetEnv
  | .bad c => .bad c

/-- The world `ext0` is the world `ext` with `$DTACH` unset: `getenv` finds
no `DTACH`, standard input is the same, and the entry points and `errno`
answer as in `ext`, where they are not told the value of `dtach_env`. What
`stat` and `mkdir` answer is left open in both. -/
def unsetWorld (ext ext0 : Extern) : Prop :=
  ext0.getenv (lit "DTACH") = none ∧ ext0.tcgetattr 0 = ext.tcgetattr 0 ∧
  (∀ tr, ext.attach_main tr = ext0.attach_main (tr.map Call.unsetEnv)) ∧
  (∀ tr, ext.master_main tr = ext0.master_main (tr.map Call.unsetEnv)) ∧
  (∀ tr, ext.errno tr = ext0.errno (tr.map Call.unsetEnv))

/-- The result of the option loop seen through `unsetEnv`. -/
def Stage.unsetEnvOpts : Stage (List CStr × St) → Stage (List CStr × St)
  | .stop r => .stop r.unsetEnv
  | .go (cmd, st) => .go (cmd, st.unsetEnv)

/-- What the argument checks hand over, seen through `unsetEnv`. -/
def Parsed.unsetEnv (p : Parsed) : Parsed := { p with st := p.st.unsetEnv }

/-- An outside world for the worked examples: `world` with `$DTACH` unset. -/
def worldUnset : Extern := { world with getenv := fun _ => none }

/-- The text written by a call of `printf`, which goes to standard output. -/
def Call.printed : Call → Option (List Nat)
  | .printf out => some out
  | _ => none

/-- The call writes to standard error: `main` does so by `perror` only. -/
def Call.isPerror : Call → Bool
  | .perror _ => true
  | _ => false

/-- All that a run wrote to standard output. -/
def Run.stdout (r : Run) : List Nat := (r.trace.filterMap Call.printed).flatten

/-- The calls of a run that wrote to standard error. -/
def Run.stderr (r : Run) : List Call := r.trace.filter Call.isPerror

/-- The call writes nothing: `getenv`, `stat`, `mkdir`, `calloc`,
`tcgetattr`. -/
def Call.silent : Call → Bool
  | .getenv _ => true
  | .stat _ => true
  | .mkdir _ _ => true
  | .calloc _ _ => true
  | .tcgetattr _ => true
  | _ => false

/-- The two calls of `printf` of a usage error: the message after the
program name, and the line that points to `--help`. -/
def usageLines (prog m : List Nat) : List Call :=
  [.printf (prog ++ lit ": " ++ m ++ lit "\n"),
   .printf (lit "Try '" ++ prog ++ lit " --help' for more information.\n")]

/-- The startup errors that `main` detects, as the specification lists
them. An invalid mode and an invalid option come with the offending letter,
and `$DTACH` with its value: the diagnostic repeats them. -/
inductive StartupError
  | no_mode
  | bad_mode (c : Nat)
  | no_socket
  | bad_option (c : Nat)
  | no_escape
  | no_method
  | bad_method
  | no_command
  | no_tty
  | arg_count
  | not_dir (d : CStr)
deriving DecidableEq, Repr

/-- The message of a startup error: what follows the program name and `": "`
on the first line of the diagnostic. -/
def StartupError.message : StartupError → List Nat
  | .no_mode => lit "No mode was specified."
  | .bad_mode c => lit "Invalid mode '-" ++ [c] ++ lit "'"
  | .no_socket => lit "No socket was specified."
  | .bad_option c => lit "Invalid option '-" ++ [c] ++ lit "'"
  | .no_escape => lit "No escape character specified."
  | .no_method => lit "No redraw method specified."
  | .bad_method => lit "Invalid redraw method specified."
  | .no_command => lit "No command was specified."
  | .no_tty => lit "Attaching to a session requires a terminal."
  | .arg_count => lit "Invalid number of arguments."
  | .not_dir _ => lit "$DTACH exists but is not a directory."

/-- What the diagnostic holds after its first line: nothing for the missing
terminal, two more lines for `$DTACH`, and the pointer to `--help` for the
usage errors. -/
def StartupError.further (prog : CStr) : StartupError → List Nat
  | .no_tty => []
  | .not_dir d =>
    lit "Either delete it or point $DTACH elsewhere.\n" ++ (lit "$DTACH is: " ++ d ++ lit "\n")
  | _ => lit "Try '" ++ prog ++ lit " --help' for more information.\n"

/-- The whole diagnostic of a startup error for the program name `prog`. -/
def StartupError.text (prog : CStr) (k : StartupError) : List Nat :=
  prog ++ lit ": " ++ k.message ++ lit "\n" ++ k.further prog

/-- The number of lines of the diagnostic. -/
def StartupError.lines : StartupError → Nat
  | .no_tty => 1
  | .not_dir _ => 3
  | _ => 2

/-- The bytes that the diagnostic repeats from the input, the program name
apart: the letter of an invalid mode or option, the value of `$DTACH`. -/
def StartupError.echoed : StartupError → List Nat
  | .bad_mode c => [c]
  | .bad_option c => [c]
  | .not_dir d => d
  | _ => []

/-- Lines 138 to 177 find nothing wrong with `$DTACH` for the socket name
`s`: where `$DTACH` is set and applies to `s`, it is a directory or can be
made. -/
def socketPasses (ext : Extern) (s : CStr) : Prop :=
  ∀ d, ext.getenv (lit "DTACH") = some d → dtachApplies s → dirCheckPasses ext d

/-- The startup error that `main` detects in the arguments after the program
name, which is the first one in the order of its checks. In the cases after
`no_socket` the mode argument `a` is valid and `s` is the socket name; in
the cases after `not_dir` nothing is wrong with `$DTACH`, and `pre` is a
list of options (grammar `Opts`) before the place of the error.
* `no_args`, `no_mode`: there is no first argument, or it does not begin
  with `-`.
* `bad_mode`: the first argument begins with `-`, is no request for help or
  version, and its second byte is no mode letter.
* `no_socket`: nothing follows the mode argument.
* `not_dir`: `$DTACH` is set, applies to the socket name, and is a file of
  another kind than a directory.
* `bad_option`: an option argument has, after letters `E` and `z` only, a
  letter `c` that is none of `E`, `z`, `e`, `r`.
* `no_escape`, `no_method`: the last argument is an option argument that
  has, after letters `E` and `z` only, a letter `e`, or `r`.
* `bad_method`: the value of `r` is none of the three methods.
* `no_command`: the mode is not `a` and the options are the last arguments.
* `no_tty`: the arguments are in order, the mode is not `n`, and
  `tcgetattr` fails.
* `arg_count`: the mode is `a`, an argument that does not begin with `-`
  follows the options, and `tcgetattr` succeeds. -/
inductive Detected (ext : Extern) : List CStr → StartupError → Prop
  | no_args : Detected ext [] .no_mode
  | no_mode (a : CStr) (rest : List CStr) : charAt a 0 ≠ 45 → Detected ext (a :: rest) .no_mode
  | bad_mode (a : CStr) (rest : List CStr) :
      charAt a 0 = 45 → ¬ helpRequest a → ¬ isModeLetter (charAt a 1) →
      Detected ext (a :: rest) (.bad_mode (charAt a 1))
  | no_socket (a : CStr) : validMode a → Detected ext [a] .no_socket
  | not_dir (a s d : CStr) (rest : List CStr) :
      validMode a → ext.getenv (lit "DTACH") = some d → dtachApplies s →
      ext.stat d = some false → Detected ext (a :: s :: rest) (.not_dir d)
  | bad_option (a s : CStr) (pre : List CStr) (opts : List Opt) (l : List Nat) (c : Nat)
      (junk : List Nat) (more : List CStr) :
      validMode a → socketPasses ext s → Opts pre opts → (∀ x ∈ l, isFlag x) →
      c ≠ 69 → c ≠ 122 → c ≠ 101 → c ≠ 114 →
      Detected ext (a :: s :: (pre ++ (45 :: (l ++ c :: junk)) :: more)) (.bad_option c)
  | no_escape (a s : CStr) (pre : List CStr) (opts : List Opt) (l junk : List Nat) :
      validMode a → socketPasses ext s → Opts pre opts → (∀ x ∈ l, isFlag x) →
      Detected ext (a :: s :: (pre ++ [45 :: (l ++ 101 :: junk)])) .no_escape
  | no_method (a s : CStr) (pre : List CStr) (opts : List Opt) (l junk : List Nat) :
      validMode a → socketPasses ext s → Opts pre opts → (∀ x ∈ l, isFlag x) →
      Detected ext (a :: s :: (pre ++ [45 :: (l ++ 114 :: junk)])) .no_method
  | bad_method (a s : CStr) (pre : List CStr) (opts : List Opt) (l junk : List Nat)
      (v : CStr) (more : List CStr) :
      validMode a → socketPasses ext s → Opts pre opts → (∀ x ∈ l, isFlag x) →
      ¬ isMethod v →
      Detected ext (a :: s :: (pre ++ (45 :: (l ++ 114 :: junk)) :: v :: more)) .bad_method
  | no_command (a s : CStr) (pre : List CStr) (opts : List Opt) :
      validMode a → socketPasses ext s → charAt a 1 ≠ 97 → Opts pre opts →
      Detected ext (a :: s :: pre) .no_command
  | no_tty (a s : CStr) (pre : List CStr) (opts : List Opt) (cmd : List CStr) :
      validMode a → socketPasses ext s → charAt a 1 ≠ 110 → Opts pre opts →
      charAt (cmd.headD []) 0 ≠ 45 → (charAt a 1 ≠ 97 → cmd ≠ []) →
      ext.tcgetattr 0 = none → Detected ext (a :: s :: (pre ++ cmd)) .no_tty
  | arg_count (a s : CStr) (pre : List CStr) (opts : List Opt) (x : CStr)
      (more : List CStr) (t : List Nat) :
      validMode a → socketPasses ext s → charAt a 1 = 97 → Opts pre opts →
      charAt x 0 ≠ 45 → ext.tcgetattr 0 = some t →
      Detected ext (a :: s :: (pre ++ x :: more)) .arg_count

/-- The run ended with `return 1` without a call of an entry point, wrote
the diagnostic of the error `k` to standard output and nothing to standard
error. -/
def Run.reports (r : Run) (prog : CStr) (k : StartupError) : Prop :=
  r.result = .returned 1 ∧ r.noEntry ∧ r.stdout = k.text prog ∧ r.stderr = []

/-! # Theorems -/

/-! ## The string functions -/

theorem lit_slash : lit "/" = [47] := by decide
theorem lit_dotslash : lit "./" = [46, 47] := by decide
theorem lit_dotdot : lit ".." = [46, 46] := by decide

theorem strncmp_slash (s : CStr) : strncmp s (lit "/") 1 ≠ 0 ↔ ¬ lit "/" <+: s := by
  rw [lit_slash]
  cases s with
  | nil => simp [strncmp, charAt]
  | cons x t =>
    by_cases h : x = 47
    · subst h; simp [strncmp, charAt]
    · have : (x : Int) - 47 ≠ 0 := by omega
      simp [strncmp, charAt, h, this]; omega

theorem strncmp_dotslash (s : CStr) : strncmp s (lit "./") 2 ≠ 0 ↔ ¬ lit "./" <+: s := by
  rw [lit_dotslash]
  match s with
  | [] => simp [strncmp, charAt]
  | [x] =>
    by_cases h : x = 46
    · subst h; simp [strncmp, charAt]
    · have : (x : Int) - 46 ≠ 0 := by omega
      simp [strncmp, charAt, h, this]
  | x :: y :: t =>
    by_cases h : x = 46
    · subst h
      by_cases h2 : y = 47
      · subst h2; simp [strncmp, charAt]
      · have : (y : Int) - 47 ≠ 0 := by omega
        simp [strncmp, charAt, h2, this]; omega
    · have : (x : Int) - 46 ≠ 0 := by omega
      simp [strncmp, charAt, h, this]; omega

theorem strstr_isSome (s n : CStr) : (strstr s n).isSome ↔ n <:+: s := by
  induction s with
  | nil => cases n <;> simp [strstr]
  | cons x t ih =>
    rw [strstr, List.infix_cons_iff]
    by_cases h : n.isPrefixOf (x :: t) = true
    · simp [h, List.isPrefixOf_iff_prefix.mp h]
    · have h' : ¬ n <+: x :: t := fun hp => h (List.isPrefixOf_iff_prefix.mpr hp)
      simp [h, h', ih]


/-! ## The block of the combined path -/

theorem storeAll_size (b : Block) (i : Nat) (vs : List Nat) :
    (b.storeAll i vs).size = b.size := by
  induction vs generalizing b i with
  | nil => rfl
  | cons v vs ih => simp [Block.storeAll, ih, Block.store]

theorem storeAll_mem_lt (b : Block) (i : Nat) (vs : List Nat) (j : Nat) (h : j < i) :
    (b.storeAll i vs).mem j = b.mem j := by
  induction vs generalizing b i with
  | nil => rfl
  | cons v vs ih =>
    rw [Block.storeAll, ih _ _ (by omega)]
    simp [Block.store]; omega

theorem storeAll_mem_ge (b : Block) (i : Nat) (vs : List Nat) (j : Nat)
    (h : i + vs.length ≤ j) : (b.storeAll i vs).mem j = b.mem j := by
  induction vs generalizing b i with
  | nil => rfl
  | cons v vs ih =>
    simp only [List.length_cons] at h
    rw [Block.storeAll, ih _ _ (by omega)]
    simp [Block.store]; omega

theorem storeAll_mem_at (b : Block) (i : Nat) (vs : List Nat) (k : Nat) (h : k < vs.length) :
    (b.storeAll i vs).mem (i + k) = vs.getD k 0 := by
  induction vs generalizing b i k with
  | nil => simp at h
  | cons v vs ih =>
    cases k with
    | zero =>
      rw [Block.storeAll, storeAll_mem_lt _ _ _ _ (by omega)]
      simp [Block.store]
    | succ k =>
      simp only [List.length_cons] at h
      rw [Block.storeAll, show i + (k + 1) = (i + 1) + k by omega, ih _ _ _ (by omega)]
      simp

theorem Holds_storeAll_zero (b : Block) (vs : List Nat) : (b.storeAll 0 vs).Holds vs := by
  intro k hk
  have := storeAll_mem_at b 0 vs k hk
  simpa using this

theorem Holds_append (b : Block) (l vs : List Nat) (h : b.Holds l) :
    (b.storeAll l.length vs).Holds (l ++ vs) := by
  intro k hk
  by_cases hl : k < l.length
  · rw [storeAll_mem_lt _ _ _ _ hl, h k hl]
    simp [List.getD_eq_getElem?_getD, List.getElem?_append_left hl]
  · have hk' : k - l.length < vs.length := by simp at hk; omega
    have := storeAll_mem_at b l.length vs (k - l.length) hk'
    rw [show l.length + (k - l.length) = k by omega] at this
    rw [this]
    simp [List.getD_eq_getElem?_getD, List.getElem?_append_right (Nat.le_of_not_lt hl)]

theorem nul_find (b : Block) (fuel i e : Nat) (hie : i ≤ e) (hfuel : e < i + fuel)
    (hnz : ∀ k, i ≤ k → k < e → b.mem k ≠ 0) (hz : b.mem e = 0) :
    b.nul fuel i = some e := by
  induction fuel generalizing i with
  | zero => omega
  | succ fuel ih =>
    rw [Block.nul]
    by_cases h : i = e
    · subst h; simp [hz]
    · have : b.mem i ≠ 0 := hnz i (le_refl _) (by omega)
      simp only [this, if_false]
      exact ih (i + 1) (by omega) (by omega) (fun k hk1 hk2 => hnz k (by omega) hk2)

theorem nul_exists (b : Block) (fuel i e : Nat) (hie : i ≤ e) (hfuel : e < i + fuel)
    (hz : b.mem e = 0) : ∃ e', b.nul fuel i = some e' ∧ e' ≤ e := by
  induction fuel generalizing i with
  | zero => omega
  | succ fuel ih =>
    rw [Block.nul]
    by_cases h : b.mem i = 0
    · exact ⟨i, by simp [h], hie⟩
    · simp only [h, if_false]
      have : i ≠ e := fun hh => h (hh ▸ hz)
      exact ih (i + 1) (by omega) (by omega)

/-- A block that starts with `l` and a NUL, `l` without NUL byte and no longer
than the block, holds the string `l`. -/
theorem Holds_strend (b : Block) (l : List Nat) (h : b.Holds (l ++ [0])) (hl : ∀ x ∈ l, x ≠ 0)
    (hsz : l.length ≤ b.size) : b.strend = some l.length := by
  apply nul_find
  · omega
  · omega
  · intro k _ hk
    rw [h k (by simp; omega)]
    simp only [List.getD_eq_getElem?_getD, List.getElem?_append_left hk]
    rw [List.getElem?_eq_getElem hk]
    exact hl _ (List.getElem_mem _)
  · rw [h l.length (by simp)]
    simp [List.getD_eq_getElem?_getD]

theorem Holds_front (b : Block) (l l' : List Nat) (h : b.Holds (l ++ l')) : b.Holds l := by
  intro k hk
  rw [h k (by simp; omega)]
  simp [List.getD_eq_getElem?_getD, List.getElem?_append_left hk]

theorem Holds_str (b : Block) (l : List Nat) (h : b.Holds (l ++ [0])) (hl : ∀ x ∈ l, x ≠ 0)
    (hsz : l.length ≤ b.size) : b.str = some l := by
  rw [Block.str, Holds_strend b l h hl hsz]
  simp only [Option.map_some', Option.some.injEq]
  apply List.ext_getElem
  · simp
  · intro n h1 h2
    simp only [List.getElem_map, List.getElem_range]
    rw [Holds_front b l [0] h n h2]
    simp [List.getD_eq_getElem?_getD, List.getElem?_eq_getElem h2]

theorem Holds_snoc (b : Block) (l : List Nat) (v : Nat) (h : b.Holds l)
    (hv : b.mem l.length = v) : b.Holds (l ++ [v]) := by
  intro k hk
  by_cases hl : k < l.length
  · rw [h k hl]; simp [List.getD_eq_getElem?_getD, List.getElem?_append_left hl]
  · have : k = l.length := by simp at hk; omega
    subst this
    simp [hv, List.getD_eq_getElem?_getD]

theorem strncpy_all (b : Block) (d : CStr) : strncpy b d (strlen d) = b.storeAll 0 d := by
  simp [strncpy, strlen]

theorem strncpy_size (b : Block) (d : CStr) (n : Nat) : (strncpy b d n).size = b.size := by
  simp [strncpy, storeAll_size]

theorem calloc_size (n : Nat) (beyond : Nat → Nat) : (calloc n beyond).size = n := rfl

theorem strncpy_calloc_mem (beyond : Nat → Nat) (d : CStr) (n : Nat) (h : d.length < n) :
    (strncpy (calloc n beyond) d (strlen d)).mem d.length = 0 := by
  rw [strncpy_all, storeAll_mem_ge _ _ _ _ (by omega)]
  simp [calloc, h]

theorem joinPath_eq (beyond : Nat → Nat) (d s : CStr) (hd : ∀ x ∈ d, x ≠ 0)
    (hs : ∀ x ∈ s, x ≠ 0) :
    (joinPath beyond d s).bind Block.str = some (d ++ lit "/" ++ s) := by
  have h1 : (strncpy (calloc (strlen s + strlen d + 1) beyond) d (strlen d)).Holds (d ++ [0]) := by
    apply Holds_snoc _ _ _ (by rw [strncpy_all]; exact Holds_storeAll_zero _ _)
    exact strncpy_calloc_mem _ _ _ (by simp [strlen]; omega)
  have e1 := Holds_strend _ _ h1 hd (by rw [strncpy_size, calloc_size]; simp [strlen]; omega)
  have h2 := Holds_append _ d (List.take 1 (lit "/") ++ [0]) (Holds_front _ _ _ h1)
  have h2' : List.take 1 (lit "/") ++ [0] = [47, 0] := by decide
  rw [h2'] at h2
  rw [show d ++ [47, 0] = (d ++ [47]) ++ [0] by simp] at h2
  have e2 := Holds_strend _ _ h2 (by
      intro x hx
      rcases List.mem_append.mp hx with h | h
      · exact hd x h
      · simp at h; omega)
    (by rw [storeAll_size, strncpy_size, calloc_size]; simp [strlen])
  have h3 := Holds_append _ (d ++ [47]) (List.take (strlen s) s ++ [0]) (Holds_front _ _ _ h2)
  rw [show List.take (strlen s) s = s by simp [strlen]] at h3
  rw [show d ++ [47] ++ (s ++ [0]) = (d ++ [47] ++ s) ++ [0] by simp] at h3
  have e3 := Holds_str _ _ h3 (by
      intro x hx
      simp only [List.mem_append, List.mem_singleton] at hx
      rcases hx with (h | h) | h
      · exact hd x h
      · omega
      · exact hs x h)
    (by rw [storeAll_size, storeAll_size, strncpy_size, calloc_size]; simp [strlen]; omega)
  simp only [joinPath, strncat, e1, h2', Option.map_some', Option.some_bind, e2,
    show List.take (strlen s) s = s by simp [strlen]]
  rw [lit_slash]
  simpa using e3

theorem joinPath_defined (beyond : Nat → Nat) (d s : CStr) :
    ((joinPath beyond d s).bind Block.str).isSome = true := by
  have m1 := strncpy_calloc_mem beyond d (strlen s + strlen d + 1) (by simp [strlen]; omega)
  obtain ⟨e1, he1, hle1⟩ := nul_exists _ (strlen s + strlen d + 1 + 1) 0 _ (Nat.zero_le _)
    (by simp [strlen]; omega) m1
  have h2' : List.take 1 (lit "/") ++ [0] = [47, 0] := by decide
  have m2 : ((strncpy (calloc (strlen s + strlen d + 1) beyond) d (strlen d)).storeAll
      e1 [47, 0]).mem (e1 + 1) = 0 := by
    simpa using storeAll_mem_at (strncpy (calloc (strlen s + strlen d + 1) beyond) d (strlen d))
      e1 [47, 0] 1 (by simp)
  obtain ⟨e2, he2, hle2⟩ := nul_exists _ (strlen s + strlen d + 1 + 1) 0 _ (Nat.zero_le _)
    (by simp [strlen]; omega) m2
  have m3 : (((strncpy (calloc (strlen s + strlen d + 1) beyond) d (strlen d)).storeAll
      e1 [47, 0]).storeAll e2 (s ++ [0])).mem (e2 + s.length) = 0 := by
    rw [storeAll_mem_at _ _ _ _ (by simp)]
    simp [List.getD_eq_getElem?_getD]
  obtain ⟨e3, he3, _⟩ := nul_exists _ (strlen s + strlen d + 1 + 1) 0 _ (Nat.zero_le _)
    (by simp [strlen]; omega) m3
  simp only [joinPath, strncat, Block.strend, strncpy_size, calloc_size, he1, h2',
    Option.map_some', Option.some_bind,
    storeAll_size, he2, show List.take (strlen s) s = s by simp [strlen], Block.str, he3,
    Option.isSome_some]


/-! ## The parts of `main` -/

theorem sameButOptions_refl (g : Globals) : g.sameButOptions g := ⟨rfl, rfl, rfl, rfl, rfl⟩

theorem sameButOptions_trans {g g' g'' : Globals} (h : g.sameButOptions g')
    (h' : g'.sameButOptions g'') : g.sameButOptions g'' := by
  obtain ⟨a, b, c, d, e⟩ := h
  obtain ⟨a', b', c', d', e'⟩ := h'
  exact ⟨a'.trans a, b'.trans b, c'.trans c, d'.trans d, e'.trans e⟩

theorem scanLetters_same (l : List Nat) (g : Globals) :
    (∀ g', scanLetters l g = .finished g' → g.sameButOptions g') ∧
    (∀ g', scanLetters l g = .at_e g' → g.sameButOptions g') ∧
    (∀ g', scanLetters l g = .at_r g' → g.sameButOptions g') := by
  induction l, g using scanLetters.induct with
  | case1 g => simp [scanLetters, sameButOptions_refl]
  | case2 ps g ih =>
    simp only [scanLetters, if_true]
    refine ⟨fun g' h => ?_, fun g' h => ?_, fun g' h => ?_⟩
    · exact sameButOptions_trans ⟨rfl, rfl, rfl, rfl, rfl⟩ (ih.1 g' h)
    · exact sameButOptions_trans ⟨rfl, rfl, rfl, rfl, rfl⟩ (ih.2.1 g' h)
    · exact sameButOptions_trans ⟨rfl, rfl, rfl, rfl, rfl⟩ (ih.2.2 g' h)
  | case3 ps g _ ih =>
    simp only [scanLetters]
    refine ⟨fun g' h => ?_, fun g' h => ?_, fun g' h => ?_⟩
    · exact sameButOptions_trans ⟨rfl, rfl, rfl, rfl, rfl⟩ (ih.1 g' (by simpa using h))
    · exact sameButOptions_trans ⟨rfl, rfl, rfl, rfl, rfl⟩ (ih.2.1 g' (by simpa using h))
    · exact sameButOptions_trans ⟨rfl, rfl, rfl, rfl, rfl⟩ (ih.2.2 g' (by simpa using h))
  | case4 ps g _ _ =>
    simp [scanLetters, sameButOptions_refl]
  | case5 ps g _ _ _ =>
    simp [scanLetters, sameButOptions_refl]
  | case6 p ps g h1 h2 h3 h4 => simp [scanLetters, h1, h2, h3, h4]

theorem parseOptions_go (pf : Platform) (args : List CStr) (st : St) :
    ∀ cmd st', parseOptions pf args st = .go (cmd, st') →
      st'.trace = st.trace ∧ st.g.sameButOptions st'.g ∧ charAt (cmd.headD []) 0 ≠ 45 := by
  induction args, st using parseOptions.induct pf with
  | case1 st =>
    intro cmd st' h
    rw [parseOptions.eq_def] at h; simp only [Stage.go.injEq, Prod.mk.injEq] at h
    obtain ⟨rfl, rfl⟩ := h
    exact ⟨rfl, sameButOptions_refl _, by simp [charAt]⟩
  | case2 a st ha g rest hs ih =>
    intro cmd st' h
    rw [parseOptions.eq_def] at h; simp only [ha, if_true, hs] at h
    obtain ⟨h1, h2, h3⟩ := ih cmd st' h
    exact ⟨h1, sameButOptions_trans ((scanLetters_same _ _).1 g hs) h2, h3⟩
  | case3 a st ha g hs =>
    intro cmd st' h
    rw [parseOptions.eq_def] at h; simp [ha, hs] at h
  | case4 a st ha g v rest hs ih =>
    intro cmd st' h
    rw [parseOptions.eq_def] at h; simp only [ha, if_true, hs] at h
    obtain ⟨h1, h2, h3⟩ := ih cmd st' h
    exact ⟨h1, sameButOptions_trans ((scanLetters_same _ _).2.1 g hs)
      (sameButOptions_trans ⟨rfl, rfl, rfl, rfl, rfl⟩ h2), h3⟩
  | case5 a st ha g hs =>
    intro cmd st' h
    rw [parseOptions.eq_def] at h; simp [ha, hs] at h
  | case6 a st ha g v rest hs m hm ih =>
    intro cmd st' h
    rw [parseOptions.eq_def] at h; simp only [ha, if_true, hs, hm] at h
    obtain ⟨h1, h2, h3⟩ := ih cmd st' h
    exact ⟨h1, sameButOptions_trans ((scanLetters_same _ _).2.2 g hs)
      (sameButOptions_trans ⟨rfl, rfl, rfl, rfl, rfl⟩ h2), h3⟩
  | case7 a st ha g v rest hs hm =>
    intro cmd st' h
    rw [parseOptions.eq_def] at h; simp [ha, hs, hm] at h
  | case8 a rest st ha c hs =>
    intro cmd st' h
    rw [parseOptions.eq_def] at h; simp [ha, hs] at h
  | case9 a rest st ha =>
    intro cmd st' h
    rw [parseOptions.eq_def] at h; simp only [ha, if_false, Stage.go.injEq, Prod.mk.injEq] at h
    obtain ⟨rfl, rfl⟩ := h
    exact ⟨rfl, sameButOptions_refl _, by simpa using ha⟩

theorem parseOptions_stop (pf : Platform) (args : List CStr) (st : St) :
    ∀ r, parseOptions pf args st = .stop r →
      r.result = .returned 1 ∧ ∃ o1 o2, r.trace = st.trace ++ [.printf o1, .printf o2] := by
  induction args, st using parseOptions.induct pf with
  | case1 st => intro r h; simp [parseOptions] at h
  | case2 a st ha g rest hs ih =>
    intro r h
    rw [parseOptions.eq_def] at h; simp only [ha, if_true, hs] at h
    exact ih r h
  | case3 a st ha g hs =>
    intro r h
    rw [parseOptions.eq_def] at h; simp only [ha, if_true, hs, Stage.stop.injEq] at h
    subst h
    simp [St.ret, St.tryHelp, St.complain, St.call]
  | case4 a st ha g v rest hs ih =>
    intro r h
    rw [parseOptions.eq_def] at h; simp only [ha, if_true, hs] at h
    exact ih r h
  | case5 a st ha g hs =>
    intro r h
    rw [parseOptions.eq_def] at h; simp only [ha, if_true, hs, Stage.stop.injEq] at h
    subst h
    simp [St.ret, St.tryHelp, St.complain, St.call]
  | case6 a st ha g v rest hs m hm ih =>
    intro r h
    rw [parseOptions.eq_def] at h; simp only [ha, if_true, hs, hm] at h
    exact ih r h
  | case7 a st ha g v rest hs hm =>
    intro r h
    rw [parseOptions.eq_def] at h; simp only [ha, if_true, hs, hm, Stage.stop.injEq] at h
    subst h
    simp [St.ret, St.tryHelp, St.complain, St.call]
  | case8 a rest st ha c hs =>
    intro r h
    rw [parseOptions.eq_def] at h; simp only [ha, if_true, hs, Stage.stop.injEq] at h
    subst h
    simp [St.ret, St.tryHelp, St.complain, St.call]
  | case9 a rest st ha =>
    intro r h
    rw [parseOptions.eq_def] at h; simp [ha] at h

theorem joinPath_some (beyond : Nat → Nat) (d s : CStr) :
    (joinPath beyond d s).bind Block.str = some (joinedPath beyond d s) := by
  have h := joinPath_defined beyond d s
  unfold joinedPath
  cases hj : (joinPath beyond d s).bind Block.str with
  | none => simp [hj] at h
  | some p => simp

theorem joinedPath_eq (beyond : Nat → Nat) (d s : CStr) (hd : CStr.WF d) (hs : CStr.WF s) :
    joinedPath beyond d s = d ++ lit "/" ++ s := by
  unfold joinedPath
  rw [joinPath_eq beyond d s (fun x hx => by have := (hd x hx).1; omega)
    (fun x hx => by have := (hs x hx).1; omega)]
  rfl

theorem applies_iff (s : CStr) :
    (strncmp s (lit "/") 1 ≠ 0 ∧ strncmp s (lit "./") 2 ≠ 0 ∧
      (if (strstr s (lit "..")).isSome = true then (0 : Int) else 1) ≠ 0) ↔ dtachApplies s := by
  unfold dtachApplies
  rw [strncmp_slash, strncmp_dotslash, ← strstr_isSome]
  by_cases h : (strstr s (lit "..")).isSome = true <;> simp [h]

theorem parseMode_go (pf : Platform) (st : St) (args : List CStr) (m : Int)
    (h : parseMode pf st args = .go m) :
    (m = 97 ∨ m = 99 ∨ m = 110 ∨ m = 65) ∧
      ∃ a rest, args = a :: rest ∧ charAt a 0 = 45 ∧ m = charVal pf.char_signed (charAt a 1) := by
  cases args with
  | nil => simp [parseMode] at h
  | cons a rest =>
    simp only [parseMode] at h
    split_ifs at h with h1 h2 h3 h4 h5 h6
    simp only [Stage.go.injEq] at h
    subst h
    refine ⟨?_, a, rest, rfl, h1, rfl⟩
    by_contra hc
    apply h5
    simp only [not_or] at hc
    exact ⟨hc.1, hc.2.1, hc.2.2.1, hc.2.2.2⟩

theorem parseMode_stop (pf : Platform) (st : St) (args : List CStr) (r : Run)
    (h : parseMode pf st args = .stop r) :
    (r.result = .returned 1 ∨ r.result = .returned 0 ∨ r.result = .exited 0) ∧
      ∃ l, r.trace = st.trace ++ l ∧ ∀ c ∈ l, c.quiet = true := by
  cases args with
  | nil =>
    simp only [parseMode, Stage.stop.injEq] at h
    subst h
    simp [St.ret, St.tryHelp, St.complain, St.call, Call.quiet]
  | cons a rest =>
    simp only [parseMode] at h
    split_ifs at h <;> simp only [Stage.stop.injEq] at h <;> subst h <;>
      simp [St.ret, St.tryHelp, St.complain, St.call, usage, Call.quiet]

theorem resolveSocket_unset (ext : Extern) (st : St) (s : CStr)
    (h : ext.getenv (lit "DTACH") = none) :
    resolveSocket ext st s = .go
      { g := { st.g with sockname := some s, dtach_env := none }
        trace := st.trace ++ [.getenv (lit "DTACH")] } := by
  simp [resolveSocket, St.call, h]

theorem resolveSocket_skip (ext : Extern) (st : St) (s d : CStr)
    (h : ext.getenv (lit "DTACH") = some d) (ha : ¬ dtachApplies s) :
    resolveSocket ext st s = .go
      { g := { st.g with sockname := some s, dtach_env := some d }
        trace := st.trace ++ [.getenv (lit "DTACH")] } := by
  have ha' := (not_congr (applies_iff s)).mpr ha
  simp only [resolveSocket, St.call, h]
  rw [if_neg ha']

theorem resolveSocket_notdir (ext : Extern) (st : St) (s d : CStr)
    (h : ext.getenv (lit "DTACH") = some d) (ha : dtachApplies s)
    (hs : ext.stat d = some false) :
    resolveSocket ext st s = .stop
      ⟨st.trace ++ [.getenv (lit "DTACH"), .stat d,
          .printf (fmt_s st.g.progname ++ lit ": "),
          .printf (lit "$DTACH exists but is not a directory.\n"),
          .printf (lit "Either delete it or point $DTACH elsewhere.\n"),
          .printf (lit "$DTACH is: " ++ d ++ lit "\n")], .returned 1⟩ := by
  have ha' := (applies_iff s).mpr ha
  simp only [resolveSocket, St.call, h]
  rw [if_pos ha']
  simp [hs, St.ret]

theorem resolveSocket_dir (ext : Extern) (st : St) (s d : CStr)
    (h : ext.getenv (lit "DTACH") = some d) (ha : dtachApplies s)
    (hs : ext.stat d = some true) :
    resolveSocket ext st s = .go
      { g := { st.g with sockname := some (joinedPath ext.beyond d s), dtach_env := some d }
        trace := st.trace ++ [.getenv (lit "DTACH"), .stat d,
          .calloc (strlen s + strlen d + 1) 1] } := by
  have ha' := (applies_iff s).mpr ha
  simp only [resolveSocket, St.call, h]
  rw [if_pos ha']
  simp [hs, joinPath_some]

theorem resolveSocket_mkdir_fail (ext : Extern) (st : St) (s d : CStr)
    (h : ext.getenv (lit "DTACH") = some d) (ha : dtachApplies s)
    (hs : ext.stat d = none) (hm : ext.mkdir d 0o755 ≠ 0) :
    resolveSocket ext st s = .stop
      ⟨st.trace ++ [.getenv (lit "DTACH"), .stat d, .mkdir d 0o755, .perror d],
        .returned 1⟩ := by
  have ha' := (applies_iff s).mpr ha
  simp only [resolveSocket, St.call, h]
  rw [if_pos ha']
  simp [hs, hm, St.ret]

theorem resolveSocket_mkdir_ok (ext : Extern) (st : St) (s d : CStr)
    (h : ext.getenv (lit "DTACH") = some d) (ha : dtachApplies s)
    (hs : ext.stat d = none) (hm : ext.mkdir d 0o755 = 0) :
    resolveSocket ext st s = .go
      { g := { st.g with sockname := some (joinedPath ext.beyond d s), dtach_env := some d }
        trace := st.trace ++ [.getenv (lit "DTACH"), .stat d, .mkdir d 0o755,
          .calloc (strlen s + strlen d + 1) 1] } := by
  have ha' := (applies_iff s).mpr ha
  simp only [resolveSocket, St.call, h]
  rw [if_pos ha']
  simp [hs, hm, joinPath_some]

theorem resolveSocket_cases (ext : Extern) (st : St) (s : CStr) :
    (∃ st1 l, resolveSocket ext st s = .go st1 ∧ st1.trace = st.trace ++ l ∧
        (∀ c ∈ l, c.startup = true) ∧ st.g.sameButSocket st1.g ∧
        (∀ d, ext.getenv (lit "DTACH") = some d → dtachApplies s → dirCheckPasses ext d)) ∨
    (∃ l, resolveSocket ext st s = .stop ⟨st.trace ++ l, .returned 1⟩ ∧
        (∀ c ∈ l, c.startup = true) ∧
        ∃ d, ext.getenv (lit "DTACH") = some d ∧ dtachApplies s ∧ ¬ dirCheckPasses ext d) := by
  cases hg : ext.getenv (lit "DTACH") with
  | none =>
    left
    exact ⟨_, _, resolveSocket_unset ext st s hg, rfl, by simp [Call.startup],
      ⟨rfl, rfl, rfl, rfl, rfl, rfl⟩, by simp⟩
  | some d =>
    by_cases ha : dtachApplies s
    · cases hs : ext.stat d with
      | none =>
        by_cases hm : ext.mkdir d 0o755 = 0
        · left
          exact ⟨_, _, resolveSocket_mkdir_ok ext st s d hg ha hs hm, rfl,
            by simp [Call.startup], ⟨rfl, rfl, rfl, rfl, rfl, rfl⟩,
            by intro d' hd' _; cases hd'; exact Or.inr ⟨hs, hm⟩⟩
        · right
          exact ⟨_, resolveSocket_mkdir_fail ext st s d hg ha hs hm, by simp [Call.startup],
            d, rfl, ha, by simp [dirCheckPasses, hs, hm]⟩
      | some isdir =>
        cases isdir with
        | true =>
          left
          exact ⟨_, _, resolveSocket_dir ext st s d hg ha hs, rfl,
            by simp [Call.startup], ⟨rfl, rfl, rfl, rfl, rfl, rfl⟩,
            by intro d' hd' _; cases hd'; exact Or.inl hs⟩
        | false =>
          right
          exact ⟨_, resolveSocket_notdir ext st s d hg ha hs, by simp [Call.startup],
            d, rfl, ha, by simp [dirCheckPasses, hs]⟩
    · left
      exact ⟨_, _, resolveSocket_skip ext st s d hg ha, rfl, by simp [Call.startup],
        ⟨rfl, rfl, rfl, rfl, rfl, rfl⟩, by intro d' _ h; exact absurd h ha⟩

theorem parseArgs_go (pf : Platform) (ext : Extern) (prog : CStr) (args : List CStr)
    (p : Parsed) (h : parseArgs pf ext prog args = .go p) :
    (p.mode = 97 ∨ p.mode = 99 ∨ p.mode = 110 ∨ p.mode = 65) ∧
    p.st.g.dont_have_tty = 0 ∧ p.st.g.progname = some prog ∧
    (∀ c ∈ p.st.trace, c.startup = true) ∧ (p.mode ≠ 97 → p.command ≠ []) ∧
    ∃ m s rest st1, args = m :: s :: rest ∧
      parseMode pf (St.init pf prog) args = .go p.mode ∧
      resolveSocket ext (St.init pf prog) s = .go st1 ∧
      parseOptions pf rest st1 = .go (p.command, p.st) := by
  unfold parseArgs at h
  simp only at h
  cases hm : parseMode pf (St.init pf prog) args with
  | stop r => simp [hm] at h
  | go mode =>
    simp only [hm] at h
    obtain ⟨hmode, a, rest0, rfl, _, _⟩ := parseMode_go pf _ _ _ hm
    cases rest0 with
    | nil => simp at h
    | cons s rest =>
      simp only [List.tail_cons] at h
      rcases resolveSocket_cases ext (St.init pf prog) s with
        ⟨st1, l, hr, htr, hl, hsame, _⟩ | ⟨l, hr, _⟩
      · simp only [hr, parseRest] at h
        cases ho : parseOptions pf rest st1 with
        | stop r => simp [ho] at h
        | go res =>
          obtain ⟨cmd, st2⟩ := res
          simp only [ho] at h
          split_ifs at h with hc
          simp only [Stage.go.injEq] at h
          subst h
          obtain ⟨h1, h2, _⟩ := parseOptions_go pf rest st1 cmd st2 ho
          refine ⟨hmode, ?_, ?_, ?_, ?_, a, s, rest, st1, rfl, rfl, hr, ho⟩
          · simp only
            rw [h2.2.2.2.2, hsame.2.2.2.2.2]; rfl
          · simp only
            rw [h2.1, hsame.1]; rfl
          · simp only
            rw [h1, htr]
            intro c hc'
            simp only [St.init, List.nil_append] at hc'
            exact hl c hc'
          · intro hne
            simp only at hne ⊢
            intro hnil
            apply hc
            simp [hne, hnil]
      · simp [hr] at h

theorem parseArgs_stop (pf : Platform) (ext : Extern) (prog : CStr) (args : List CStr)
    (r : Run) (h : parseArgs pf ext prog args = .stop r) :
    (∀ c ∈ r.trace, c.startup = true) ∧
      (r.result = .returned 1 ∨ r.result = .returned 0 ∨ r.result = .exited 0) := by
  unfold parseArgs at h
  simp only at h
  cases hm : parseMode pf (St.init pf prog) args with
  | stop r' =>
    simp only [hm, Stage.stop.injEq] at h
    subst h
    obtain ⟨h1, l, h2, h3⟩ := parseMode_stop pf _ _ _ hm
    refine ⟨?_, h1⟩
    rw [h2]
    simpa [St.init, Call.startup] using fun c hc => by
      have := h3 c hc
      cases c <;> simp_all [Call.quiet, Call.startup]
  | go mode =>
    simp only [hm] at h
    cases hrest : args.tail with
    | nil =>
      simp only [hrest, Stage.stop.injEq] at h
      subst h
      simp [St.ret, St.tryHelp, St.complain, St.call, St.init, Call.startup]
    | cons s rest =>
      simp only [hrest] at h
      rcases resolveSocket_cases ext (St.init pf prog) s with
        ⟨st1, l, hr, htr, hl, hsame, _⟩ | ⟨l, hr, hl, _⟩
      · simp only [hr, parseRest] at h
        cases ho : parseOptions pf rest st1 with
        | stop r' =>
          simp only [ho, Stage.stop.injEq] at h
          subst h
          obtain ⟨h1, o1, o2, h2⟩ := parseOptions_stop pf rest st1 _ ho
          refine ⟨?_, Or.inl h1⟩
          rw [h2, htr]
          intro c hc
          simp only [St.init, List.nil_append, List.mem_append, List.mem_cons,
            List.mem_singleton, List.not_mem_nil, or_false] at hc
          rcases hc with hc | rfl | rfl
          · exact hl c hc
          · rfl
          · rfl
        | go res =>
          obtain ⟨cmd, st2⟩ := res
          simp only [ho] at h
          obtain ⟨h1, _, _⟩ := parseOptions_go pf rest st1 cmd st2 ho
          split_ifs at h with hc
          simp only [Stage.stop.injEq] at h
          subst h
          refine ⟨?_, Or.inl rfl⟩
          simp only [St.ret, St.tryHelp, St.complain, St.call, h1, htr, St.init,
            List.nil_append]
          intro c hc
          simp only [List.mem_append, List.mem_singleton] at hc
          rcases hc with (hc | rfl) | rfl
          · exact hl c hc
          · rfl
          · rfl
      · simp only [hr, Stage.stop.injEq] at h
        subst h
        refine ⟨?_, Or.inl rfl⟩
        simpa [St.init] using hl

theorem saveTerm_trace (pf : Platform) (ext : Extern) (st : St) :
    (saveTerm pf ext st).trace = st.trace ++ [.tcgetattr 0] := by
  unfold saveTerm
  cases ext.tcgetattr 0 <;> simp [St.call]

theorem saveTerm_sockname (pf : Platform) (ext : Extern) (st : St) :
    (saveTerm pf ext st).g.sockname = st.g.sockname := by
  unfold saveTerm
  cases ext.tcgetattr 0 <;> simp [St.call]

theorem dispatch_calls (pf : Platform) (ext : Extern) (mode : Int) (argv : List CStr) (st : St) :
    ∃ l, (dispatch pf ext mode argv st).trace = st.trace ++ l ∧
      ∀ c ∈ l, (∃ o, c = .printf o) ∨ (∃ n, c = .attach_main n st.g) ∨
        (∃ n, c = .master_main argv n st.g) ∨ c = .unlink st.g.sockname := by
  unfold dispatch
  simp only [attach_main, master_main, St.call, St.ret, St.complain, St.tryHelp]
  split_ifs <;> simp

theorem runMode_calls (pf : Platform) (ext : Extern) (p : Parsed) :
    ∃ l, (runMode pf ext p).trace = p.st.trace ++ .tcgetattr 0 :: l ∧
      ∀ c ∈ l, (∃ o, c = .printf o) ∨ (∃ n, c = .attach_main n (saveTerm pf ext p.st).g) ∨
        (∃ n, c = .master_main p.command n (saveTerm pf ext p.st).g) ∨
        c = .unlink (saveTerm pf ext p.st).g.sockname := by
  unfold runMode
  simp only
  split_ifs
  · refine ⟨[.printf (fmt_s (saveTerm pf ext p.st).g.progname ++ lit ": " ++
        lit "Attaching to a session requires a terminal.\n")], ?_, ?_⟩
    · simp only [St.ret, St.complain, St.call, saveTerm_trace, List.append_assoc,
        List.singleton_append]
    · simp
  · obtain ⟨l, h1, h2⟩ := dispatch_calls pf ext p.mode p.command (saveTerm pf ext p.st)
    exact ⟨l, by rw [h1, saveTerm_trace]; simp, h2⟩


theorem startup_not_seen (c : Call) (h : c.startup = true) :
    c.seen = none ∧ c.isAttach = false ∧ c.isMaster = false ∧ c.isUnlink = false := by
  cases c <;> simp_all [Call.startup, Call.seen, Call.isAttach, Call.isMaster, Call.isUnlink]

theorem resolveSocket_sockname (ext : Extern) (st st1 : St) (s : CStr)
    (hs : CStr.WF s) (hd : ∀ d, ext.getenv (lit "DTACH") = some d → CStr.WF d)
    (h : resolveSocket ext st s = .go st1) :
    st1.g.sockname = some (effectivePath (ext.getenv (lit "DTACH")) s) := by
  cases hg : ext.getenv (lit "DTACH") with
  | none =>
    rw [resolveSocket_unset ext st s hg] at h
    cases h; rfl
  | some d =>
    by_cases ha : dtachApplies s
    · have e := joinedPath_eq ext.beyond d s (hd d hg) hs
      cases hst : ext.stat d with
      | none =>
        by_cases hm : ext.mkdir d 0o755 = 0
        · rw [resolveSocket_mkdir_ok ext st s d hg ha hst hm] at h
          cases h; simp [effectivePath, ha, e]
        · rw [resolveSocket_mkdir_fail ext st s d hg ha hst hm] at h
          cases h
      | some isdir =>
        cases isdir with
        | true =>
          rw [resolveSocket_dir ext st s d hg ha hst] at h
          cases h; simp [effectivePath, ha, e]
        | false =>
          rw [resolveSocket_notdir ext st s d hg ha hst] at h
          cases h
    · rw [resolveSocket_skip ext st s d hg ha] at h
      cases h; simp [effectivePath, ha]

/-! ## C1: the effective socket path -/

/-- C1. Socket path resolution. For a socket name `s` (a C string) and the
value of `$DTACH` (a C string when set): when `$DTACH` is `d`, its directory
check passes and `s` does not begin with `/`, does not begin with `./` and
does not contain `..`, lines 138 to 177 go on with `sockname` equal to
`d ++ "/" ++ s`; when `$DTACH` is unset or `s` is of one of the three
excluded forms, they go on with `sockname` equal to `s`; and in any run of
`main` with socket name `s`, every call of `attach_main` and `master_main`
finds that path in `sockname`, and every `unlink` is given it. -/
theorem C1_effective_socket_path (pf : Platform) (ext : Extern) (prog m s : CStr)
    (rest : List CStr) (st : St) (hs : CStr.WF s)
    (hd : ∀ d, ext.getenv (lit "DTACH") = some d → CStr.WF d) :
    (∀ d, ext.getenv (lit "DTACH") = some d → dirCheckPasses ext d → dtachApplies s →
      ∃ st1, resolveSocket ext st s = .go st1 ∧ st1.g.sockname = some (d ++ lit "/" ++ s)) ∧
    ((ext.getenv (lit "DTACH") = none ∨ ¬ dtachApplies s) →
      ∃ st1, resolveSocket ext st s = .go st1 ∧ st1.g.sockname = some s) ∧
    (∀ c ∈ (main pf ext (prog :: m :: s :: rest)).trace,
      (∀ g, c.seen = some g →
        g.sockname = some (effectivePath (ext.getenv (lit "DTACH")) s)) ∧
      (∀ path, c = .unlink path →
        path = some (effectivePath (ext.getenv (lit "DTACH")) s))) := by
  refine ⟨?_, ?_, ?_⟩
  · intro d hg hdir ha
    rcases resolveSocket_cases ext st s with ⟨st1, l, hr, _, _, _, _⟩ | ⟨l, _, _, d', hg', _, hn⟩
    · refine ⟨st1, hr, ?_⟩
      rw [resolveSocket_sockname ext st st1 s hs hd hr, hg]
      simp [effectivePath, ha]
    · rw [hg] at hg'; cases hg'; exact absurd hdir hn
  · intro hcase
    rcases resolveSocket_cases ext st s with ⟨st1, l, hr, _, _, _, _⟩ | ⟨l, _, _, d', hg', ha', _⟩
    · refine ⟨st1, hr, ?_⟩
      rw [resolveSocket_sockname ext st st1 s hs hd hr]
      rcases hcase with hg | ha
      · simp [hg, effectivePath]
      · cases ext.getenv (lit "DTACH") <;> simp [effectivePath, ha]
    · rcases hcase with hg | ha
      · rw [hg] at hg'; cases hg'
      · exact absurd ha' ha
  · intro c hc
    simp only [main] at hc
    cases hp : parseArgs pf ext prog (m :: s :: rest) with
    | stop r =>
      simp only [hp] at hc
      have hst := startup_not_seen c ((parseArgs_stop pf ext prog _ r hp).1 c hc)
      refine ⟨fun g hg => ?_, fun path hpath => ?_⟩
      · rw [hst.1] at hg; cases hg
      · subst hpath; simp [Call.isUnlink] at hst
    | go p =>
      simp only [hp] at hc
      obtain ⟨_, _, _, hearly, _, m', s', rest', st1, hargs, _, hr, ho⟩ :=
        parseArgs_go pf ext prog _ p hp
      simp only [List.cons.injEq] at hargs
      obtain ⟨rfl, rfl, rfl⟩ := hargs
      have hsock : (saveTerm pf ext p.st).g.sockname
          = some (effectivePath (ext.getenv (lit "DTACH")) s) := by
        rw [saveTerm_sockname, (parseOptions_go pf _ st1 _ _ ho).2.1.2.1]
        exact resolveSocket_sockname ext _ st1 s hs hd hr
      obtain ⟨l, hl, hcalls⟩ := runMode_calls pf ext p
      rw [hl] at hc
      simp only [List.mem_append, List.mem_cons] at hc
      rcases hc with hc | rfl | hc
      · have hst := startup_not_seen c (hearly c hc)
        refine ⟨fun g hg => ?_, fun path hpath => ?_⟩
        · rw [hst.1] at hg; cases hg
        · subst hpath; simp [Call.isUnlink] at hst
      · simp [Call.seen]
      · rcases hcalls c hc with ⟨o, rfl⟩ | ⟨n, rfl⟩ | ⟨n, rfl⟩ | rfl
        · simp [Call.seen]
        · simp [Call.seen, hsock]
        · simp [Call.seen, hsock]
        · simp [Call.seen, hsock]


theorem C1_effective_socket_path_witness :
    CStr.WF (lit "foo") ∧
    (∀ d, world.getenv (lit "DTACH") = some d → CStr.WF d) ∧
    dirCheckPasses world (lit "/tmp/d") ∧ dtachApplies (lit "foo") ∧
    ∃ st1, resolveSocket world (St.init linux (lit "dtach")) (lit "foo") = .go st1 ∧
      st1.g.sockname = some (lit "/tmp/d/foo") :=
  have hd : ∀ d, world.getenv (lit "DTACH") = some d → CStr.WF d := by
    intro d h
    cases h
    decide
  ⟨by decide, hd, by decide, by decide,
    (C1_effective_socket_path linux world (lit "dtach") (lit "-A") (lit "foo") [lit "vi"]
      (St.init linux (lit "dtach")) (by decide) hd).1 (lit "/tmp/d") rfl (by decide) (by decide)⟩

/-! ## C2: caret notation of the detach character -/

theorem land_charVal (s : Bool) (x : Nat) (hx : x < 256) :
    Int.land (charVal s x) 0o37 = ((x &&& 0x1F : Nat) : Int) := by
  unfold charVal
  by_cases h : (s && decide (128 ≤ x)) = true
  · simp only [h, if_true]
    simp only [Bool.and_eq_true, decide_eq_true_eq] at h
    have e : (x : Int) - 256 = Int.negSucc (2 ^ 8 - (x + 1)) := by
      have : (2 : Nat) ^ 8 - (x + 1) = 255 - x := by omega
      rw [this, Int.negSucc_eq]
      omega
    rw [e]
    show ((Nat.ldiff 31 (2 ^ 8 - (x + 1)) : Nat) : Int) = _
    congr 1
    apply Nat.eq_of_testBit_eq
    intro i
    rw [Nat.testBit_ldiff, Nat.testBit_two_pow_sub_succ (by omega), Nat.testBit_land,
      show (31 : Nat) = 2 ^ 5 - 1 by norm_num, Nat.testBit_two_pow_sub_one]
    by_cases h5 : i < 5
    · have h8 : i < 8 := by omega
      simp [h5, h8]
    · simp [h5]
  · simp only [h, if_false]
    rfl

theorem lit_e : lit "-e" = [45, 101] := by decide

theorem parseOptions_e (pf : Platform) (v : CStr) (rest : List CStr) (st : St) :
    parseOptions pf (lit "-e" :: v :: rest) st =
      parseOptions pf rest { st with g := { st.g with detach_char := escapeChar pf v } } := by
  rw [parseOptions.eq_def, lit_e]
  simp [charAt, scanLetters]

theorem escapeChar_caret (pf : Platform) (x : Nat) (tail : List Nat) (hx0 : x ≠ 0)
    (hx : x < 256) :
    escapeChar pf (94 :: x :: tail) = if x = 63 then 0x7F else ((x &&& 0x1F : Nat) : Int) := by
  simp only [escapeChar, charAt, List.getD_cons_zero, List.getD_cons_succ, true_and, hx0,
    ne_eq, not_false_eq_true, if_true, land_charVal _ x hx]

/-- C2. Caret notation of the detach character. When the argument of `-e`
is `^` followed by a byte `X` other than NUL (and by anything), the option
loop goes on with the detach character `0x7F` if `X` is `?` and `X & 0x1F`
otherwise; every caret form other than `^?` gives a value in `0..31`; `^?`
gives `0x7F` and `^@` gives `0`. -/
theorem C2_caret_detach_char (pf : Platform) (x : Nat) (tail : List Nat) (rest : List CStr)
    (st : St) (hx0 : x ≠ 0) (hx : x < 256) :
    parseOptions pf (lit "-e" :: (94 :: x :: tail) :: rest) st =
      parseOptions pf rest { st with g := { st.g with
        detach_char := if x = 63 then 0x7F else ((x &&& 0x1F : Nat) : Int) } } ∧
    (x ≠ 63 → 0 ≤ escapeChar pf (94 :: x :: tail) ∧ escapeChar pf (94 :: x :: tail) ≤ 31) ∧
    escapeChar pf (lit "^?") = 0x7F ∧ escapeChar pf (lit "^@") = 0x00 := by
  refine ⟨?_, ?_, ?_, ?_⟩
  · rw [parseOptions_e, escapeChar_caret pf x tail hx0 hx]
  · intro h63
    rw [escapeChar_caret pf x tail hx0 hx, if_neg h63]
    have : x &&& 0x1F ≤ 0x1F := Nat.and_le_right
    omega
  · have : lit "^?" = [94, 63] := by decide
    rw [this, escapeChar_caret pf 63 [] (by decide) (by decide)]
    rfl
  · have : lit "^@" = [94, 64] := by decide
    rw [this, escapeChar_caret pf 64 [] (by decide) (by decide)]
    rfl

theorem C2_caret_detach_char_witness :
    (67 ≠ 0 ∧ 67 < 256) ∧
    parseOptions linux (lit "-e" :: lit "^C" :: [lit "vi"]) (St.init linux (lit "dtach")) =
      .go ([lit "vi"], { g := { (St.init linux (lit "dtach")).g with detach_char := 3 },
                         trace := [] }) :=
  ⟨⟨by decide, by decide⟩,
    (C2_caret_detach_char linux 67 [] [lit "vi"] (St.init linux (lit "dtach"))
      (by decide) (by decide)).1⟩

/-! ## C3: mode -A -/

theorem saveTerm_tty (pf : Platform) (ext : Extern) (st : St) (t : List Nat)
    (ht : ext.tcgetattr 0 = some t) :
    saveTerm pf ext st =
      { g := { st.g with orig_term := t }, trace := st.trace ++ [.tcgetattr 0] } := by
  simp [saveTerm, ht, St.call]

theorem saveTerm_notty (pf : Platform) (ext : Extern) (st : St)
    (ht : ext.tcgetattr 0 = none) :
    saveTerm pf ext st =
      { g := { st.g with orig_term := List.replicate pf.sizeof_termios 0, dont_have_tty := 1 },
        trace := st.trace ++ [.tcgetattr 0] } := by
  simp [saveTerm, ht, St.call]

theorem startup_filter_master (l : List Call) (h : ∀ c ∈ l, c.startup = true) :
    l.filter Call.isMaster = [] := by
  rw [List.filter_eq_nil_iff]
  intro c hc
  simp [(startup_not_seen c (h c hc)).2.2.1]

theorem main_go (pf : Platform) (ext : Extern) (prog : CStr) (args : List CStr) (p : Parsed)
    (hp : parseArgs pf ext prog args = .go p) :
    main pf ext (prog :: args) = runMode pf ext p := by
  simp only [main, hp]

theorem runMode_tty (pf : Platform) (ext : Extern) (p : Parsed) (t : List Nat)
    (h0 : p.st.g.dont_have_tty = 0) (ht : ext.tcgetattr 0 = some t) :
    runMode pf ext p = dispatch pf ext p.mode p.command
      { g := { p.st.g with orig_term := t }, trace := p.st.trace ++ [.tcgetattr 0] } := by
  unfold runMode
  rw [saveTerm_tty pf ext p.st t ht]
  simp [h0]

theorem dispatch_A_attached (pf : Platform) (ext : Extern) (argv : List CStr) (st : St)
    (h : ext.attach_main (st.trace ++ [.attach_main 1 st.g]) = 0) :
    dispatch pf ext 65 argv st = ⟨st.trace ++ [.attach_main 1 st.g], .returned 0⟩ := by
  unfold dispatch
  simp [attach_main, master_main, St.call, St.ret, h]

theorem dispatch_A_other (pf : Platform) (ext : Extern) (argv : List CStr) (st : St)
    (h : ext.attach_main (st.trace ++ [.attach_main 1 st.g]) ≠ 0)
    (he : ¬ (ext.errno (st.trace ++ [.attach_main 1 st.g]) = pf.ECONNREFUSED ∨
      ext.errno (st.trace ++ [.attach_main 1 st.g]) = pf.ENOENT)) :
    dispatch pf ext 65 argv st =
      ⟨st.trace ++ [.attach_main 1 st.g, .attach_main 0 st.g],
        .returned (ext.attach_main (st.trace ++ [.attach_main 1 st.g, .attach_main 0 st.g]))⟩ := by
  unfold dispatch
  simp only [not_or] at he
  simp [attach_main, master_main, St.call, St.ret, h, he]

theorem dispatch_A_refused (pf : Platform) (ext : Extern) (argv : List CStr) (st : St)
    (h : ext.attach_main (st.trace ++ [.attach_main 1 st.g]) ≠ 0)
    (he : ext.errno (st.trace ++ [.attach_main 1 st.g]) = pf.ECONNREFUSED) :
    dispatch pf ext 65 argv st =
      if ext.master_main (st.trace ++ [.attach_main 1 st.g, .unlink st.g.sockname,
          .master_main argv 1 st.g]) ≠ 0 then
        ⟨st.trace ++ [.attach_main 1 st.g, .unlink st.g.sockname, .master_main argv 1 st.g],
          .returned 1⟩
      else
        ⟨st.trace ++ [.attach_main 1 st.g, .unlink st.g.sockname, .master_main argv 1 st.g,
            .attach_main 0 st.g],
          .returned (ext.attach_main (st.trace ++ [.attach_main 1 st.g,
            .unlink st.g.sockname, .master_main argv 1 st.g, .attach_main 0 st.g]))⟩ := by
  unfold dispatch
  simp [attach_main, master_main, St.call, St.ret, h, he]

theorem dispatch_A_missing (pf : Platform) (ext : Extern) (argv : List CStr) (st : St)
    (h : ext.attach_main (st.trace ++ [.attach_main 1 st.g]) ≠ 0)
    (he : ext.errno (st.trace ++ [.attach_main 1 st.g]) ≠ pf.ECONNREFUSED)
    (he' : ext.errno (st.trace ++ [.attach_main 1 st.g]) = pf.ENOENT) :
    dispatch pf ext 65 argv st =
      if ext.master_main (st.trace ++ [.attach_main 1 st.g, .master_main argv 1 st.g]) ≠ 0 then
        ⟨st.trace ++ [.attach_main 1 st.g, .master_main argv 1 st.g], .returned 1⟩
      else
        ⟨st.trace ++ [.attach_main 1 st.g, .master_main argv 1 st.g, .attach_main 0 st.g],
          .returned (ext.attach_main (st.trace ++ [.attach_main 1 st.g,
            .master_main argv 1 st.g, .attach_main 0 st.g]))⟩ := by
  unfold dispatch
  have he2 : ¬ pf.ENOENT = pf.ECONNREFUSED := fun hh => he (he'.trans hh)
  simp [attach_main, master_main, St.call, St.ret, h, he', he2]

/-- C3. Mode `-A`. In a run whose arguments pass the checks of lines 92 to
257 with mode `A` and whose standard input is a terminal, no entry point and
no `unlink` is called before line 297; then `attach_main(1)` is called. If
it returns `0`, nothing else is called and `main` returns `0`. If it returns
non-zero with `errno` equal to `ECONNREFUSED` or `ENOENT`, the next calls are
`unlink(sockname)`, only when `errno` is `ECONNREFUSED`, and
`master_main(command, 1)`; `main` returns `1` at once when that returns
non-zero, and otherwise calls `attach_main(0)` and returns its value. With
any other `errno`, `main` calls `attach_main(0)` alone and returns its value.
In every case `master_main` is called at most once. -/
theorem C3_mode_A_dispatch (pf : Platform) (ext : Extern) (prog : CStr) (args : List CStr)
    (p : Parsed) (t : List Nat) (hp : parseArgs pf ext prog args = .go p)
    (hm : p.mode = 65) (ht : ext.tcgetattr 0 = some t) :
    let g : Globals := { p.st.g with orig_term := t }
    let t1 := p.st.trace ++ [.tcgetattr 0, .attach_main 1 g]
    let t2 := if ext.errno t1 = pf.ECONNREFUSED
      then t1 ++ [.unlink g.sockname, .master_main p.command 1 g]
      else t1 ++ [.master_main p.command 1 g]
    let t3 := t2 ++ [.attach_main 0 g]
    let t4 := t1 ++ [.attach_main 0 g]
    let run := main pf ext (prog :: args)
    (∀ c ∈ p.st.trace, c.isAttach = false ∧ c.isMaster = false ∧ c.isUnlink = false) ∧
    (ext.attach_main t1 = 0 → run = ⟨t1, .returned 0⟩) ∧
    (ext.attach_main t1 ≠ 0 → (ext.errno t1 = pf.ECONNREFUSED ∨ ext.errno t1 = pf.ENOENT) →
      (ext.master_main t2 ≠ 0 → run = ⟨t2, .returned 1⟩) ∧
      (ext.master_main t2 = 0 → run = ⟨t3, .returned (ext.attach_main t3)⟩)) ∧
    (ext.attach_main t1 ≠ 0 → ¬ (ext.errno t1 = pf.ECONNREFUSED ∨ ext.errno t1 = pf.ENOENT) →
      run = ⟨t4, .returned (ext.attach_main t4)⟩) ∧
    (run.trace.filter Call.isMaster).length ≤ 1 := by
  intro g t1 t2 t3 t4 run
  obtain ⟨_, htty, _, hearly, _, _⟩ := parseArgs_go pf ext prog args p hp
  have hf := startup_filter_master p.st.trace hearly
  have hrun : run = dispatch pf ext 65 p.command
      { g := g, trace := p.st.trace ++ [.tcgetattr 0] } := by
    show main pf ext (prog :: args) = _
    rw [main_go pf ext prog args p hp, runMode_tty pf ext p t htty ht, hm]
  have e1 : p.st.trace ++ [Call.tcgetattr 0] ++ [Call.attach_main 1 g] = t1 := by
    simp [t1]
  by_cases ha : ext.attach_main t1 = 0
  · have := dispatch_A_attached pf ext p.command
      { g := g, trace := p.st.trace ++ [.tcgetattr 0] } (by simpa [e1] using ha)
    rw [← hrun] at this
    simp only [e1] at this
    rw [this]
    refine ⟨fun c hc => (startup_not_seen c (hearly c hc)).2, fun _ => rfl,
      fun h => absurd ha h, fun h => absurd ha h, ?_⟩
    simp [t1, List.filter_append, hf, List.filter_cons, Call.isMaster]
  · refine ⟨fun c hc => (startup_not_seen c (hearly c hc)).2, fun h => absurd h ha, ?_, ?_, ?_⟩
    · intro _ he
      by_cases hr : ext.errno t1 = pf.ECONNREFUSED
      · have := dispatch_A_refused pf ext p.command
          { g := g, trace := p.st.trace ++ [.tcgetattr 0] } (by simpa [e1] using ha)
          (by simpa [e1] using hr)
        rw [← hrun] at this
        have e2 : t2 = p.st.trace ++ [Call.tcgetattr 0] ++
            [Call.attach_main 1 g, Call.unlink g.sockname, Call.master_main p.command 1 g] := by
          simp [t2, hr, t1]
        have e3 : t3 = p.st.trace ++ [Call.tcgetattr 0] ++
            [Call.attach_main 1 g, Call.unlink g.sockname, Call.master_main p.command 1 g,
              Call.attach_main 0 g] := by
          simp [t3, e2]
        rw [← e2, ← e3] at this
        rw [this]
        exact ⟨fun h2 => by simp [h2], fun h2 => by simp [h2]⟩
      · have hn : ext.errno t1 = pf.ENOENT := he.resolve_left hr
        have := dispatch_A_missing pf ext p.command
          { g := g, trace := p.st.trace ++ [.tcgetattr 0] } (by simpa [e1] using ha)
          (by simpa [e1] using hr) (by simpa [e1] using hn)
        rw [← hrun] at this
        have e2 : t2 = p.st.trace ++ [Call.tcgetattr 0] ++
            [Call.attach_main 1 g, Call.master_main p.command 1 g] := by
          simp [t2, hr, t1]
        have e3 : t3 = p.st.trace ++ [Call.tcgetattr 0] ++
            [Call.attach_main 1 g, Call.master_main p.command 1 g, Call.attach_main 0 g] := by
          simp [t3, e2]
        rw [← e2, ← e3] at this
        rw [this]
        exact ⟨fun h2 => by simp [h2], fun h2 => by simp [h2]⟩
    · intro _ he
      have := dispatch_A_other pf ext p.command
        { g := g, trace := p.st.trace ++ [.tcgetattr 0] } (by simpa [e1] using ha)
        (by simpa [e1] using he)
      rw [← hrun] at this
      have e4 : t4 = p.st.trace ++ [Call.tcgetattr 0] ++
          [Call.attach_main 1 g, Call.attach_main 0 g] := by
        simp [t4, t1]
      rw [← e4] at this
      exact this
    · rw [hrun]
      by_cases he : ext.errno t1 = pf.ECONNREFUSED ∨ ext.errno t1 = pf.ENOENT
      · by_cases hr : ext.errno t1 = pf.ECONNREFUSED
        · rw [dispatch_A_refused pf ext p.command
            { g := g, trace := p.st.trace ++ [.tcgetattr 0] } (by simpa [e1] using ha)
            (by simpa [e1] using hr)]
          split_ifs <;> simp [List.filter_append, hf, List.filter_cons, Call.isMaster]
        · rw [dispatch_A_missing pf ext p.command
            { g := g, trace := p.st.trace ++ [.tcgetattr 0] } (by simpa [e1] using ha)
            (by simpa [e1] using hr) (by simpa [e1] using he.resolve_left hr)]
          split_ifs <;> simp [List.filter_append, hf, List.filter_cons, Call.isMaster]
      · rw [dispatch_A_other pf ext p.command
          { g := g, trace := p.st.trace ++ [.tcgetattr 0] } (by simpa [e1] using ha)
          (by simpa [e1] using he)]
        simp [List.filter_append, hf, List.filter_cons, Call.isMaster]

theorem C3_mode_A_dispatch_witness :
    parseArgs linux staleWorld (lit "dtach") [lit "-A", lit "/tmp/s", lit "vi"]
      = .go (parsedFor 65) ∧
    (parsedFor 65).mode = 65 ∧ staleWorld.tcgetattr 0 = some (List.replicate 60 1) ∧
    main linux staleWorld [lit "dtach", lit "-A", lit "/tmp/s", lit "vi"] =
      ⟨[.getenv (lit "DTACH"), .tcgetattr 0,
        .attach_main 1 { (parsedFor 65).st.g with orig_term := List.replicate 60 1 },
        .unlink (some (lit "/tmp/s")),
        .master_main [lit "vi"] 1 { (parsedFor 65).st.g with orig_term := List.replicate 60 1 },
        .attach_main 0 { (parsedFor 65).st.g with orig_term := List.replicate 60 1 }],
       .returned 7⟩ :=
  ⟨rfl, rfl, rfl,
    ((C3_mode_A_dispatch linux staleWorld (lit "dtach") [lit "-A", lit "/tmp/s", lit "vi"]
      (parsedFor 65) (List.replicate 60 1) rfl rfl rfl).2.2.1 (by decide)
        (Or.inl (by decide))).2 (by decide)⟩

/-! ## C4 and C6: modes -c and -n -/

theorem dispatch_c (pf : Platform) (ext : Extern) (argv : List CStr) (st : St) :
    dispatch pf ext 99 argv st =
      if ext.master_main (st.trace ++ [.master_main argv 1 st.g]) ≠ 0 then
        ⟨st.trace ++ [.master_main argv 1 st.g], .returned 1⟩
      else
        ⟨st.trace ++ [.master_main argv 1 st.g, .attach_main 0 st.g],
          .returned (ext.attach_main (st.trace ++ [.master_main argv 1 st.g,
            .attach_main 0 st.g]))⟩ := by
  unfold dispatch
  simp [attach_main, master_main, St.call, St.ret]

theorem dispatch_n (pf : Platform) (ext : Extern) (argv : List CStr) (st : St) :
    dispatch pf ext 110 argv st =
      ⟨st.trace ++ [.master_main argv 0 st.g],
        .returned (ext.master_main (st.trace ++ [.master_main argv 0 st.g]))⟩ := by
  unfold dispatch
  simp [master_main, St.call, St.ret]

/-- C4. Mode `-c`. In a run whose arguments pass the checks of lines 92 to
257 with mode `c` and whose standard input is a terminal, no entry point is
called before line 289; then `master_main(command, 1)` is called. If it
returns non-zero, `main` returns `1` and `attach_main` is not called; if it
returns `0`, `main` calls `attach_main(0)` once and returns its value. -/
theorem C4_mode_c_dispatch (pf : Platform) (ext : Extern) (prog : CStr) (args : List CStr)
    (p : Parsed) (t : List Nat) (hp : parseArgs pf ext prog args = .go p)
    (hm : p.mode = 99) (ht : ext.tcgetattr 0 = some t) :
    let g : Globals := { p.st.g with orig_term := t }
    let t1 := p.st.trace ++ [.tcgetattr 0, .master_main p.command 1 g]
    let t2 := t1 ++ [.attach_main 0 g]
    let run := main pf ext (prog :: args)
    (∀ c ∈ p.st.trace, c.isAttach = false ∧ c.isMaster = false ∧ c.isUnlink = false) ∧
    (ext.master_main t1 ≠ 0 →
      run = ⟨t1, .returned 1⟩ ∧ run.trace.filter Call.isAttach = []) ∧
    (ext.master_main t1 = 0 →
      run = ⟨t2, .returned (ext.attach_main t2)⟩ ∧
      run.trace.filter Call.isAttach = [.attach_main 0 g]) := by
  intro g t1 t2 run
  obtain ⟨_, htty, _, hearly, _, _⟩ := parseArgs_go pf ext prog args p hp
  have hf : p.st.trace.filter Call.isAttach = [] := by
    rw [List.filter_eq_nil_iff]
    intro c hc
    simp [(startup_not_seen c (hearly c hc)).2.1]
  have hrun : run = dispatch pf ext 99 p.command
      { g := g, trace := p.st.trace ++ [.tcgetattr 0] } := by
    show main pf ext (prog :: args) = _
    rw [main_go pf ext prog args p hp, runMode_tty pf ext p t htty ht, hm]
  rw [dispatch_c] at hrun
  have e1 : p.st.trace ++ [Call.tcgetattr 0] ++ [Call.master_main p.command 1 g] = t1 := by
    simp [t1]
  have e2 : p.st.trace ++ [Call.tcgetattr 0] ++
      [Call.master_main p.command 1 g, Call.attach_main 0 g] = t2 := by
    simp [t2, t1]
  simp only [e1, e2] at hrun
  refine ⟨fun c hc => (startup_not_seen c (hearly c hc)).2, fun h => ?_, fun h => ?_⟩
  · rw [hrun]
    simp [h, t1, List.filter_append, hf, List.filter_cons, Call.isAttach]
  · rw [hrun]
    simp [h, t1, t2, List.filter_append, hf, List.filter_cons, Call.isAttach]

theorem C4_mode_c_dispatch_witness :
    parseArgs linux staleWorld (lit "dtach") [lit "-c", lit "/tmp/s", lit "vi"]
      = .go (parsedFor 99) ∧
    (parsedFor 99).mode = 99 ∧ staleWorld.tcgetattr 0 = some (List.replicate 60 1) ∧
    main linux staleWorld [lit "dtach", lit "-c", lit "/tmp/s", lit "vi"] =
      ⟨[.getenv (lit "DTACH"), .tcgetattr 0,
        .master_main [lit "vi"] 1 { (parsedFor 99).st.g with orig_term := List.replicate 60 1 },
        .attach_main 0 { (parsedFor 99).st.g with orig_term := List.replicate 60 1 }],
       .returned 7⟩ :=
  ⟨rfl, rfl, rfl,
    ((C4_mode_c_dispatch linux staleWorld (lit "dtach") [lit "-c", lit "/tmp/s", lit "vi"]
      (parsedFor 99) (List.replicate 60 1) rfl rfl rfl).2.2 (by decide)).1⟩

theorem runMode_n (pf : Platform) (ext : Extern) (p : Parsed) (hm : p.mode = 110) :
    runMode pf ext p =
      ⟨p.st.trace ++ [.tcgetattr 0, .master_main p.command 0 (saveTerm pf ext p.st).g],
        .returned (ext.master_main (p.st.trace ++
          [.tcgetattr 0, .master_main p.command 0 (saveTerm pf ext p.st).g]))⟩ := by
  unfold runMode
  simp only [hm, ne_eq, not_true_eq_false, and_false, if_false]
  rw [dispatch_n, saveTerm_trace]
  simp

/-- C6. Mode `-n`. In a run whose arguments pass the checks of lines 92 to
257 with mode `n`, whether or not standard input is a terminal, the calls of
`main` are those of the checks, none of which is an entry point or `unlink`,
then `tcgetattr` and `master_main(command, 0)`; `main` returns the value of
that one call of `master_main` as it is, and calls neither `attach_main` nor
`unlink`. -/
theorem C6_mode_n_never_attaches (pf : Platform) (ext : Extern) (prog : CStr)
    (args : List CStr) (p : Parsed) (hp : parseArgs pf ext prog args = .go p)
    (hm : p.mode = 110) :
    let g := (saveTerm pf ext p.st).g
    let t1 := p.st.trace ++ [.tcgetattr 0, .master_main p.command 0 g]
    let run := main pf ext (prog :: args)
    run = ⟨t1, .returned (ext.master_main t1)⟩ ∧
    run.trace.filter Call.isMaster = [.master_main p.command 0 g] ∧
    run.trace.filter Call.isAttach = [] ∧ run.trace.filter Call.isUnlink = [] := by
  intro g t1 run
  obtain ⟨_, _, _, hearly, _, _⟩ := parseArgs_go pf ext prog args p hp
  have hrun : run = ⟨t1, .returned (ext.master_main t1)⟩ := by
    show main pf ext (prog :: args) = _
    rw [main_go pf ext prog args p hp, runMode_n pf ext p hm]
  have hf1 : p.st.trace.filter Call.isAttach = [] := by
    rw [List.filter_eq_nil_iff]
    intro c hc
    simp [(startup_not_seen c (hearly c hc)).2.1]
  have hf2 : p.st.trace.filter Call.isUnlink = [] := by
    rw [List.filter_eq_nil_iff]
    intro c hc
    simp [(startup_not_seen c (hearly c hc)).2.2.2]
  refine ⟨hrun, ?_, ?_, ?_⟩ <;> rw [hrun] <;>
    simp [t1, List.filter_append, hf1, hf2, startup_filter_master p.st.trace hearly,
      List.filter_cons, Call.isMaster, Call.isAttach, Call.isUnlink]

theorem C6_mode_n_never_attaches_witness :
    parseArgs linux staleWorld (lit "dtach") [lit "-n", lit "/tmp/s", lit "vi"]
      = .go (parsedFor 110) ∧
    (parsedFor 110).mode = 110 ∧
    main linux staleWorld [lit "dtach", lit "-n", lit "/tmp/s", lit "vi"] =
      ⟨[.getenv (lit "DTACH"), .tcgetattr 0,
        .master_main [lit "vi"] 0
          { (parsedFor 110).st.g with orig_term := List.replicate 60 1 }],
       .returned 0⟩ :=
  ⟨rfl, rfl,
    (C6_mode_n_never_attaches linux staleWorld (lit "dtach")
      [lit "-n", lit "/tmp/s", lit "vi"] (parsedFor 110) rfl rfl).1⟩

/-! ## C5: no terminal -/

/-- C5. No terminal. In a run whose arguments pass the checks of lines 92
to 257 and in which `tcgetattr` fails on descriptor 0: in mode `a`, `c` or
`A`, `main` prints one message, returns `1` and calls neither `attach_main`
nor `master_main`; in mode `n` that is no error, and `master_main` is called
with the command, with `orig_term` cleared and `dont_have_tty` set, and its
value returned. -/
theorem C5_no_terminal (pf : Platform) (ext : Extern) (prog : CStr) (args : List CStr)
    (p : Parsed) (hp : parseArgs pf ext prog args = .go p) (ht : ext.tcgetattr 0 = none) :
    let g : Globals := { p.st.g with orig_term := List.replicate pf.sizeof_termios 0
                                     dont_have_tty := 1 }
    let t1 := p.st.trace ++ [.tcgetattr 0, .master_main p.command 0 g]
    let run := main pf ext (prog :: args)
    ((p.mode = 97 ∨ p.mode = 99 ∨ p.mode = 65) →
      run = ⟨p.st.trace ++ [.tcgetattr 0, .printf (prog ++ lit ": " ++
          lit "Attaching to a session requires a terminal.\n")], .returned 1⟩ ∧
      run.noEntry) ∧
    (p.mode = 110 →
      run = ⟨t1, .returned (ext.master_main t1)⟩ ∧
      run.trace.filter Call.isMaster = [.master_main p.command 0 g]) := by
  intro g t1 run
  obtain ⟨_, _, hprog, hearly, _, _⟩ := parseArgs_go pf ext prog args p hp
  have hmain : run = runMode pf ext p := main_go pf ext prog args p hp
  refine ⟨fun hm => ?_, fun hm => ?_⟩
  · have hn : p.mode ≠ 110 := by omega
    have hrun : run = ⟨p.st.trace ++ [.tcgetattr 0, .printf (prog ++ lit ": " ++
        lit "Attaching to a session requires a terminal.\n")], .returned 1⟩ := by
      rw [hmain]
      unfold runMode
      rw [saveTerm_notty pf ext p.st ht]
      simp [hn, St.complain, St.call, St.ret, hprog, fmt_s]
    refine ⟨hrun, ?_⟩
    rw [hrun]
    intro c hc
    simp only [List.mem_append, List.mem_cons, List.mem_singleton, List.not_mem_nil,
      or_false] at hc
    rcases hc with hc | rfl | rfl
    · exact ⟨(startup_not_seen c (hearly c hc)).2.1, (startup_not_seen c (hearly c hc)).2.2.1⟩
    · exact ⟨rfl, rfl⟩
    · exact ⟨rfl, rfl⟩
  · have hg : (saveTerm pf ext p.st).g = g := by rw [saveTerm_notty pf ext p.st ht]
    have hrun : run = ⟨t1, .returned (ext.master_main t1)⟩ := by
      rw [hmain, runMode_n pf ext p hm, hg]
    refine ⟨hrun, ?_⟩
    rw [hrun]
    simp [t1, List.filter_append, startup_filter_master p.st.trace hearly,
      List.filter_cons, Call.isMaster]

theorem C5_no_terminal_witness :
    parseArgs linux noTtyWorld (lit "dtach") [lit "-c", lit "/tmp/s", lit "vi"]
      = .go (parsedFor 99) ∧
    noTtyWorld.tcgetattr 0 = none ∧
    (main linux noTtyWorld [lit "dtach", lit "-c", lit "/tmp/s", lit "vi"]).result
      = .returned 1 ∧
    (main linux noTtyWorld [lit "dtach", lit "-c", lit "/tmp/s", lit "vi"]).noEntry :=
  ⟨rfl, rfl,
    congrArg Run.result ((C5_no_terminal linux noTtyWorld (lit "dtach")
      [lit "-c", lit "/tmp/s", lit "vi"] (parsedFor 99) rfl rfl).1 (by decide)).1,
    ((C5_no_terminal linux noTtyWorld (lit "dtach")
      [lit "-c", lit "/tmp/s", lit "vi"] (parsedFor 99) rfl rfl).1 (by decide)).2⟩

/-! ## C9: a literal detach character -/

theorem lit_E : lit "-E" = [45, 69] := by decide

theorem parseOptions_E (pf : Platform) (rest : List CStr) (st : St) :
    parseOptions pf (lit "-E" :: rest) st =
      parseOptions pf rest { st with g := { st.g with detach_char := -1 } } := by
  rw [parseOptions.eq_def, lit_E]
  simp [charAt, scanLetters]

/-- C9. Literal detach character, evaluated where plain `char` is signed
(as on `linux`): the argument of `-e` made of the one byte `0xFF` is not a
caret form, and the detach character it gives is not `255` but `-1`, the
value that `-E` stores; the option loop goes on from `-e 0xFF` exactly as
from `-E`, and `main` hands `attach_main` a detach character of `-1`. -/
theorem C9_literal_byte_0xff_is_disabled :
    linux.char_signed = true ∧ CStr.WF [255] ∧ charAt [255] 0 ≠ 94 ∧
    escapeChar linux [255] = -1 ∧
    (∀ rest st, parseOptions linux (lit "-e" :: [255] :: rest) st =
      parseOptions linux (lit "-E" :: rest) st) ∧
    (∀ c ∈ (main linux world [lit "dtach", lit "-a", lit "/tmp/s", lit "-e", [255]]).trace,
      ∀ g, c.seen = some g → g.detach_char = -1) ∧
    (main linux world [lit "dtach", lit "-a", lit "/tmp/s", lit "-e", [255]]).trace.filter
      Call.isAttach ≠ [] := by
  refine ⟨rfl, by decide, by decide, by decide, ?_, by decide, by decide⟩
  intro rest st
  rw [parseOptions_e, parseOptions_E]
  rfl

/-! ## C10: the $DTACH directory -/

theorem parseRest_stop (pf : Platform) (mode : Int) (args : List CStr) (st : St) (r : Run)
    (h : parseRest pf mode args st = .stop r) :
    r.result = .returned 1 ∧ ∃ o1 o2, r.trace = st.trace ++ [.printf o1, .printf o2] := by
  unfold parseRest at h
  cases ho : parseOptions pf args st with
  | stop r' =>
    simp only [ho, Stage.stop.injEq] at h
    subst h
    exact parseOptions_stop pf args st _ ho
  | go res =>
    obtain ⟨cmd, st2⟩ := res
    simp only [ho] at h
    split_ifs at h
    simp only [Stage.stop.injEq] at h
    subst h
    obtain ⟨h1, _, _⟩ := parseOptions_go pf args st cmd st2 ho
    simp [St.ret, St.tryHelp, St.complain, St.call, h1]

theorem parseRest_go (pf : Platform) (mode : Int) (args : List CStr) (st : St) (p : Parsed)
    (h : parseRest pf mode args st = .go p) :
    p.mode = mode ∧ p.st.trace = st.trace ∧ st.g.sameButOptions p.st.g ∧
      parseOptions pf args st = .go (p.command, p.st) ∧ (mode ≠ 97 → p.command ≠ []) := by
  unfold parseRest at h
  cases ho : parseOptions pf args st with
  | stop r' => simp [ho] at h
  | go res =>
    obtain ⟨cmd, st2⟩ := res
    simp only [ho] at h
    split_ifs at h with hc
    simp only [Stage.go.injEq] at h
    subst h
    obtain ⟨h1, h2, _⟩ := parseOptions_go pf args st cmd st2 ho
    refine ⟨rfl, h1, h2, rfl, fun hne hnil => hc ⟨hne, ?_⟩⟩
    simp only at hnil
    simp [hnil]

theorem parseArgs_socket (pf : Platform) (ext : Extern) (prog m s : CStr) (rest : List CStr)
    (mode : Int) (hm : parseMode pf (St.init pf prog) (m :: s :: rest) = .go mode) :
    parseArgs pf ext prog (m :: s :: rest) =
      match resolveSocket ext (St.init pf prog) s with
      | .stop r => .stop r
      | .go st => parseRest pf mode rest st := by
  simp only [parseArgs, hm, List.tail_cons]

/-- In a run that reaches the options, the calls after those of lines 138 to
177 are messages, `tcgetattr`, the entry points and `unlink`. -/
theorem main_after_socket (pf : Platform) (ext : Extern) (prog m s : CStr) (rest : List CStr)
    (mode : Int) (st1 : St)
    (hm : parseMode pf (St.init pf prog) (m :: s :: rest) = .go mode)
    (hr : resolveSocket ext (St.init pf prog) s = .go st1) :
    ∃ l, (main pf ext (prog :: m :: s :: rest)).trace = st1.trace ++ l ∧
      ∀ c ∈ l, c.late = true := by
  have hpa := parseArgs_socket pf ext prog m s rest mode hm
  simp only [hr] at hpa
  simp only [main]
  cases hp : parseRest pf mode rest st1 with
  | stop r =>
    rw [hpa, hp]
    obtain ⟨_, o1, o2, h⟩ := parseRest_stop pf mode rest st1 r hp
    exact ⟨_, h, by simp [Call.late]⟩
  | go p =>
    rw [hpa, hp]
    obtain ⟨_, htr, _⟩ := parseRest_go pf mode rest st1 p hp
    obtain ⟨l, hl, hcalls⟩ := runMode_calls pf ext p
    refine ⟨.tcgetattr 0 :: l, by rw [← htr]; exact hl, ?_⟩
    intro c hc
    simp only [List.mem_cons] at hc
    rcases hc with rfl | hc
    · rfl
    · rcases hcalls c hc with ⟨o, rfl⟩ | ⟨n, rfl⟩ | ⟨n, rfl⟩ | rfl <;> rfl

theorem main_socket_stop (pf : Platform) (ext : Extern) (prog m s : CStr) (rest : List CStr)
    (mode : Int) (r : Run)
    (hm : parseMode pf (St.init pf prog) (m :: s :: rest) = .go mode)
    (hr : resolveSocket ext (St.init pf prog) s = .stop r) :
    main pf ext (prog :: m :: s :: rest) = r := by
  have hpa := parseArgs_socket pf ext prog m s rest mode hm
  simp only [hr] at hpa
  simp only [main, hpa]

theorem late_filter (l : List Call) (h : ∀ c ∈ l, c.late = true) :
    l.filter Call.isMkdir = [] ∧ l.filter Call.isStat = [] := by
  constructor <;> rw [List.filter_eq_nil_iff] <;> intro c hc <;> have := h c hc <;>
    cases c <;> simp_all [Call.late, Call.isMkdir, Call.isStat]

/-- C10. Handling of the `$DTACH` directory. In a run with a valid mode
argument and a socket name `s` to which `$DTACH`, set to `d`, applies, the
first two calls of `main` are `getenv` and `stat(d)`, the only `stat` of the
run. If `d` exists and is not a directory, `main` returns `1` and calls
neither `mkdir` nor an entry point. If the `stat` fails, `mkdir(d, 0755)` is
the one `mkdir` of the run, and `main` returns `1`, calling no entry point,
when it fails. If `d` exists as a directory, there is no `mkdir`, and lines
138 to 177 hand over to the option loop with the calls `getenv`, `stat`,
`calloc` made. -/
theorem C10_dtach_directory (pf : Platform) (ext : Extern) (prog m s d : CStr)
    (rest : List CStr) (mode : Int)
    (hm : parseMode pf (St.init pf prog) (m :: s :: rest) = .go mode)
    (hg : ext.getenv (lit "DTACH") = some d) (ha : dtachApplies s) :
    let run := main pf ext (prog :: m :: s :: rest)
    run.trace.take 2 = [.getenv (lit "DTACH"), .stat d] ∧
    run.trace.filter Call.isStat = [.stat d] ∧
    (ext.stat d = some false →
      run.result = .returned 1 ∧ run.trace.filter Call.isMkdir = [] ∧ run.noEntry) ∧
    (ext.stat d = none →
      run.trace.filter Call.isMkdir = [.mkdir d 0o755] ∧
      (ext.mkdir d 0o755 ≠ 0 → run.result = .returned 1 ∧ run.noEntry)) ∧
    (ext.stat d = some true →
      run.trace.filter Call.isMkdir = [] ∧
      ∃ st1, resolveSocket ext (St.init pf prog) s = .go st1 ∧
        st1.trace = [.getenv (lit "DTACH"), .stat d, .calloc (strlen s + strlen d + 1) 1] ∧
        parseArgs pf ext prog (m :: s :: rest) = parseRest pf mode rest st1) := by
  intro run
  have hpa := parseArgs_socket pf ext prog m s rest mode hm
  cases hs : ext.stat d with
  | none =>
    by_cases hk : ext.mkdir d 0o755 = 0
    · have hr := resolveSocket_mkdir_ok ext (St.init pf prog) s d hg ha hs hk
      obtain ⟨l, hl, hlate⟩ := main_after_socket pf ext prog m s rest mode _ hm hr
      have hrun : run.trace = [.getenv (lit "DTACH"), .stat d, .mkdir d 0o755,
          .calloc (strlen s + strlen d + 1) 1] ++ l := by
        rw [show run.trace = _ from hl]; simp [St.init]
      obtain ⟨f1, f2⟩ := late_filter l hlate
      refine ⟨by rw [hrun]; rfl, ?_, by simp, fun _ => ⟨?_, fun h => absurd hk h⟩, by simp⟩
      · rw [hrun, List.filter_append, f2]; simp [List.filter_cons, Call.isStat]
      · rw [hrun, List.filter_append, f1]; simp [List.filter_cons, Call.isMkdir]
    · have hr := resolveSocket_mkdir_fail ext (St.init pf prog) s d hg ha hs hk
      have hrun : run = _ := main_socket_stop pf ext prog m s rest mode _ hm hr
      rw [hrun]
      refine ⟨by simp [St.init], by simp [St.init, List.filter_cons, Call.isStat], by simp,
        fun _ => ⟨by simp [St.init, List.filter_cons, Call.isMkdir], fun _ => ⟨rfl, ?_⟩⟩,
        by simp⟩
      intro c hc
      simp only [St.init, List.nil_append, List.mem_cons, List.mem_singleton,
        List.not_mem_nil, or_false] at hc
      rcases hc with rfl | rfl | rfl | rfl <;> exact ⟨rfl, rfl⟩
  | some isdir =>
    cases isdir with
    | true =>
      have hr := resolveSocket_dir ext (St.init pf prog) s d hg ha hs
      obtain ⟨l, hl, hlate⟩ := main_after_socket pf ext prog m s rest mode _ hm hr
      have hrun : run.trace = [.getenv (lit "DTACH"), .stat d,
          .calloc (strlen s + strlen d + 1) 1] ++ l := by
        rw [show run.trace = _ from hl]; simp [St.init]
      obtain ⟨f1, f2⟩ := late_filter l hlate
      refine ⟨by rw [hrun]; rfl, ?_, by simp, by simp, fun _ => ⟨?_, _, hr, by simp [St.init], ?_⟩⟩
      · rw [hrun, List.filter_append, f2]; simp [List.filter_cons, Call.isStat]
      · rw [hrun, List.filter_append, f1]; simp [List.filter_cons, Call.isMkdir]
      · rw [hpa, hr]
    | false =>
      have hr := resolveSocket_notdir ext (St.init pf prog) s d hg ha hs
      have hrun : run = _ := main_socket_stop pf ext prog m s rest mode _ hm hr
      rw [hrun]
      refine ⟨by simp [St.init], by simp [St.init, List.filter_cons, Call.isStat],
        fun _ => ⟨rfl, by simp [St.init, List.filter_cons, Call.isMkdir], ?_⟩, by simp, by simp⟩
      intro c hc
      simp only [St.init, List.nil_append, List.mem_cons, List.mem_singleton,
        List.not_mem_nil, or_false] at hc
      rcases hc with rfl | rfl | rfl | rfl | rfl | rfl <;> exact ⟨rfl, rfl⟩

theorem C10_dtach_directory_witness :
    parseMode linux (St.init linux (lit "dtach")) [lit "-n", lit "foo", lit "vi"] = .go 110 ∧
    world.getenv (lit "DTACH") = some (lit "/tmp/d") ∧ dtachApplies (lit "foo") ∧
    (main linux world [lit "dtach", lit "-n", lit "foo", lit "vi"]).trace.filter Call.isStat
      = [.stat (lit "/tmp/d")] ∧
    (main linux world [lit "dtach", lit "-n", lit "foo", lit "vi"]).trace.filter Call.isMkdir
      = [] :=
  ⟨rfl, rfl, by decide,
    (C10_dtach_directory linux world (lit "dtach") (lit "-n") (lit "foo") (lit "/tmp/d")
      [lit "vi"] 110 rfl rfl (by decide)).2.1,
    ((C10_dtach_directory linux world (lit "dtach") (lit "-n") (lit "foo") (lit "/tmp/d")
      [lit "vi"] 110 rfl rfl (by decide)).2.2.2.2 rfl).1⟩

/-! ## The grammar of the options -/

theorem applyOpts_append (pf : Platform) (a b : List Opt) (g : Globals) :
    applyOpts pf (a ++ b) g = applyOpts pf b (applyOpts pf a g) := by
  simp [applyOpts, List.foldl_append]

theorem scanLetters_E (ps : List Nat) (g : Globals) :
    scanLetters (69 :: ps) g = scanLetters ps { g with detach_char := -1 } := by
  simp [scanLetters]

theorem scanLetters_z (ps : List Nat) (g : Globals) :
    scanLetters (122 :: ps) g = scanLetters ps { g with no_suspend := 1 } := by
  simp [scanLetters]

theorem scanLetters_flags (pf : Platform) (l tl : List Nat) (g : Globals)
    (hl : ∀ c ∈ l, isFlag c) :
    scanLetters (l ++ tl) g = scanLetters tl (applyOpts pf (l.map flagOpt) g) := by
  induction l generalizing g with
  | nil => rfl
  | cons c l ih =>
    have hc := hl c (List.mem_cons_self _ _)
    have hl' : ∀ c ∈ l, isFlag c := fun x hx => hl x (List.mem_cons_of_mem _ hx)
    rcases hc with rfl | rfl
    · rw [List.cons_append, scanLetters_E, ih _ hl']
      rfl
    · rw [List.cons_append, scanLetters_z, ih _ hl']
      rfl

theorem redrawMethod_of_isMethod (v : CStr) (h : isMethod v) : ∃ m, redrawMethod v = some m := by
  rcases h with rfl | rfl | rfl
  · exact ⟨.REDRAW_NONE, by decide⟩
  · exact ⟨.REDRAW_CTRL_L, by decide⟩
  · exact ⟨.REDRAW_WINCH, by decide⟩

/-- The option loop on a list of options followed by more arguments: it
applies the options and goes on with the arguments that follow. -/
theorem parseOptions_opts (pf : Platform) (args : List CStr) (opts : List Opt)
    (h : Opts args opts) (more : List CStr) (st : St) :
    parseOptions pf (args ++ more) st =
      parseOptions pf more { st with g := applyOpts pf opts st.g } := by
  induction h generalizing st with
  | done => rfl
  | flags l rest opts hl _ ih =>
    rw [List.cons_append, parseOptions.eq_def]
    have hs : scanLetters l st.g = .finished (applyOpts pf (l.map flagOpt) st.g) := by
      have := scanLetters_flags pf l [] st.g hl
      simpa [scanLetters] using this
    simp only [charAt, List.getD_cons_zero, if_true, List.tail_cons, hs]
    rw [ih, applyOpts_append]
  | e l junk v rest opts hl _ ih =>
    rw [List.cons_append, List.cons_append, parseOptions.eq_def]
    have hs : scanLetters (l ++ 101 :: junk) st.g
        = .at_e (applyOpts pf (l.map flagOpt) st.g) := by
      rw [scanLetters_flags pf l _ st.g hl]
      simp [scanLetters]
    simp only [charAt, List.getD_cons_zero, if_true, List.tail_cons, hs]
    rw [ih, applyOpts_append]
    rfl
  | r l junk v rest opts hl hv _ ih =>
    rw [List.cons_append, List.cons_append, parseOptions.eq_def]
    have hs : scanLetters (l ++ 114 :: junk) st.g
        = .at_r (applyOpts pf (l.map flagOpt) st.g) := by
      rw [scanLetters_flags pf l _ st.g hl]
      simp [scanLetters]
    obtain ⟨m, hm⟩ := redrawMethod_of_isMethod v hv
    simp only [charAt, List.getD_cons_zero, if_true, List.tail_cons, hs, hm]
    rw [ih, applyOpts_append]
    simp [applyOpts, Opt.apply, hm]

theorem parseOptions_command (pf : Platform) (cmd : List CStr) (st : St)
    (h : charAt (cmd.headD []) 0 ≠ 45) : parseOptions pf cmd st = .go (cmd, st) := by
  cases cmd with
  | nil => rfl
  | cons a rest =>
    rw [parseOptions.eq_def]
    simp only [List.headD_cons] at h
    simp [h]

/-! ## C8: the option -E -/

theorem applyOpts_detach (pf : Platform) (post : List Opt) (g : Globals)
    (h : ∀ o ∈ post, o ≠ .E ∧ ∀ v, o ≠ .e v) :
    (applyOpts pf post g).detach_char = g.detach_char := by
  induction post generalizing g with
  | nil => rfl
  | cons o post ih =>
    have ho := h o (List.mem_cons_self _ _)
    have hpost : ∀ o ∈ post, o ≠ .E ∧ ∀ v, o ≠ .e v :=
      fun x hx => h x (List.mem_cons_of_mem _ hx)
    show (applyOpts pf post (o.apply pf g)).detach_char = _
    rw [ih _ hpost]
    cases o with
    | E => exact absurd rfl ho.1
    | z => rfl
    | e v => exact absurd rfl (ho.2 v)
    | r v =>
      simp only [Opt.apply]
      cases redrawMethod v <;> rfl

theorem saveTerm_detach (pf : Platform) (ext : Extern) (st : St) :
    (saveTerm pf ext st).g.detach_char = st.g.detach_char := by
  unfold saveTerm
  cases ext.tcgetattr 0 <;> simp [St.call]

/-- C8, as amended. The option `-E` disables the detach character. Let the
arguments after the socket name be a list of options, by the grammar `Opts`,
in which the letters that follow an `e` or `r` inside the same option
argument are no options, followed by a command that does not begin with `-`
(or by nothing), and let `-E` be the last of the options `-e` and `-E` in
that list. Then in every call of
`attach_main` (and of `master_main`) that `main` makes, the detach character
is `-1`: it lies outside `0..255`, and no byte equals it. -/
theorem C8_E_disables_detach (pf : Platform) (ext : Extern) (prog m s : CStr)
    (args cmd : List CStr) (opts pre post : List Opt)
    (hopts : Opts args opts) (hsplit : opts = pre ++ Opt.E :: post)
    (hpost : ∀ o ∈ post, o ≠ .E ∧ ∀ v, o ≠ .e v) (hcmd : charAt (cmd.headD []) 0 ≠ 45) :
    ∀ c ∈ (main pf ext (prog :: m :: s :: (args ++ cmd))).trace, ∀ g, c.seen = some g →
      g.detach_char = -1 ∧ (g.detach_char < 0 ∨ 255 < g.detach_char) ∧
      ∀ b : Nat, b < 256 → (b : Int) ≠ g.detach_char := by
  intro c hc g hg
  have key : g.detach_char = -1 := by
    simp only [main] at hc
    cases hp : parseArgs pf ext prog (m :: s :: (args ++ cmd)) with
    | stop r =>
      simp only [hp] at hc
      have hst := startup_not_seen c ((parseArgs_stop pf ext prog _ r hp).1 c hc)
      rw [hst.1] at hg; cases hg
    | go p =>
      simp only [hp] at hc
      obtain ⟨_, _, _, hearly, _, m', s', rest', st1, hargs, _, _, ho⟩ :=
        parseArgs_go pf ext prog _ p hp
      simp only [List.cons.injEq] at hargs
      obtain ⟨rfl, rfl, rfl⟩ := hargs
      rw [parseOptions_opts pf args opts hopts cmd st1, parseOptions_command pf cmd _ hcmd] at ho
      simp only [Stage.go.injEq, Prod.mk.injEq] at ho
      have hdet : (saveTerm pf ext p.st).g.detach_char = -1 := by
        rw [saveTerm_detach, ← ho.2, hsplit, applyOpts_append]
        show (applyOpts pf post (Opt.apply pf .E _)).detach_char = -1
        rw [applyOpts_detach pf post _ hpost]
        rfl
      obtain ⟨l, hl, hcalls⟩ := runMode_calls pf ext p
      rw [hl] at hc
      simp only [List.mem_append, List.mem_cons] at hc
      rcases hc with hc | rfl | hc
      · have hst := startup_not_seen c (hearly c hc)
        rw [hst.1] at hg; cases hg
      · simp [Call.seen] at hg
      · rcases hcalls c hc with ⟨o, rfl⟩ | ⟨n, rfl⟩ | ⟨n, rfl⟩ | rfl
        · simp [Call.seen] at hg
        · simp only [Call.seen, Option.some.injEq] at hg
          rw [← hg]; exact hdet
        · simp only [Call.seen, Option.some.injEq] at hg
          rw [← hg]; exact hdet
        · simp [Call.seen] at hg
  refine ⟨key, Or.inl (by omega), fun b _ => by omega⟩

theorem C8_E_disables_detach_witness :
    Opts [lit "-e", lit "^C", lit "-Ez", lit "-r", lit "winch"]
      [.e (lit "^C"), .E, .z, .r (lit "winch")] ∧
    (∀ o ∈ [Opt.z, Opt.r (lit "winch")], o ≠ .E ∧ ∀ v, o ≠ .e v) ∧
    (∀ c ∈ (main linux world [lit "dtach", lit "-a", lit "/tmp/s", lit "-e", lit "^C",
        lit "-Ez", lit "-r", lit "winch"]).trace, ∀ g, c.seen = some g →
      g.detach_char = -1 ∧ (g.detach_char < 0 ∨ 255 < g.detach_char) ∧
      ∀ b : Nat, b < 256 → (b : Int) ≠ g.detach_char) ∧
    (main linux world [lit "dtach", lit "-a", lit "/tmp/s", lit "-e", lit "^C",
        lit "-Ez", lit "-r", lit "winch"]).trace.filter Call.isAttach ≠ [] :=
  have h : Opts [lit "-e", lit "^C", lit "-Ez", lit "-r", lit "winch"]
      [.e (lit "^C"), .E, .z, .r (lit "winch")] :=
    Opts.e [] [] (lit "^C") _ _ (by simp)
      (Opts.flags [69, 122] _ _ (by decide)
        (Opts.r [] [] (lit "winch") [] [] (by simp) (by decide) Opts.done))
  have hpost : ∀ o ∈ [Opt.z, Opt.r (lit "winch")], o ≠ .E ∧ ∀ v, o ≠ .e v := by
    intro o ho
    simp only [List.mem_cons, List.mem_singleton, List.not_mem_nil, or_false] at ho
    rcases ho with rfl | rfl <;> simp
  ⟨h, hpost,
    C8_E_disables_detach linux world (lit "dtach") (lit "-a") (lit "/tmp/s")
      [lit "-e", lit "^C", lit "-Ez", lit "-r", lit "winch"] []
      [.e (lit "^C"), .E, .z, .r (lit "winch")] [.e (lit "^C")] [.z, .r (lit "winch")]
      h rfl hpost (by decide),
    by decide⟩

/-- C8 as it is stated fails. In `dtach -a /tmp/s -eE q` the letters of the
one option argument are `e` and then `E`, so `E` is the last of the letters
`e` and `E` given; the loop leaves the argument at `e` with `q` as the
value, the `E` is never looked at, and `attach_main` is called and finds the
detach character `113`, the byte `q`, which lies in `0..255`. -/
theorem C8_counterexample :
    (∀ a ∈ [lit "-a", lit "/tmp/s", lit "-eE", lit "q"], CStr.WF a) ∧
    validMode (lit "-a") ∧ lit "-eE" = [45, 101, 69] ∧
    parseOptions linux [lit "-eE", lit "q"] (St.init linux (lit "dtach")) =
      .go ([], { St.init linux (lit "dtach") with
        g := { (St.init linux (lit "dtach")).g with detach_char := 113 } }) ∧
    ((main linux world [lit "dtach", lit "-a", lit "/tmp/s", lit "-eE", lit "q"]).trace.filter
      Call.isAttach).length = 1 ∧
    ((main linux world [lit "dtach", lit "-a", lit "/tmp/s", lit "-eE", lit "q"]).trace.filterMap
      Call.seen).map Globals.detach_char = [113] ∧
    ((0 : Int) ≤ 113 ∧ (113 : Int) ≤ 255) := by
  refine ⟨by decide, by decide, by decide, rfl, by decide, by decide, by decide⟩

/-! ## Comparison of strings -/

theorem strncmp_front (a b : CStr) (ha : ∀ x ∈ a, x ≠ 0) :
    strncmp a b (strlen a) = 0 ↔ a <+: b := by
  induction a generalizing b with
  | nil => simp [strncmp, strlen]
  | cons x t ih =>
    have hx : x ≠ 0 := ha x (List.mem_cons_self _ _)
    have ht : ∀ y ∈ t, y ≠ 0 := fun y hy => ha y (List.mem_cons_of_mem _ hy)
    cases b with
    | nil =>
      have : (x : Int) ≠ 0 := by omega
      simp [strncmp, strlen, charAt, hx, this]
    | cons y b =>
      by_cases hxy : x = y
      · subst hxy
        have := ih b ht
        simp only [strlen] at this
        simp [strncmp, strlen, charAt, hx, this, List.cons_prefix_cons]
      · have : (x : Int) - (y : Int) ≠ 0 := by omega
        simp [strncmp, strlen, charAt, hxy, this, List.cons_prefix_cons]

theorem strcmp_eq (a b : CStr) (ha : ∀ x ∈ a, x ≠ 0) (hb : ∀ x ∈ b, x ≠ 0) :
    strcmp a b = 0 ↔ a = b := by
  induction a generalizing b with
  | nil =>
    cases b with
    | nil => simp [strcmp, charAt]
    | cons y b =>
      have hy : y ≠ 0 := hb y (List.mem_cons_self _ _)
      simp [strcmp, charAt, hy]
  | cons x t ih =>
    have hx : x ≠ 0 := ha x (List.mem_cons_self _ _)
    have ht : ∀ y ∈ t, y ≠ 0 := fun y hy => ha y (List.mem_cons_of_mem _ hy)
    cases b with
    | nil =>
      have : (x : Int) ≠ 0 := by omega
      simp [strcmp, charAt, hx, this]
    | cons y b =>
      have hb' : ∀ z ∈ b, z ≠ 0 := fun z hz => hb z (List.mem_cons_of_mem _ hz)
      by_cases hxy : x = y
      · subst hxy
        simp [strcmp, charAt, hx, ih b ht hb']
      · have : (x : Int) - (y : Int) ≠ 0 := by omega
        simp [strcmp, charAt, hxy, this]

theorem charVal_eq_ascii (s : Bool) (b : Nat) (k : Int) (hb : b < 256) (hk0 : 0 ≤ k)
    (hk : k < 128) : charVal s b = k ↔ (b : Int) = k := by
  unfold charVal
  by_cases h : (s && decide (128 ≤ b)) = true
  · simp only [h, if_true]
    simp only [Bool.and_eq_true, decide_eq_true_eq] at h
    omega
  · simp [h]

theorem charAt_lt (a : CStr) (ha : CStr.WF a) (i : Nat) : charAt a i < 256 := by
  unfold charAt
  rw [List.getD_eq_getElem?_getD]
  cases h : a[i]? with
  | none => simp
  | some x =>
    obtain ⟨hi, hx⟩ := List.getElem?_eq_some_iff.mp h
    have := List.getElem_mem hi
    rw [hx] at this
    simpa using (ha x this).2

theorem redrawMethod_none (v : CStr) (hv : CStr.WF v) (h : ¬ isMethod v) :
    redrawMethod v = none := by
  have hv0 : ∀ x ∈ v, x ≠ 0 := fun x hx => by have := (hv x hx).1; omega
  have h1 : strcmp v (lit "none") ≠ 0 := fun hh =>
    h (Or.inl ((strcmp_eq v _ hv0 (by decide)).mp hh))
  have h2 : strcmp v (lit "ctrl_l") ≠ 0 := fun hh =>
    h (Or.inr (Or.inl ((strcmp_eq v _ hv0 (by decide)).mp hh)))
  have h3 : strcmp v (lit "winch") ≠ 0 := fun hh =>
    h (Or.inr (Or.inr ((strcmp_eq v _ hv0 (by decide)).mp hh)))
  simp [redrawMethod, h1, h2, h3]

/-! ## C7: usage errors -/

theorem noEntry_of (tr l : List Call) (res : Outcome) (h1 : ∀ c ∈ tr, c.startup = true)
    (h2 : ∀ c ∈ l, c.isAttach = false ∧ c.isMaster = false) :
    (Run.mk (tr ++ l) res).noEntry := by
  intro c hc
  simp only [List.mem_append] at hc
  rcases hc with hc | hc
  · exact ⟨(startup_not_seen c (h1 c hc)).2.1, (startup_not_seen c (h1 c hc)).2.2.1⟩
  · exact h2 c hc

theorem parseMode_valid (pf : Platform) (st : St) (a : CStr) (rest : List CStr)
    (h : validMode a) : parseMode pf st (a :: rest) = .go (charAt a 1 : Int) := by
  obtain ⟨h0, h1⟩ := h
  match a, h0, h1 with
  | [], h0, _ => simp [charAt] at h0
  | [x], _, h1 => simp [charAt, isModeLetter] at h1
  | x :: y :: t, h0, h1 =>
    simp only [charAt, List.getD_cons_zero, List.getD_cons_succ] at h0 h1
    subst h0
    have hy : y ≠ 45 := by
      rcases h1 with rfl | rfl | rfl | rfl <;> decide
    have hy' : (y : Int) - 45 ≠ 0 := by omega
    have e1 : strncmp (45 :: y :: t) (lit "--help") (strlen (45 :: y :: t)) ≠ 0 := by
      have : lit "--help" = [45, 45, 104, 101, 108, 112] := by decide
      rw [this]
      simp [strncmp, strlen, charAt, hy, hy']
    have e2 : strncmp (45 :: y :: t) (lit "--version") (strlen (45 :: y :: t)) ≠ 0 := by
      have : lit "--version" = [45, 45, 118, 101, 114, 115, 105, 111, 110] := by decide
      rw [this]
      simp [strncmp, strlen, charAt, hy, hy']
    have hc : charVal pf.char_signed y = (y : Int) := by
      rcases h1 with rfl | rfl | rfl | rfl <;> simp [charVal]
    simp only [parseMode, charAt, List.getD_cons_zero, List.getD_cons_succ, if_true, e1, e2,
      if_false, hc]
    rcases h1 with rfl | rfl | rfl | rfl <;> simp

theorem parseMode_none (pf : Platform) (st : St) (args : List CStr)
    (h : args = [] ∨ charAt (args.headD []) 0 ≠ 45) :
    parseMode pf st args = .stop ((st.complain "No mode was specified.\n").tryHelp.ret 1) := by
  cases args with
  | nil => rfl
  | cons a rest =>
    rcases h with h | h
    · cases h
    · simp only [List.headD_cons] at h
      simp [parseMode, h]

theorem parseMode_bad (pf : Platform) (st : St) (a : CStr) (rest : List CStr)
    (hwf : CStr.WF a) (h0 : charAt a 0 = 45) (hh : ¬ helpRequest a)
    (hl : ¬ isModeLetter (charAt a 1)) :
    ∃ o1 o2, parseMode pf st (a :: rest)
      = .stop ⟨st.trace ++ [.printf o1, .printf o2], .returned 1⟩ := by
  have hnz : ∀ x ∈ a, x ≠ 0 := fun x hx => by have := (hwf x hx).1; omega
  have e1 : strncmp a (lit "--help") (strlen a) ≠ 0 := fun h =>
    hh ⟨h0, Or.inl ((strncmp_front a _ hnz).mp h)⟩
  have e2 : strncmp a (lit "--version") (strlen a) ≠ 0 := fun h =>
    hh ⟨h0, Or.inr (Or.inl ((strncmp_front a _ hnz).mp h))⟩
  have hlt := charAt_lt a hwf 1
  have e3 : charVal pf.char_signed (charAt a 1) ≠ 63 := fun h =>
    hh ⟨h0, Or.inr (Or.inr (by
      have := (charVal_eq_ascii _ _ 63 hlt (by decide) (by decide)).mp h
      omega))⟩
  have e4 : charVal pf.char_signed (charAt a 1) ≠ 97 ∧
      charVal pf.char_signed (charAt a 1) ≠ 99 ∧
      charVal pf.char_signed (charAt a 1) ≠ 110 ∧
      charVal pf.char_signed (charAt a 1) ≠ 65 := by
    simp only [isModeLetter, not_or] at hl
    refine ⟨fun h => ?_, fun h => ?_, fun h => ?_, fun h => ?_⟩
    · have := (charVal_eq_ascii _ _ 97 hlt (by decide) (by decide)).mp h; omega
    · have := (charVal_eq_ascii _ _ 99 hlt (by decide) (by decide)).mp h; omega
    · have := (charVal_eq_ascii _ _ 110 hlt (by decide) (by decide)).mp h; omega
    · have := (charVal_eq_ascii _ _ 65 hlt (by decide) (by decide)).mp h; omega
  simp only [parseMode, h0, if_true, e1, e2, if_false, e3]
  rw [if_pos e4]
  simp [St.ret, St.tryHelp, St.call]

theorem failed_of_stop (st : St) (o1 o2 : List Nat) (h : ∀ c ∈ st.trace, c.startup = true) :
    (Run.mk (st.trace ++ [.printf o1, .printf o2]) (.returned 1)).failed :=
  ⟨rfl, noEntry_of _ _ _ h (by simp [Call.isAttach, Call.isMaster])⟩

/-- With a valid mode argument and a socket name, a run fails as soon as the
part of `main` after line 177 fails from every state that lines 138 to 177
can hand over. -/
theorem main_of_rest (pf : Platform) (ext : Extern) (prog a s : CStr) (rest : List CStr)
    (hv : validMode a)
    (H : ∀ st1 : St, (∀ c ∈ st1.trace, c.startup = true) →
      (∃ r, parseRest pf (charAt a 1 : Int) rest st1 = .stop r ∧ r.failed) ∨
      (∃ p, parseRest pf (charAt a 1 : Int) rest st1 = .go p ∧ (runMode pf ext p).failed)) :
    (main pf ext (prog :: a :: s :: rest)).failed := by
  have hm := parseMode_valid pf (St.init pf prog) a (s :: rest) hv
  have hpa := parseArgs_socket pf ext prog a s rest _ hm
  rcases resolveSocket_cases ext (St.init pf prog) s with
    ⟨st1, l, hr, htr, hl, _, _⟩ | ⟨l, hr, hl, _⟩
  · have hst1 : ∀ c ∈ st1.trace, c.startup = true := by
      rw [htr]; simpa [St.init] using hl
    rw [hr] at hpa
    simp only at hpa
    rcases H st1 hst1 with ⟨r, h1, h2⟩ | ⟨p, h1, h2⟩
    · rw [h1] at hpa
      simp only [main, hpa]
      exact h2
    · rw [h1] at hpa
      simp only [main, hpa]
      exact h2
  · rw [hr] at hpa
    simp only at hpa
    simp only [main, hpa]
    exact ⟨rfl, noEntry_of _ _ _ (by simp [St.init]) (fun c hc => by
      have := startup_not_seen c (hl c hc)
      exact ⟨this.2.1, this.2.2.1⟩)⟩

theorem parseRest_of_options_stop (pf : Platform) (mode : Int) (args : List CStr) (st : St)
    (h : ∀ c ∈ st.trace, c.startup = true) (r : Run)
    (ho : parseOptions pf args st = .stop r) :
    ∃ r, parseRest pf mode args st = .stop r ∧ r.failed := by
  refine ⟨r, by simp [parseRest, ho], ?_⟩
  obtain ⟨h1, o1, o2, h2⟩ := parseOptions_stop pf args st r ho
  have : r = ⟨st.trace ++ [.printf o1, .printf o2], .returned 1⟩ := by
    cases r; simp_all
  rw [this]
  exact failed_of_stop st o1 o2 h

theorem options_bad_letter (pf : Platform) (l junk : List Nat) (c : Nat) (more : List CStr)
    (st : St) (hl : ∀ x ∈ l, isFlag x) (h1 : c ≠ 69) (h2 : c ≠ 122) (h3 : c ≠ 101)
    (h4 : c ≠ 114) :
    ∃ r, parseOptions pf ((45 :: (l ++ c :: junk)) :: more) st = .stop r := by
  rw [parseOptions.eq_def]
  have hs : scanLetters (l ++ c :: junk) st.g = .bad c := by
    rw [scanLetters_flags pf l _ st.g hl]
    simp [scanLetters, h1, h2, h3, h4]
  simp [charAt, hs]

theorem options_no_value (pf : Platform) (l junk : List Nat) (c : Nat)
    (st : St) (hl : ∀ x ∈ l, isFlag x) (hc : c = 101 ∨ c = 114) :
    ∃ r, parseOptions pf [45 :: (l ++ c :: junk)] st = .stop r := by
  rw [parseOptions.eq_def]
  rcases hc with rfl | rfl
  · have hs : scanLetters (l ++ 101 :: junk) st.g
        = .at_e (applyOpts pf (l.map flagOpt) st.g) := by
      rw [scanLetters_flags pf l _ st.g hl]
      simp [scanLetters]
    simp [charAt, hs]
  · have hs : scanLetters (l ++ 114 :: junk) st.g
        = .at_r (applyOpts pf (l.map flagOpt) st.g) := by
      rw [scanLetters_flags pf l _ st.g hl]
      simp [scanLetters]
    simp [charAt, hs]

theorem options_bad_method (pf : Platform) (l junk : List Nat) (v : CStr) (more : List CStr)
    (st : St) (hl : ∀ x ∈ l, isFlag x) (hv : CStr.WF v) (hm : ¬ isMethod v) :
    ∃ r, parseOptions pf ((45 :: (l ++ 114 :: junk)) :: v :: more) st = .stop r := by
  rw [parseOptions.eq_def]
  have hs : scanLetters (l ++ 114 :: junk) st.g
      = .at_r (applyOpts pf (l.map flagOpt) st.g) := by
    rw [scanLetters_flags pf l _ st.g hl]
    simp [scanLetters]
  simp [charAt, hs, redrawMethod_none v hv hm]

theorem runMode_extra_args (pf : Platform) (ext : Extern) (p : Parsed)
    (h : ∀ c ∈ p.st.trace, c.startup = true) (hm : p.mode = 97) (hc : p.command ≠ []) :
    (runMode pf ext p).failed := by
  have hlen : p.command.length > 0 := List.length_pos.mpr hc
  unfold runMode
  simp only
  split_ifs with h1
  · simp only [St.ret, St.complain, St.call, saveTerm_trace, List.append_assoc]
    exact ⟨rfl, noEntry_of _ _ _ h (by simp [Call.isAttach, Call.isMaster])⟩
  · unfold dispatch
    simp only [hm, if_true, hlen, St.ret, St.tryHelp, St.complain, St.call, saveTerm_trace,
      List.append_assoc]
    exact ⟨rfl, noEntry_of _ _ _ h (by simp [Call.isAttach, Call.isMaster])⟩

/-- C7, as amended. Usage errors. For an argument vector of C strings, if
there is no mode argument, or its letter is none of `a`, `A`, `c`, `n` (and
it is no request for help or version), or no socket name follows it, or an
option argument holds, before any letter `e` or `r`, a letter other than
`E`, `z`, `e`, `r`, or `-e` or `-r` lacks its value, or `-r` has a value
other than `none`, `ctrl_l`, `winch`, or the command is missing in a mode
other than `a`, or arguments follow the options in mode `a`, then `main`
returns `1` and calls neither `attach_main` nor `master_main`. -/
theorem C7_usage_errors (pf : Platform) (ext : Extern) (prog : CStr) (args : List CStr)
    (hwf : ∀ a ∈ args, CStr.WF a) (h : UsageError args) :
    (main pf ext (prog :: args)).result = .returned 1 ∧
      (main pf ext (prog :: args)).noEntry := by
  show (main pf ext (prog :: args)).failed
  cases h with
  | no_args =>
    simp only [main, parseArgs, parseMode_none pf _ [] (Or.inl rfl)]
    exact ⟨rfl, by simp [Run.noEntry, St.ret, St.tryHelp, St.complain, St.call, St.init,
      Call.isAttach, Call.isMaster]⟩
  | no_mode a rest h0 =>
    simp only [main, parseArgs, parseMode_none pf _ (a :: rest) (Or.inr (by simpa using h0))]
    exact ⟨rfl, by simp [Run.noEntry, St.ret, St.tryHelp, St.complain, St.call, St.init,
      Call.isAttach, Call.isMaster]⟩
  | bad_mode a rest h0 hh hl =>
    obtain ⟨o1, o2, hm⟩ := parseMode_bad pf (St.init pf prog) a rest
      (hwf a (List.mem_cons_self _ _)) h0 hh hl
    simp only [main, parseArgs, hm]
    exact failed_of_stop _ o1 o2 (by simp [St.init])
  | no_socket a hv =>
    simp only [main, parseArgs, parseMode_valid pf _ a [] hv, List.tail_cons]
    exact ⟨rfl, by simp [Run.noEntry, St.ret, St.tryHelp, St.complain, St.call, St.init,
      Call.isAttach, Call.isMaster]⟩
  | bad_letter a s pre opts l c junk more hv hpre hl h1 h2 h3 h4 =>
    apply main_of_rest pf ext prog a s _ hv
    intro st1 hst1
    left
    obtain ⟨r, hr⟩ := options_bad_letter pf l junk c more
      { st1 with g := applyOpts pf opts st1.g } hl h1 h2 h3 h4
    exact parseRest_of_options_stop pf _ _ st1 hst1 r
      (by rw [parseOptions_opts pf pre opts hpre]; exact hr)
  | no_value a s pre opts l c junk hv hpre hl hc =>
    apply main_of_rest pf ext prog a s _ hv
    intro st1 hst1
    left
    obtain ⟨r, hr⟩ := options_no_value pf l junk c
      { st1 with g := applyOpts pf opts st1.g } hl hc
    exact parseRest_of_options_stop pf _ _ st1 hst1 r
      (by rw [parseOptions_opts pf pre opts hpre]; exact hr)
  | bad_method a s pre opts l junk v more hv hpre hl hm =>
    apply main_of_rest pf ext prog a s _ hv
    intro st1 hst1
    left
    have hvwf : CStr.WF v := hwf v (by simp)
    obtain ⟨r, hr⟩ := options_bad_method pf l junk v more
      { st1 with g := applyOpts pf opts st1.g } hl hvwf hm
    exact parseRest_of_options_stop pf _ _ st1 hst1 r
      (by rw [parseOptions_opts pf pre opts hpre]; exact hr)
  | no_command a s pre opts hv hna hpre =>
    apply main_of_rest pf ext prog a s _ hv
    intro st1 hst1
    left
    have ho : parseOptions pf pre st1 = .go ([], { st1 with g := applyOpts pf opts st1.g }) := by
      have := parseOptions_opts pf pre opts hpre [] st1
      rw [List.append_nil] at this
      rw [this]; rfl
    have hmode : (charAt a 1 : Int) ≠ 97 := by omega
    refine ⟨_, by simp [parseRest, ho, hmode]; rfl, ?_⟩
    simp only [St.ret, St.tryHelp, St.complain, St.call, List.append_assoc]
    exact ⟨rfl, noEntry_of _ _ _ hst1 (by simp [Call.isAttach, Call.isMaster])⟩
  | extra_args a s pre opts x more hv ha hpre hx =>
    apply main_of_rest pf ext prog a s _ hv
    intro st1 hst1
    right
    have ho : parseOptions pf (pre ++ x :: more) st1
        = .go (x :: more, { st1 with g := applyOpts pf opts st1.g }) := by
      rw [parseOptions_opts pf pre opts hpre, parseOptions_command _ _ _ (by simpa using hx)]
    have hmode : (charAt a 1 : Int) = 97 := by omega
    refine ⟨⟨97, x :: more, { st1 with g := applyOpts pf opts st1.g }⟩,
      by simp [parseRest, ho, hmode], ?_⟩
    exact runMode_extra_args pf ext _ hst1 rfl (by simp)

theorem C7_usage_errors_witness :
    (∀ a ∈ [lit "-a", lit "/tmp/s", lit "-zx", lit "q"], CStr.WF a) ∧
    UsageError [lit "-a", lit "/tmp/s", lit "-zx", lit "q"] ∧
    (main linux world [lit "dtach", lit "-a", lit "/tmp/s", lit "-zx", lit "q"]).result
      = .returned 1 ∧
    (main linux world [lit "dtach", lit "-a", lit "/tmp/s", lit "-zx", lit "q"]).noEntry :=
  have hwf : ∀ a ∈ [lit "-a", lit "/tmp/s", lit "-zx", lit "q"], CStr.WF a := by decide
  have herr : UsageError [lit "-a", lit "/tmp/s", lit "-zx", lit "q"] :=
    UsageError.bad_letter (lit "-a") (lit "/tmp/s") [] [] [122] 120 [] [lit "q"]
      (by decide) Opts.done (by decide) (by decide) (by decide) (by decide) (by decide)
  ⟨hwf, herr,
    C7_usage_errors linux world (lit "dtach") [lit "-a", lit "/tmp/s", lit "-zx", lit "q"]
      hwf herr⟩

/-- C7 as it is stated fails. In `dtach -a /tmp/s -ex q` the option argument
`-ex` holds the letter `x`, which is none of `E`, `z`, `e`, `r`; the loop
leaves that argument at `e`, `x` is never looked at, and with a terminal and
a session `main` calls `attach_main` and returns its `0`. -/
theorem C7_counterexample :
    (∀ a ∈ [lit "-a", lit "/tmp/s", lit "-ex", lit "q"], CStr.WF a) ∧
    validMode (lit "-a") ∧ charAt (lit "-ex") 0 = 45 ∧
    (120 ∈ (lit "-ex").tail ∧ 120 ≠ 69 ∧ 120 ≠ 122 ∧ 120 ≠ 101 ∧ 120 ≠ 114) ∧
    ¬ ((main linux world [lit "dtach", lit "-a", lit "/tmp/s", lit "-ex", lit "q"]).result
        = .returned 1 ∧
      (main linux world [lit "dtach", lit "-a", lit "/tmp/s", lit "-ex", lit "q"]).noEntry) := by
  decide

/-! ## Valid invocations -/

/-- The invocations that pass the checks of lines 92 to 257, told from the
arguments: a valid mode argument, a socket name for which lines 138 to 177
go on, a list of options, and a command, which may be missing in mode `a`
only. The checks hand over the mode letter, the command, and the globals
with the options applied. -/
theorem parseArgs_valid (pf : Platform) (ext : Extern) (prog a s : CStr)
    (args cmd : List CStr) (opts : List Opt) (st1 : St)
    (hv : validMode a) (hopts : Opts args opts) (hcmd : charAt (cmd.headD []) 0 ≠ 45)
    (hc : charAt a 1 ≠ 97 → cmd ≠ [])
    (hr : resolveSocket ext (St.init pf prog) s = .go st1) :
    parseArgs pf ext prog (a :: s :: (args ++ cmd)) =
      .go ⟨(charAt a 1 : Int), cmd, { st1 with g := applyOpts pf opts st1.g }⟩ := by
  have hm := parseMode_valid pf (St.init pf prog) a (s :: (args ++ cmd)) hv
  rw [parseArgs_socket pf ext prog a s _ _ hm, hr]
  simp only [parseRest, parseOptions_opts pf args opts hopts,
    parseOptions_command pf cmd _ hcmd]
  rw [if_neg]
  rintro ⟨h1, h2⟩
  have : charAt a 1 ≠ 97 := by omega
  have := hc this
  cases cmd with
  | nil => exact this rfl
  | cons x t => simp at h2

/-! ## C19: option clusters -/

/-- The option loop at an option argument that reaches a letter `e` after
letters `E` and `z`: the next argument is the value, and the letters that
follow the `e` play no part. -/
theorem parseOptions_cluster_e (pf : Platform) (l junk : List Nat) (v : CStr)
    (rest : List CStr) (st : St) (hl : ∀ c ∈ l, isFlag c) :
    parseOptions pf ((45 :: (l ++ 101 :: junk)) :: v :: rest) st =
      parseOptions pf rest { st with g := { applyOpts pf (l.map flagOpt) st.g with
        detach_char := escapeChar pf v } } := by
  have h := parseOptions_opts pf _ _ (Opts.e l junk v [] [] hl Opts.done) rest st
  simp only [List.cons_append, List.nil_append] at h
  rw [h, applyOpts_append]
  rfl

/-- The same at a letter `r` whose value names a method. -/
theorem parseOptions_cluster_r (pf : Platform) (l junk : List Nat) (v : CStr)
    (rest : List CStr) (st : St) (m : Redraw) (hl : ∀ c ∈ l, isFlag c)
    (hm : redrawMethod v = some m) :
    parseOptions pf ((45 :: (l ++ 114 :: junk)) :: v :: rest) st =
      parseOptions pf rest { st with g := { applyOpts pf (l.map flagOpt) st.g with
        redraw_method := m } } := by
  rw [parseOptions.eq_def]
  have hs : scanLetters (l ++ 114 :: junk) st.g
      = .at_r (applyOpts pf (l.map flagOpt) st.g) := by
    rw [scanLetters_flags pf l _ st.g hl]
    simp [scanLetters]
  simp only [charAt, List.getD_cons_zero, if_true, List.tail_cons, hs, hm]

/-- The option loop at an option argument made of letters `E` and `z`. -/
theorem parseOptions_cluster_flags (pf : Platform) (l : List Nat) (rest : List CStr) (st : St)
    (hl : ∀ c ∈ l, isFlag c) :
    parseOptions pf ((45 :: l) :: rest) st =
      parseOptions pf rest { st with g := applyOpts pf (l.map flagOpt) st.g } := by
  have h := parseOptions_opts pf _ _ (Opts.flags l [] [] hl Opts.done) rest st
  simp only [List.cons_append, List.nil_append, List.append_nil] at h
  exact h

/-! ## C20: the size of the block for the combined path -/

theorem storeAll_writes (b : Block) (i : Nat) (vs : List Nat) :
    (b.storeAll i vs).writes = b.writes ++ List.range' i vs.length := by
  induction vs generalizing b i with
  | nil => simp [Block.storeAll]
  | cons v vs ih =>
    rw [Block.storeAll, ih]
    simp [Block.store, List.range'_succ]

/-- The block of the combined path for C strings `d` and `s`: its size, and
the offsets written by the three copies, which are `0` to
`strlen d + strlen s + 1`, each once, in order. -/
theorem joinPath_writes (beyond : Nat → Nat) (d s : CStr) (hd : CStr.WF d) :
    ∃ b, joinPath beyond d s = some b ∧ b.size = strlen s + strlen d + 1 ∧
      b.writes = List.range' 0 (strlen d) ++ [strlen d, strlen d + 1]
        ++ List.range' (strlen d + 1) (strlen s + 1) := by
  have hd0 : ∀ x ∈ d, x ≠ 0 := fun x hx => by have := (hd x hx).1; omega
  have h1 : (strncpy (calloc (strlen s + strlen d + 1) beyond) d (strlen d)).Holds (d ++ [0]) := by
    apply Holds_snoc _ _ _ (by rw [strncpy_all]; exact Holds_storeAll_zero _ _)
    exact strncpy_calloc_mem _ _ _ (by simp [strlen]; omega)
  have e1 := Holds_strend _ _ h1 hd0 (by rw [strncpy_size, calloc_size]; simp [strlen]; omega)
  have h2 := Holds_append _ d (List.take 1 (lit "/") ++ [0]) (Holds_front _ _ _ h1)
  have h2' : List.take 1 (lit "/") ++ [0] = [47, 0] := by decide
  rw [h2'] at h2
  rw [show d ++ [47, 0] = (d ++ [47]) ++ [0] by simp] at h2
  have e2 := Holds_strend _ _ h2 (by
      intro x hx
      rcases List.mem_append.mp hx with h | h
      · exact hd0 x h
      · simp at h; omega)
    (by rw [storeAll_size, strncpy_size, calloc_size]; simp [strlen])
  refine ⟨((strncpy (calloc (strlen s + strlen d + 1) beyond) d (strlen d)).storeAll
    (List.length d) [47, 0]).storeAll (List.length (d ++ [47])) (s ++ [0]), ?_, ?_, ?_⟩
  · simp only [joinPath, strncat, e1, h2', Option.map_some', Option.some_bind, e2,
      show List.take (strlen s) s = s by simp [strlen]]
  · simp [storeAll_size, strncpy_size, calloc_size]
  · rw [storeAll_writes, storeAll_writes, strncpy_all, storeAll_writes]
    simp [calloc, strlen, List.range'_succ]

/-- C20. The size of the block for the combined path, evaluated. With
`$DTACH` equal to `/tmp/d` and the socket name `foo`, `main` allocates
`maxlen = 10` bytes where `d`, the `/`, `s` and the NUL need `11`, and the
copies write the offsets `0` to `10`: the terminating NUL goes to offset
`10`, the first byte after the block. For all C strings `d` and `s` the
block has `strlen s + strlen d + 1` bytes, one less than needed, and the
offset equal to its size is written. -/
theorem C20_path_block_one_byte_short :
    dtachApplies (lit "foo") ∧
    (joinPath world.beyond (lit "/tmp/d") (lit "foo")).map (fun b => (b.size, b.writes))
      = some (10, [0, 1, 2, 3, 4, 5, 6, 7, 7, 8, 9, 10]) ∧
    strlen (lit "/tmp/d") + 1 + strlen (lit "foo") + 1 = 11 ∧
    (∀ (beyond : Nat → Nat) (d s : CStr), CStr.WF d → CStr.WF s →
      ∃ b, joinPath beyond d s = some b ∧ b.size < strlen d + 1 + strlen s + 1 ∧
        b.size ∈ b.writes ∧ ∀ i ∈ b.writes, i ≤ b.size) := by
  refine ⟨by decide, by decide, by decide, ?_⟩
  intro beyond d s hd _
  obtain ⟨b, hb, hsz, hw⟩ := joinPath_writes beyond d s hd
  refine ⟨b, hb, by omega, ?_, ?_⟩
  · rw [hw, hsz]
    simp only [List.mem_append, List.mem_range', List.mem_cons]
    right
    exact ⟨strlen s, by omega, by omega⟩
  · intro i hi
    rw [hw] at hi
    simp only [List.mem_append, List.mem_range', List.mem_cons, List.mem_singleton,
      List.not_mem_nil, or_false] at hi
    rw [hsz]
    rcases hi with (⟨k, hk, rfl⟩ | rfl | rfl) | ⟨k, hk, rfl⟩ <;> omega

/-! ## C13: the redraw method -/

theorem redrawMethod_eq_methodNamed (v : CStr) (hv : CStr.WF v) :
    redrawMethod v = methodNamed v := by
  have hv0 : ∀ x ∈ v, x ≠ 0 := fun x hx => by have := (hv x hx).1; omega
  have h1 := strcmp_eq v (lit "none") hv0 (by decide)
  have h2 := strcmp_eq v (lit "ctrl_l") hv0 (by decide)
  have h3 := strcmp_eq v (lit "winch") hv0 (by decide)
  unfold redrawMethod methodNamed
  simp only [h1, h2, h3]

/-- C13. Parsing of the redraw method. For a value `v` of `-r` that is a C
string: when `v` is exactly `none`, `ctrl_l` or `winch`, the option loop goes
on with the redraw method of that name and no other global changed; for
every other `v`, in any run where the `-r` stands in an option argument
after a valid mode argument, a socket name and a list of options, `main`
returns `1` and calls neither `attach_main` nor `master_main`; and no value
makes the method `REDRAW_UNSPEC`. -/
theorem C13_redraw_method (pf : Platform) (v : CStr) (hv : CStr.WF v) :
    (∀ m, methodNamed v = some m → ∀ rest st,
      parseOptions pf (lit "-r" :: v :: rest) st =
        parseOptions pf rest { st with g := { st.g with redraw_method := m } }) ∧
    methodNamed (lit "none") = some .REDRAW_NONE ∧
    methodNamed (lit "ctrl_l") = some .REDRAW_CTRL_L ∧
    methodNamed (lit "winch") = some .REDRAW_WINCH ∧
    (methodNamed v = none → ∀ (ext : Extern) (prog a s : CStr) (pre more : List CStr)
      (opts : List Opt), validMode a → Opts pre opts →
      (main pf ext (prog :: a :: s :: (pre ++ lit "-r" :: v :: more))).result = .returned 1 ∧
      (main pf ext (prog :: a :: s :: (pre ++ lit "-r" :: v :: more))).noEntry) ∧
    redrawMethod v ≠ some .REDRAW_UNSPEC := by
  have er : lit "-r" = 45 :: ([] ++ 114 :: []) := by decide
  refine ⟨?_, by decide, by decide, by decide, ?_, ?_⟩
  · intro m hm rest st
    rw [er, parseOptions_cluster_r pf [] [] v rest st m (by simp)
      (by rw [redrawMethod_eq_methodNamed v hv]; exact hm)]
    rfl
  · intro hn ext prog a s pre more opts ha hpre
    have hnm : ¬ isMethod v := by
      intro h
      rcases h with rfl | rfl | rfl <;> exact absurd hn (by decide)
    show (main pf ext (prog :: a :: s :: (pre ++ lit "-r" :: v :: more))).failed
    apply main_of_rest pf ext prog a s _ ha
    intro st1 hst1
    left
    obtain ⟨r, hr⟩ := options_bad_method pf [] [] v more
      { st1 with g := applyOpts pf opts st1.g } (by simp) hv hnm
    exact parseRest_of_options_stop pf _ _ st1 hst1 r
      (by rw [parseOptions_opts pf pre opts hpre, er]; exact hr)
  · rw [redrawMethod_eq_methodNamed v hv]
    unfold methodNamed
    split_ifs <;> simp

theorem C13_redraw_method_witness :
    CStr.WF (lit "winch") ∧
    parseOptions linux (lit "-r" :: lit "winch" :: [lit "vi"]) (St.init linux (lit "dtach")) =
      .go ([lit "vi"], { g := { (St.init linux (lit "dtach")).g with
                                redraw_method := .REDRAW_WINCH },
                         trace := [] }) :=
  ⟨by decide,
    (C13_redraw_method linux (lit "winch") (by decide)).1 .REDRAW_WINCH (by decide)
      [lit "vi"] (St.init linux (lit "dtach"))⟩

/-! ## C14: the default configuration -/

theorem saveTerm_options (pf : Platform) (ext : Extern) (st : St) :
    (saveTerm pf ext st).g.detach_char = st.g.detach_char ∧
    (saveTerm pf ext st).g.no_suspend = st.g.no_suspend ∧
    (saveTerm pf ext st).g.redraw_method = st.g.redraw_method := by
  unfold saveTerm
  cases ext.tcgetattr 0 <;> simp [St.call]

theorem lit_z : lit "-z" = 45 :: [122] := by decide

/-- C14. Default configuration. In a run with a mode argument, a socket name
and no option argument after it (the command, when there is one, does not
begin with `-`), every call of `attach_main` and of
`master_main` finds the detach character `0x1C`, `no_suspend` equal to `0`
and the redraw method `REDRAW_UNSPEC`. And the option loop at `-z`, at `-E`,
at `-e v` and at `-r v` goes on with the one global of that option changed
and every other global as it was. -/
theorem C14_default_configuration (pf : Platform) (ext : Extern) (prog a s : CStr)
    (cmd : List CStr) (hcmd : charAt (cmd.headD []) 0 ≠ 45) :
    (∀ c ∈ (main pf ext (prog :: a :: s :: cmd)).trace, ∀ g, c.seen = some g →
      g.detach_char = 0x1C ∧ g.no_suspend = 0 ∧ g.redraw_method = .REDRAW_UNSPEC) ∧
    (∀ (rest : List CStr) (st : St) (v : CStr),
      parseOptions pf (lit "-z" :: rest) st =
        parseOptions pf rest { st with g := { st.g with no_suspend := 1 } } ∧
      parseOptions pf (lit "-E" :: rest) st =
        parseOptions pf rest { st with g := { st.g with detach_char := -1 } } ∧
      parseOptions pf (lit "-e" :: v :: rest) st =
        parseOptions pf rest { st with g := { st.g with detach_char := escapeChar pf v } } ∧
      (∀ m, redrawMethod v = some m →
        parseOptions pf (lit "-r" :: v :: rest) st =
          parseOptions pf rest { st with g := { st.g with redraw_method := m } })) := by
  refine ⟨?_, ?_⟩
  · intro c hc g hg
    simp only [main] at hc
    cases hp : parseArgs pf ext prog (a :: s :: cmd) with
    | stop r =>
      simp only [hp] at hc
      have hst := startup_not_seen c ((parseArgs_stop pf ext prog _ r hp).1 c hc)
      rw [hst.1] at hg; cases hg
    | go p =>
      simp only [hp] at hc
      obtain ⟨_, _, _, hearly, _, m', s', rest', st1, hargs, _, hr, ho⟩ :=
        parseArgs_go pf ext prog _ p hp
      simp only [List.cons.injEq] at hargs
      obtain ⟨rfl, rfl, rfl⟩ := hargs
      rw [parseOptions_command pf cmd _ hcmd] at ho
      simp only [Stage.go.injEq, Prod.mk.injEq] at ho
      rcases resolveSocket_cases ext (St.init pf prog) s with
        ⟨st1', l, hr', _, _, hsame, _⟩ | ⟨l, hr', _⟩
      · rw [hr] at hr'
        cases hr'
        have hopt := saveTerm_options pf ext p.st
        rw [← ho.2] at hopt
        have hdef : (saveTerm pf ext st1).g.detach_char = 0x1C ∧
            (saveTerm pf ext st1).g.no_suspend = 0 ∧
            (saveTerm pf ext st1).g.redraw_method = .REDRAW_UNSPEC := by
          rw [hopt.1, hopt.2.1, hopt.2.2, hsame.2.1, hsame.2.2.1, hsame.2.2.2.1]
          exact ⟨rfl, rfl, rfl⟩
        rw [ho.2] at hdef
        obtain ⟨l', hl', hcalls⟩ := runMode_calls pf ext p
        rw [hl'] at hc
        simp only [List.mem_append, List.mem_cons] at hc
        rcases hc with hc | rfl | hc
        · have hst := startup_not_seen c (hearly c hc)
          rw [hst.1] at hg; cases hg
        · simp [Call.seen] at hg
        · rcases hcalls c hc with ⟨o, rfl⟩ | ⟨n, rfl⟩ | ⟨n, rfl⟩ | rfl
          · simp [Call.seen] at hg
          · simp only [Call.seen, Option.some.injEq] at hg
            rw [← hg]; exact hdef
          · simp only [Call.seen, Option.some.injEq] at hg
            rw [← hg]; exact hdef
          · simp [Call.seen] at hg
      · rw [hr] at hr'; cases hr'
  · intro rest st v
    have er : lit "-r" = 45 :: ([] ++ 114 :: []) := by decide
    refine ⟨?_, parseOptions_E pf rest st, parseOptions_e pf v rest st, ?_⟩
    · rw [lit_z, parseOptions_cluster_flags pf _ _ _ (by decide)]
      rfl
    · intro m hm
      rw [er, parseOptions_cluster_r pf [] [] v rest st m (by simp) hm]
      rfl

theorem C14_default_configuration_witness :
    charAt ([lit "vi"].headD []) 0 ≠ 45 ∧
    (∀ c ∈ (main linux world [lit "dtach", lit "-c", lit "/tmp/s", lit "vi"]).trace,
      ∀ g, c.seen = some g →
        g.detach_char = 0x1C ∧ g.no_suspend = 0 ∧ g.redraw_method = .REDRAW_UNSPEC) ∧
    ((main linux world [lit "dtach", lit "-c", lit "/tmp/s", lit "vi"]).trace.filterMap
      Call.seen).length = 2 :=
  ⟨by decide,
    (C14_default_configuration linux world (lit "dtach") (lit "-c") (lit "/tmp/s") [lit "vi"]
      (by decide)).1,
    by decide⟩

/-! ## C15: the terminal settings -/

theorem runMode_notty_calls (pf : Platform) (ext : Extern) (p : Parsed)
    (ht : ext.tcgetattr 0 = none) :
    ∃ l, (runMode pf ext p).trace = p.st.trace ++ .tcgetattr 0 :: l ∧
      ∀ c ∈ l, (∃ o, c = .printf o) ∨
        c = .master_main p.command 0 (saveTerm pf ext p.st).g := by
  by_cases hm : p.mode = 110
  · rw [runMode_n pf ext p hm]
    exact ⟨[.master_main p.command 0 (saveTerm pf ext p.st).g], by simp, by simp⟩
  · unfold runMode
    have h1 : (saveTerm pf ext p.st).g.dont_have_tty ≠ 0 := by
      rw [saveTerm_notty pf ext p.st ht]; simp
    simp only [h1, hm, ne_eq, not_false_eq_true, and_self, if_true]
    refine ⟨[.printf (fmt_s (saveTerm pf ext p.st).g.progname ++ lit ": " ++
        lit "Attaching to a session requires a terminal.\n")], ?_, by simp⟩
    simp only [St.ret, St.complain, St.call, saveTerm_trace, List.append_assoc,
      List.singleton_append]

theorem split_after_tcgetattr (tr l pre post : List Call) (c : Call)
    (htr : ∀ x ∈ tr, x.startup = true) (hc : c.isAttach = true ∨ c.isMaster = true)
    (h : tr ++ .tcgetattr 0 :: l = pre ++ c :: post) : Call.tcgetattr 0 ∈ pre := by
  rcases List.append_eq_append_iff.mp h with ⟨a', h1, h2⟩ | ⟨c', h1, h2⟩
  · cases a' with
    | nil =>
      simp only [List.nil_append, List.cons.injEq] at h2
      rw [← h2.1] at hc
      simp [Call.isAttach, Call.isMaster] at hc
    | cons x a' =>
      simp only [List.cons_append, List.cons.injEq] at h2
      rw [h1, h2.1]
      simp
  · cases c' with
    | nil =>
      simp only [List.nil_append, List.cons.injEq] at h2
      rw [h2.1] at hc
      simp [Call.isAttach, Call.isMaster] at hc
    | cons x c' =>
      simp only [List.cons_append, List.cons.injEq] at h2
      have hx : c ∈ tr := by rw [h1, h2.1]; simp
      have := startup_not_seen c (htr c hx)
      rcases hc with hc | hc
      · rw [this.2.1] at hc; cases hc
      · rw [this.2.2.1] at hc; cases hc

/-- C15. The terminal settings handed on. In every run of `main`: a call of
`attach_main` or `master_main` comes after the call `tcgetattr(0, …)`, which
is made at most once; when that call fails, every entry point that is
called is `master_main` with second argument `0` (mode `n`) and finds
`orig_term` all zero, of the size of the termios record, and `dont_have_tty`
equal to `1`; when it succeeds with settings `t`, every entry point called,
the first and any later one, finds `orig_term` equal to `t` and
`dont_have_tty` equal to `0`. -/
theorem C15_terminal_settings (pf : Platform) (ext : Extern) (prog : CStr)
    (args : List CStr) :
    (∀ pre c post, (main pf ext (prog :: args)).trace = pre ++ c :: post →
      (c.isAttach = true ∨ c.isMaster = true) → Call.tcgetattr 0 ∈ pre) ∧
    (main pf ext (prog :: args)).trace.count (.tcgetattr 0) ≤ 1 ∧
    (∀ c ∈ (main pf ext (prog :: args)).trace, ∀ g, c.seen = some g →
      (ext.tcgetattr 0 = none →
        g.orig_term = List.replicate pf.sizeof_termios 0 ∧ g.dont_have_tty = 1 ∧
        ∃ argv, c = .master_main argv 0 g) ∧
      (∀ t, ext.tcgetattr 0 = some t → g.orig_term = t ∧ g.dont_have_tty = 0)) := by
  simp only [main]
  cases hp : parseArgs pf ext prog args with
  | stop r =>
    simp only
    have hst := (parseArgs_stop pf ext prog _ r hp).1
    refine ⟨?_, ?_, ?_⟩
    · intro pre c post h hc
      have hx : c ∈ r.trace := by rw [h]; simp
      have := startup_not_seen c (hst c hx)
      rcases hc with hc | hc
      · rw [this.2.1] at hc; cases hc
      · rw [this.2.2.1] at hc; cases hc
    · have : r.trace.count (.tcgetattr 0) = 0 := by
        rw [List.count_eq_zero]
        intro hmem
        have := hst _ hmem
        simp [Call.startup] at this
      omega
    · intro c hc g hg
      rw [(startup_not_seen c (hst c hc)).1] at hg; cases hg
  | go p =>
    simp only
    obtain ⟨_, htty, _, hearly, _, _⟩ := parseArgs_go pf ext prog args p hp
    obtain ⟨l, hl, hcalls⟩ := runMode_calls pf ext p
    have hentry : ∀ c ∈ (runMode pf ext p).trace, ∀ g, c.seen = some g →
        c ∈ l ∧ g = (saveTerm pf ext p.st).g := by
      intro c hc g hg
      rw [hl] at hc
      simp only [List.mem_append, List.mem_cons] at hc
      rcases hc with hc | rfl | hc
      · rw [(startup_not_seen c (hearly c hc)).1] at hg; cases hg
      · simp [Call.seen] at hg
      · refine ⟨hc, ?_⟩
        rcases hcalls c hc with ⟨o, rfl⟩ | ⟨n, rfl⟩ | ⟨n, rfl⟩ | rfl
        · simp [Call.seen] at hg
        · simp only [Call.seen, Option.some.injEq] at hg; exact hg.symm
        · simp only [Call.seen, Option.some.injEq] at hg; exact hg.symm
        · simp [Call.seen] at hg
    refine ⟨?_, ?_, ?_⟩
    · intro pre c post h hc
      rw [hl] at h
      exact split_after_tcgetattr p.st.trace l pre post c hearly hc h
    · rw [hl, List.count_append, List.count_cons_self]
      have h1 : p.st.trace.count (.tcgetattr 0) = 0 := by
        rw [List.count_eq_zero]
        intro hmem
        have := hearly _ hmem
        simp [Call.startup] at this
      have h2 : l.count (.tcgetattr 0) = 0 := by
        rw [List.count_eq_zero]
        intro hmem
        rcases hcalls _ hmem with ⟨o, h⟩ | ⟨n, h⟩ | ⟨n, h⟩ | h <;> cases h
      omega
    · intro c hc g hg
      obtain ⟨hcl, rfl⟩ := hentry c hc g hg
      refine ⟨fun ht => ?_, fun t ht => ?_⟩
      · refine ⟨by rw [saveTerm_notty pf ext p.st ht], by rw [saveTerm_notty pf ext p.st ht], ?_⟩
        obtain ⟨l', hl', hcalls'⟩ := runMode_notty_calls pf ext p ht
        have : l' = l := by
          rw [hl'] at hl
          simpa using hl
        subst this
        rcases hcalls' c hcl with ⟨o, rfl⟩ | rfl
        · simp [Call.seen] at hg
        · exact ⟨_, rfl⟩
      · rw [saveTerm_tty pf ext p.st t ht]
        exact ⟨rfl, htty⟩

/-! ## C16: the second argument of master_main -/

theorem startup_masterFlag (l : List Call) (h : ∀ c ∈ l, c.startup = true) :
    l.filterMap Call.masterFlag = [] := by
  rw [List.filterMap_eq_nil_iff]
  intro c hc
  have := h c hc
  cases c <;> simp_all [Call.startup, Call.masterFlag]

/-- C16, as amended. The second argument of `master_main` in the two create
modes. In a run whose arguments pass the checks of lines 92 to 257:
in mode `c` with a terminal, `master_main` is called once, with second
argument `1`; in mode `n`, `master_main` is called once, with second
argument `0`. -/
theorem C16_master_second_argument (pf : Platform) (ext : Extern) (prog : CStr)
    (args : List CStr) (p : Parsed) (hp : parseArgs pf ext prog args = .go p) :
    (p.mode = 99 → ∀ t, ext.tcgetattr 0 = some t →
      (main pf ext (prog :: args)).trace.filterMap Call.masterFlag = [1]) ∧
    (p.mode = 110 →
      (main pf ext (prog :: args)).trace.filterMap Call.masterFlag = [0]) := by
  obtain ⟨_, htty, _, hearly, _, _⟩ := parseArgs_go pf ext prog args p hp
  have hf := startup_masterFlag p.st.trace hearly
  rw [main_go pf ext prog args p hp]
  refine ⟨fun hm t ht => ?_, fun hm => ?_⟩
  · rw [runMode_tty pf ext p t htty ht, hm, dispatch_c]
    split_ifs <;> simp [List.filterMap_append, hf, Call.masterFlag]
  · rw [runMode_n pf ext p hm]
    simp [List.filterMap_append, hf, Call.masterFlag]

theorem C16_master_second_argument_witness :
    parseArgs linux staleWorld (lit "dtach") [lit "-c", lit "/tmp/s", lit "vi"]
      = .go (parsedFor 99) ∧
    (main linux staleWorld [lit "dtach", lit "-c", lit "/tmp/s", lit "vi"]).trace.filterMap
      Call.masterFlag = [1] :=
  ⟨rfl,
    (C16_master_second_argument linux staleWorld (lit "dtach")
      [lit "-c", lit "/tmp/s", lit "vi"] (parsedFor 99) rfl).1 rfl _ rfl⟩

/-- C16 as it is stated fails. `dtach -n /tmp/s vi` passes the argument
checks in mode `n`, and `master_main` is called with the command and with
second argument `0`, not a true value. -/
theorem C16_counterexample :
    parseArgs linux staleWorld (lit "dtach") [lit "-n", lit "/tmp/s", lit "vi"]
      = .go (parsedFor 110) ∧
    (main linux staleWorld [lit "dtach", lit "-n", lit "/tmp/s", lit "vi"]).trace.filter
      Call.isMaster =
        [.master_main [lit "vi"] 0
          { (parsedFor 110).st.g with orig_term := List.replicate 60 1 }] ∧
    ¬ ∃ c ∈ (main linux staleWorld [lit "dtach", lit "-n", lit "/tmp/s", lit "vi"]).trace,
      ∃ f, c.masterFlag = some f ∧ f ≠ 0 := by
  refine ⟨rfl, by decide, ?_⟩
  rintro ⟨c, hc, f, hf, hne⟩
  have h : (main linux staleWorld [lit "dtach", lit "-n", lit "/tmp/s", lit "vi"]).trace
      = [.getenv (lit "DTACH"), .tcgetattr 0, .master_main [lit "vi"] 0
          { (parsedFor 110).st.g with orig_term := List.replicate 60 1 }] := by decide
  rw [h] at hc
  simp only [List.mem_cons, List.mem_singleton, List.not_mem_nil, or_false] at hc
  rcases hc with rfl | rfl | rfl
  · simp [Call.masterFlag] at hf
  · simp [Call.masterFlag] at hf
  · simp only [Call.masterFlag, Option.some.injEq] at hf
    exact hne hf.symm

/-! ## C17: selection of the mode -/

theorem main_mode_stop (pf : Platform) (ext : Extern) (prog : CStr) (args : List CStr) (r : Run)
    (h : parseMode pf (St.init pf prog) args = .stop r) : main pf ext (prog :: args) = r := by
  simp only [main, parseArgs, h]

/-- C17, as amended. Selection of the mode. For a first argument `a` that is
a C string, `main` goes past the selection of the mode exactly when `a` is
`-` followed by one of the letters `a`, `A`, `c`, `n`, whatever follows that
letter, and the mode is that letter; in every other case, unless `a` asks
for help or version, and also when there is no first argument, `main`
returns `1` and calls no entry point. -/
theorem C17_mode_selection (pf : Platform) (ext : Extern) (prog a : CStr)
    (rest : List CStr) (ha : CStr.WF a) :
    ((∃ m, parseMode pf (St.init pf prog) (a :: rest) = .go m) ↔ validMode a) ∧
    (validMode a → parseMode pf (St.init pf prog) (a :: rest) = .go (charAt a 1 : Int)) ∧
    (¬ validMode a → ¬ helpRequest a →
      (main pf ext (prog :: a :: rest)).result = .returned 1 ∧
      (main pf ext (prog :: a :: rest)).noEntry) ∧
    ((main pf ext [prog]).result = .returned 1 ∧ (main pf ext [prog]).noEntry) := by
  refine ⟨⟨?_, fun hv => ⟨_, parseMode_valid pf _ a rest hv⟩⟩,
    fun hv => parseMode_valid pf _ a rest hv, ?_, ?_⟩
  · rintro ⟨m, hm⟩
    obtain ⟨hmode, a', rest', hargs, h0, hval⟩ := parseMode_go pf _ _ m hm
    simp only [List.cons.injEq] at hargs
    obtain ⟨rfl, rfl⟩ := hargs
    refine ⟨h0, ?_⟩
    have hlt := charAt_lt a ha 1
    unfold isModeLetter
    rcases hmode with h | h | h | h
    · have := (charVal_eq_ascii pf.char_signed _ 97 hlt (by decide) (by decide)).mp
        (hval ▸ h)
      left; omega
    · have := (charVal_eq_ascii pf.char_signed _ 99 hlt (by decide) (by decide)).mp
        (hval ▸ h)
      right; right; left; omega
    · have := (charVal_eq_ascii pf.char_signed _ 110 hlt (by decide) (by decide)).mp
        (hval ▸ h)
      right; right; right; omega
    · have := (charVal_eq_ascii pf.char_signed _ 65 hlt (by decide) (by decide)).mp
        (hval ▸ h)
      right; left; omega
  · intro hnv hnh
    by_cases h0 : charAt a 0 = 45
    · have hl : ¬ isModeLetter (charAt a 1) := fun h => hnv ⟨h0, h⟩
      obtain ⟨o1, o2, hm⟩ := parseMode_bad pf (St.init pf prog) a rest ha h0 hnh hl
      rw [main_mode_stop pf ext prog _ _ hm]
      exact failed_of_stop _ o1 o2 (by simp [St.init])
    · rw [main_mode_stop pf ext prog _ _
        (parseMode_none pf _ (a :: rest) (Or.inr (by simpa using h0)))]
      exact ⟨rfl, by simp [Run.noEntry, St.ret, St.tryHelp, St.complain, St.call, St.init,
        Call.isAttach, Call.isMaster]⟩
  · rw [main_mode_stop pf ext prog _ _ (parseMode_none pf _ [] (Or.inl rfl))]
    exact ⟨rfl, by simp [Run.noEntry, St.ret, St.tryHelp, St.complain, St.call, St.init,
      Call.isAttach, Call.isMaster]⟩

theorem C17_mode_selection_witness :
    CStr.WF (lit "-x") ∧ ¬ validMode (lit "-x") ∧ ¬ helpRequest (lit "-x") ∧
    (main linux world [lit "dtach", lit "-x", lit "/tmp/s"]).result = .returned 1 ∧
    (main linux world [lit "dtach", lit "-x", lit "/tmp/s"]).noEntry :=
  ⟨by decide, by decide, by decide,
    (C17_mode_selection linux world (lit "dtach") (lit "-x") [lit "/tmp/s"]
      (by decide)).2.2.1 (by decide) (by decide)⟩

/-- C17 as it is stated fails. The first argument `-ac` is none of `-a`,
`-A`, `-c`, `-n` and names two mode letters; it is no request for help or
version; `main` takes it for mode `a`, goes on, calls `attach_main` and
returns its value `0`. Likewise `-cn` is taken for mode `c`. -/
theorem C17_counterexample :
    lit "-ac" ∉ [lit "-a", lit "-A", lit "-c", lit "-n"] ∧ ¬ helpRequest (lit "-ac") ∧
    parseMode linux (St.init linux (lit "dtach")) [lit "-ac", lit "/tmp/s"] = .go 97 ∧
    (main linux world [lit "dtach", lit "-ac", lit "/tmp/s"]).result = .returned 0 ∧
    ¬ (main linux world [lit "dtach", lit "-ac", lit "/tmp/s"]).noEntry ∧
    parseMode linux (St.init linux (lit "dtach")) [lit "-cn", lit "/tmp/s", lit "vi"]
      = .go 99 := by
  refine ⟨by decide, by decide, rfl, by decide, by decide, rfl⟩

/-! ## C18: the command -/

/-- C18, as amended. The command is passed through verbatim. Let the
arguments after the socket name be a list of options, values of `-e` and
`-r` included (grammar `Opts`), followed by an argument `x` that does not
begin with `-` and by any arguments `more`. Then the option loop stops at
`x` and hands over `x :: more`, and every call of `master_main` that `main`
makes is given exactly `x :: more`, whether or not arguments in `more` begin
with `-`. -/
theorem C18_command_verbatim (pf : Platform) (ext : Extern) (prog a s x : CStr)
    (pre more : List CStr) (opts : List Opt)
    (hpre : Opts pre opts) (hx : charAt x 0 ≠ 45) :
    (∀ st, parseOptions pf (pre ++ x :: more) st =
      .go (x :: more, { st with g := applyOpts pf opts st.g })) ∧
    (∀ c ∈ (main pf ext (prog :: a :: s :: (pre ++ x :: more))).trace,
      ∀ argv, c.masterArgv = some argv → argv = x :: more) := by
  have hparse : ∀ st, parseOptions pf (pre ++ x :: more) st =
      .go (x :: more, { st with g := applyOpts pf opts st.g }) := by
    intro st
    rw [parseOptions_opts pf pre opts hpre, parseOptions_command _ _ _ (by simpa using hx)]
  refine ⟨hparse, ?_⟩
  intro c hc argv hargv
  simp only [main] at hc
  cases hp : parseArgs pf ext prog (a :: s :: (pre ++ x :: more)) with
  | stop r =>
    simp only [hp] at hc
    have := (parseArgs_stop pf ext prog _ r hp).1 c hc
    cases c <;> simp_all [Call.startup, Call.masterArgv]
  | go p =>
    simp only [hp] at hc
    obtain ⟨_, _, _, hearly, _, m', s', rest', st1, hargs, _, _, ho⟩ :=
      parseArgs_go pf ext prog _ p hp
    simp only [List.cons.injEq] at hargs
    obtain ⟨rfl, rfl, rfl⟩ := hargs
    rw [hparse] at ho
    simp only [Stage.go.injEq, Prod.mk.injEq] at ho
    obtain ⟨l, hl, hcalls⟩ := runMode_calls pf ext p
    rw [hl] at hc
    simp only [List.mem_append, List.mem_cons] at hc
    rcases hc with hc | rfl | hc
    · have := hearly c hc
      cases c <;> simp_all [Call.startup, Call.masterArgv]
    · simp [Call.masterArgv] at hargv
    · rcases hcalls c hc with ⟨o, rfl⟩ | ⟨n, rfl⟩ | ⟨n, rfl⟩ | rfl
      · simp [Call.masterArgv] at hargv
      · simp [Call.masterArgv] at hargv
      · simp only [Call.masterArgv, Option.some.injEq] at hargv
        rw [← hargv, ← ho.1]
      · simp [Call.masterArgv] at hargv

theorem C18_command_verbatim_witness :
    Opts [lit "-e", lit "q"] [.e (lit "q")] ∧ charAt (lit "vim") 0 ≠ 45 ∧
    (∀ c ∈ (main linux staleWorld [lit "dtach", lit "-c", lit "/tmp/s", lit "-e", lit "q",
        lit "vim", lit "-u", lit "NONE"]).trace,
      ∀ argv, c.masterArgv = some argv → argv = [lit "vim", lit "-u", lit "NONE"]) ∧
    (main linux staleWorld [lit "dtach", lit "-c", lit "/tmp/s", lit "-e", lit "q",
        lit "vim", lit "-u", lit "NONE"]).trace.filterMap Call.masterArgv
      = [[lit "vim", lit "-u", lit "NONE"]] :=
  have h : Opts [lit "-e", lit "q"] [.e (lit "q")] :=
    Opts.e [] [] (lit "q") _ _ (by simp) Opts.done
  ⟨h, by decide,
    (C18_command_verbatim linux staleWorld (lit "dtach") (lit "-c") (lit "/tmp/s") (lit "vim")
      [lit "-e", lit "q"] [lit "-u", lit "NONE"] [.e (lit "q")] h (by decide)).2,
    by decide⟩

/-- C18 as it is stated fails. In `dtach -n /tmp/s -e q vim` the first
argument after the socket name that does not begin with `-` is `q`, the
value of `-e`; the option loop does not stop there, and `master_main` is
given `[vim]`, not `q` followed by the remaining arguments. -/
theorem C18_counterexample :
    validMode (lit "-n") ∧
    fromFirstNonDash [lit "-e", lit "q", lit "vim"] = [lit "q", lit "vim"] ∧
    (main linux staleWorld [lit "dtach", lit "-n", lit "/tmp/s", lit "-e", lit "q",
        lit "vim"]).trace.filterMap Call.masterArgv = [[lit "vim"]] ∧
    [lit "vim"] ≠ fromFirstNonDash [lit "-e", lit "q", lit "vim"] := by
  decide

/-! ## C11: $DTACH where it does not apply -/

theorem scanLetters_unsetEnv (l : List Nat) (g : Globals) :
    scanLetters l g.unsetEnv = (scanLetters l g).unsetEnv := by
  induction l, g using scanLetters.induct with
  | case1 g => rfl
  | case2 ps g ih =>
    rw [scanLetters_E, scanLetters_E, ← ih]; rfl
  | case3 ps g _ ih =>
    rw [scanLetters_z, scanLetters_z, ← ih]; rfl
  | case4 ps g _ _ => simp [scanLetters, Letters.unsetEnv]
  | case5 ps g _ _ _ => simp [scanLetters, Letters.unsetEnv]
  | case6 p ps g h1 h2 h3 h4 => simp [scanLetters, h1, h2, h3, h4, Letters.unsetEnv]

theorem step_finished (pf : Platform) (a : CStr) (rest : List CStr) (st : St) (g : Globals)
    (ha : charAt a 0 = 45) (hs : scanLetters a.tail st.g = .finished g) :
    parseOptions pf (a :: rest) st = parseOptions pf rest { st with g := g } := by
  rw [parseOptions.eq_def]; simp only [ha, if_true, hs]

theorem step_e_last (pf : Platform) (a : CStr) (st : St) (g : Globals)
    (ha : charAt a 0 = 45) (hs : scanLetters a.tail st.g = .at_e g) :
    parseOptions pf [a] st = .stop ((({ st with g := g } : St).complain
      "No escape character specified.\n").tryHelp.ret 1) := by
  rw [parseOptions.eq_def]; simp only [ha, if_true, hs]

theorem step_e_value (pf : Platform) (a v : CStr) (rest : List CStr) (st : St) (g : Globals)
    (ha : charAt a 0 = 45) (hs : scanLetters a.tail st.g = .at_e g) :
    parseOptions pf (a :: v :: rest) st =
      parseOptions pf rest { st with g := { g with detach_char := escapeChar pf v } } := by
  rw [parseOptions.eq_def]; simp only [ha, if_true, hs]

theorem step_r_last (pf : Platform) (a : CStr) (st : St) (g : Globals)
    (ha : charAt a 0 = 45) (hs : scanLetters a.tail st.g = .at_r g) :
    parseOptions pf [a] st = .stop ((({ st with g := g } : St).complain
      "No redraw method specified.\n").tryHelp.ret 1) := by
  rw [parseOptions.eq_def]; simp only [ha, if_true, hs]

theorem step_r_value (pf : Platform) (a v : CStr) (rest : List CStr) (st : St) (g : Globals)
    (m : Redraw) (ha : charAt a 0 = 45) (hs : scanLetters a.tail st.g = .at_r g)
    (hm : redrawMethod v = some m) :
    parseOptions pf (a :: v :: rest) st =
      parseOptions pf rest { st with g := { g with redraw_method := m } } := by
  rw [parseOptions.eq_def]; simp only [ha, if_true, hs, hm]

theorem step_r_invalid (pf : Platform) (a v : CStr) (rest : List CStr) (st : St) (g : Globals)
    (ha : charAt a 0 = 45) (hs : scanLetters a.tail st.g = .at_r g)
    (hm : redrawMethod v = none) :
    parseOptions pf (a :: v :: rest) st = .stop ((({ st with g := g } : St).complain
      "Invalid redraw method specified.\n").tryHelp.ret 1) := by
  rw [parseOptions.eq_def]; simp only [ha, if_true, hs, hm]

theorem step_bad (pf : Platform) (a : CStr) (rest : List CStr) (st : St) (c : Nat)
    (ha : charAt a 0 = 45) (hs : scanLetters a.tail st.g = .bad c) :
    parseOptions pf (a :: rest) st =
      .stop (((st.call (.printf (fmt_s st.g.progname ++ lit ": Invalid option '-"
        ++ [c] ++ lit "'\n"))).tryHelp).ret 1) := by
  rw [parseOptions.eq_def]; simp only [ha, if_true, hs]

theorem step_command (pf : Platform) (a : CStr) (rest : List CStr) (st : St)
    (ha : ¬ charAt a 0 = 45) : parseOptions pf (a :: rest) st = .go (a :: rest, st) := by
  rw [parseOptions.eq_def]; simp only [ha, if_false]

theorem scan_unsetEnv (l : List Nat) (st : St) (x : Letters) (h : scanLetters l st.g = x) :
    scanLetters l st.unsetEnv.g = x.unsetEnv := by
  show scanLetters l st.g.unsetEnv = _
  rw [scanLetters_unsetEnv, h]

theorem parseOptions_unsetEnv (pf : Platform) (args : List CStr) (st : St) :
    parseOptions pf args st.unsetEnv = (parseOptions pf args st).unsetEnvOpts := by
  induction args, st using parseOptions.induct pf with
  | case1 st => simp [parseOptions, Stage.unsetEnvOpts]
  | case2 a st ha g rest hs ih =>
    rw [step_finished pf a rest st g ha hs,
      step_finished pf a rest st.unsetEnv g.unsetEnv ha (scan_unsetEnv _ st _ hs), ← ih]
    rfl
  | case3 a st ha g hs =>
    rw [step_e_last pf a st g ha hs,
      step_e_last pf a st.unsetEnv g.unsetEnv ha (scan_unsetEnv _ st _ hs)]
    simp [Stage.unsetEnvOpts, St.ret, St.tryHelp, St.complain, St.call, St.unsetEnv,
      Run.unsetEnv, Call.unsetEnv, Globals.unsetEnv]
  | case4 a st ha g v rest hs ih =>
    rw [step_e_value pf a v rest st g ha hs,
      step_e_value pf a v rest st.unsetEnv g.unsetEnv ha (scan_unsetEnv _ st _ hs), ← ih]
    rfl
  | case5 a st ha g hs =>
    rw [step_r_last pf a st g ha hs,
      step_r_last pf a st.unsetEnv g.unsetEnv ha (scan_unsetEnv _ st _ hs)]
    simp [Stage.unsetEnvOpts, St.ret, St.tryHelp, St.complain, St.call, St.unsetEnv,
      Run.unsetEnv, Call.unsetEnv, Globals.unsetEnv]
  | case6 a st ha g v rest hs m hm ih =>
    rw [step_r_value pf a v rest st g m ha hs hm,
      step_r_value pf a v rest st.unsetEnv g.unsetEnv m ha (scan_unsetEnv _ st _ hs) hm, ← ih]
    rfl
  | case7 a st ha g v rest hs hm =>
    rw [step_r_invalid pf a v rest st g ha hs hm,
      step_r_invalid pf a v rest st.unsetEnv g.unsetEnv ha (scan_unsetEnv _ st _ hs) hm]
    simp [Stage.unsetEnvOpts, St.ret, St.tryHelp, St.complain, St.call, St.unsetEnv,
      Run.unsetEnv, Call.unsetEnv, Globals.unsetEnv]
  | case8 a rest st ha c hs =>
    rw [step_bad pf a rest st c ha hs,
      step_bad pf a rest st.unsetEnv c ha (scan_unsetEnv _ st _ hs)]
    simp [Stage.unsetEnvOpts, St.ret, St.tryHelp, St.complain, St.call, St.unsetEnv,
      Run.unsetEnv, Call.unsetEnv, Globals.unsetEnv]
  | case9 a rest st ha =>
    rw [step_command pf a rest st ha, step_command pf a rest st.unsetEnv ha]
    rfl

theorem parseRest_unsetEnv (pf : Platform) (mode : Int) (args : List CStr) (st : St) :
    parseRest pf mode args st.unsetEnv =
      match parseRest pf mode args st with
      | .stop r => .stop r.unsetEnv
      | .go p => .go p.unsetEnv := by
  unfold parseRest
  rw [parseOptions_unsetEnv]
  cases parseOptions pf args st with
  | stop r => rfl
  | go res =>
    obtain ⟨cmd, st'⟩ := res
    simp only [Stage.unsetEnvOpts]
    split_ifs
    · simp [St.ret, St.tryHelp, St.complain, St.call, St.unsetEnv, Run.unsetEnv,
        Call.unsetEnv, Globals.unsetEnv]
    · rfl

theorem saveTerm_unsetEnv (pf : Platform) (ext ext0 : Extern) (st : St)
    (h : ext0.tcgetattr 0 = ext.tcgetattr 0) :
    saveTerm pf ext0 st.unsetEnv = (saveTerm pf ext st).unsetEnv := by
  unfold saveTerm
  rw [h]
  cases ext.tcgetattr 0 <;>
    simp [St.call, St.unsetEnv, Call.unsetEnv, Globals.unsetEnv]

theorem dispatch_a (pf : Platform) (ext : Extern) (argv : List CStr) (st : St) :
    dispatch pf ext 97 argv st =
      if argv.length > 0 then (st.complain "Invalid number of arguments.\n").tryHelp.ret 1
      else ⟨st.trace ++ [.attach_main 0 st.g],
        .returned (ext.attach_main (st.trace ++ [.attach_main 0 st.g]))⟩ := by
  unfold dispatch
  simp [attach_main, St.call, St.ret]

theorem dispatch_unknown (pf : Platform) (ext : Extern) (mode : Int) (argv : List CStr)
    (st : St) (h1 : mode ≠ 97) (h2 : mode ≠ 110) (h3 : mode ≠ 99) (h4 : mode ≠ 65) :
    dispatch pf ext mode argv st = st.ret 0 := by
  unfold dispatch
  simp [h1, h2, h3, h4]

theorem dispatch_unsetEnv (pf : Platform) (ext ext0 : Extern) (mode : Int)
    (argv : List CStr) (st : St) (h : unsetWorld ext ext0) :
    dispatch pf ext0 mode argv st.unsetEnv = (dispatch pf ext mode argv st).unsetEnv := by
  obtain ⟨_, _, ha, hm, he⟩ := h
  have eA : ∀ cs : List Call, ext0.attach_main (st.unsetEnv.trace ++ cs.map Call.unsetEnv)
      = ext.attach_main (st.trace ++ cs) := by
    intro cs; rw [ha, List.map_append]; rfl
  have eM : ∀ cs : List Call, ext0.master_main (st.unsetEnv.trace ++ cs.map Call.unsetEnv)
      = ext.master_main (st.trace ++ cs) := by
    intro cs; rw [hm, List.map_append]; rfl
  have eE : ∀ cs : List Call, ext0.errno (st.unsetEnv.trace ++ cs.map Call.unsetEnv)
      = ext.errno (st.trace ++ cs) := by
    intro cs; rw [he, List.map_append]; rfl
  by_cases h1 : mode = 97
  · subst h1
    rw [dispatch_a, dispatch_a]
    have e1 := eA [.attach_main 0 st.g]
    split_ifs
    · simp [St.ret, St.tryHelp, St.complain, St.call, St.unsetEnv, Run.unsetEnv,
        Call.unsetEnv, Globals.unsetEnv]
    · simp only [St.unsetEnv, Globals.unsetEnv, List.map_cons, List.map_nil,
        Call.unsetEnv] at e1 ⊢
      rw [e1]
      simp [Run.unsetEnv, Call.unsetEnv, Globals.unsetEnv]
  by_cases h2 : mode = 110
  · subst h2
    rw [dispatch_n, dispatch_n]
    have e1 := eM [.master_main argv 0 st.g]
    simp only [St.unsetEnv, Globals.unsetEnv, List.map_cons, List.map_nil,
      Call.unsetEnv] at e1 ⊢
    rw [e1]
    simp [Run.unsetEnv, Call.unsetEnv, Globals.unsetEnv]
  by_cases h3 : mode = 99
  · subst h3
    rw [dispatch_c, dispatch_c]
    have e1 := eM [.master_main argv 1 st.g]
    have e2 := eA [.master_main argv 1 st.g, .attach_main 0 st.g]
    simp only [St.unsetEnv, Globals.unsetEnv, List.map_cons, List.map_nil,
      Call.unsetEnv] at e1 e2 ⊢
    rw [e1, e2]
    split_ifs <;> simp [Run.unsetEnv, Call.unsetEnv, Globals.unsetEnv]
  by_cases h4 : mode = 65
  · subst h4
    have a1 := eA [.attach_main 1 st.g]
    have r1 := eE [.attach_main 1 st.g]
    have a1' : ext0.attach_main (st.unsetEnv.trace ++ [.attach_main 1 st.unsetEnv.g])
        = ext.attach_main (st.trace ++ [.attach_main 1 st.g]) := a1
    have r1' : ext0.errno (st.unsetEnv.trace ++ [.attach_main 1 st.unsetEnv.g])
        = ext.errno (st.trace ++ [.attach_main 1 st.g]) := r1
    by_cases hat : ext.attach_main (st.trace ++ [.attach_main 1 st.g]) = 0
    · rw [dispatch_A_attached pf ext argv st hat,
        dispatch_A_attached pf ext0 argv st.unsetEnv (by rw [a1']; exact hat)]
      simp [Run.unsetEnv, St.unsetEnv, Call.unsetEnv, Globals.unsetEnv]
    · have hat0 : ext0.attach_main (st.unsetEnv.trace ++ [.attach_main 1 st.unsetEnv.g]) ≠ 0 := by
        rw [a1']; exact hat
      by_cases hr : ext.errno (st.trace ++ [.attach_main 1 st.g]) = pf.ECONNREFUSED
      · have hr0 : ext0.errno (st.unsetEnv.trace ++ [.attach_main 1 st.unsetEnv.g])
            = pf.ECONNREFUSED := by rw [r1']; exact hr
        rw [dispatch_A_refused pf ext argv st hat hr,
          dispatch_A_refused pf ext0 argv st.unsetEnv hat0 hr0]
        have e1 := eM [.attach_main 1 st.g, .unlink st.g.sockname, .master_main argv 1 st.g]
        have e2 := eA [.attach_main 1 st.g, .unlink st.g.sockname, .master_main argv 1 st.g,
          .attach_main 0 st.g]
        simp only [St.unsetEnv, Globals.unsetEnv, List.map_cons, List.map_nil,
          Call.unsetEnv] at e1 e2 ⊢
        rw [e1, e2]
        split_ifs <;> simp [Run.unsetEnv, Call.unsetEnv, Globals.unsetEnv]
      · have hr0 : ext0.errno (st.unsetEnv.trace ++ [.attach_main 1 st.unsetEnv.g])
            ≠ pf.ECONNREFUSED := by rw [r1']; exact hr
        by_cases hn : ext.errno (st.trace ++ [.attach_main 1 st.g]) = pf.ENOENT
        · have hn0 : ext0.errno (st.unsetEnv.trace ++ [.attach_main 1 st.unsetEnv.g])
              = pf.ENOENT := by rw [r1']; exact hn
          rw [dispatch_A_missing pf ext argv st hat hr hn,
            dispatch_A_missing pf ext0 argv st.unsetEnv hat0 hr0 hn0]
          have e1 := eM [.attach_main 1 st.g, .master_main argv 1 st.g]
          have e2 := eA [.attach_main 1 st.g, .master_main argv 1 st.g, .attach_main 0 st.g]
          simp only [St.unsetEnv, Globals.unsetEnv, List.map_cons, List.map_nil,
            Call.unsetEnv] at e1 e2 ⊢
          rw [e1, e2]
          split_ifs <;> simp [Run.unsetEnv, Call.unsetEnv, Globals.unsetEnv]
        · have hn0 : ext0.errno (st.unsetEnv.trace ++ [.attach_main 1 st.unsetEnv.g])
              ≠ pf.ENOENT := by rw [r1']; exact hn
          rw [dispatch_A_other pf ext argv st hat (by simp [hr, hn]),
            dispatch_A_other pf ext0 argv st.unsetEnv hat0 (by simp [hr0, hn0])]
          have e2 := eA [.attach_main 1 st.g, .attach_main 0 st.g]
          simp only [St.unsetEnv, Globals.unsetEnv, List.map_cons, List.map_nil,
            Call.unsetEnv] at e2 ⊢
          rw [e2]
          simp [Run.unsetEnv, Call.unsetEnv, Globals.unsetEnv]
  · rw [dispatch_unknown pf ext mode argv st h1 h2 h3 h4,
      dispatch_unknown pf ext0 mode argv st.unsetEnv h1 h2 h3 h4]
    rfl

theorem runMode_unsetEnv (pf : Platform) (ext ext0 : Extern) (p : Parsed)
    (h : unsetWorld ext ext0) :
    runMode pf ext0 p.unsetEnv = (runMode pf ext p).unsetEnv := by
  unfold runMode
  simp only [Parsed.unsetEnv, saveTerm_unsetEnv pf ext ext0 p.st h.2.1]
  have hg : (saveTerm pf ext p.st).unsetEnv.g.dont_have_tty
      = (saveTerm pf ext p.st).g.dont_have_tty := rfl
  rw [hg]
  split_ifs
  · simp [St.ret, St.complain, St.call, St.unsetEnv, Run.unsetEnv, Call.unsetEnv,
      Globals.unsetEnv]
  · exact dispatch_unsetEnv pf ext ext0 p.mode p.command _ h

theorem startup_unsetEnv (l : List Call) (h : ∀ c ∈ l, c.startup = true) :
    l.map Call.unsetEnv = l := by
  induction l with
  | nil => rfl
  | cons c l ih =>
    have hc := h c (List.mem_cons_self _ _)
    rw [List.map_cons, ih (fun x hx => h x (List.mem_cons_of_mem _ hx))]
    cases c <;> simp_all [Call.startup, Call.unsetEnv]

theorem resolved_unsetEnv (pf : Platform) (prog s : CStr) (e : Option CStr) :
    St.unsetEnv
      { g := { (St.init pf prog).g with sockname := some s, dtach_env := e }
        trace := (St.init pf prog).trace ++ [.getenv (lit "DTACH")] } =
      { g := { (St.init pf prog).g with sockname := some s, dtach_env := none }
        trace := (St.init pf prog).trace ++ [.getenv (lit "DTACH")] } := by
  simp [St.unsetEnv, Globals.unsetEnv, St.init, Call.unsetEnv]

/-- C11. `$DTACH` is ignored when it does not apply. Let the socket name `s`
begin with `/`, begin with `./` or contain `..`. Whatever `$DTACH` is and
whatever `stat` and `mkdir` would answer: lines 138 to 177 go on with
`sockname` equal to `s` after the one call `getenv`; no run of `main` with
that socket name calls `stat` or `mkdir`; and the run is the run of `main`
in the world with `$DTACH` unset, call for call and with the same end, the
only difference being the value of the variable `dtach_env` that the entry
points find. -/
theorem C11_dtach_ignored (pf : Platform) (ext : Extern) (prog m s : CStr)
    (rest : List CStr) (hs : ¬ dtachApplies s) :
    (∀ st, resolveSocket ext st s = .go
      { g := { st.g with sockname := some s, dtach_env := ext.getenv (lit "DTACH") }
        trace := st.trace ++ [.getenv (lit "DTACH")] }) ∧
    (main pf ext (prog :: m :: s :: rest)).trace.filter Call.isStat = [] ∧
    (main pf ext (prog :: m :: s :: rest)).trace.filter Call.isMkdir = [] ∧
    (∀ ext0, unsetWorld ext ext0 →
      main pf ext0 (prog :: m :: s :: rest) = (main pf ext (prog :: m :: s :: rest)).unsetEnv) := by
  have hres : ∀ st, resolveSocket ext st s = .go
      { g := { st.g with sockname := some s, dtach_env := ext.getenv (lit "DTACH") }
        trace := st.trace ++ [.getenv (lit "DTACH")] } := by
    intro st
    cases hg : ext.getenv (lit "DTACH") with
    | none => exact resolveSocket_unset ext st s hg
    | some d => exact resolveSocket_skip ext st s d hg hs
  have hcalls : ∀ c ∈ (main pf ext (prog :: m :: s :: rest)).trace,
      c.isStat = false ∧ c.isMkdir = false := by
    cases hm : parseMode pf (St.init pf prog) (m :: s :: rest) with
    | stop r =>
      rw [main_mode_stop pf ext prog _ r hm]
      obtain ⟨_, l, hl, hq⟩ := parseMode_stop pf _ _ r hm
      intro c hc
      rw [hl] at hc
      simp only [St.init, List.nil_append] at hc
      have := hq c hc
      cases c <;> simp_all [Call.quiet, Call.isStat, Call.isMkdir]
    | go mode =>
      obtain ⟨l, hl, hlate⟩ := main_after_socket pf ext prog m s rest mode _ hm (hres _)
      intro c hc
      rw [hl] at hc
      simp only [St.init, List.nil_append, List.singleton_append, List.mem_cons] at hc
      rcases hc with rfl | hc
      · exact ⟨rfl, rfl⟩
      · have := hlate c hc
        cases c <;> simp_all [Call.late, Call.isStat, Call.isMkdir]
  refine ⟨hres, ?_, ?_, ?_⟩
  · rw [List.filter_eq_nil_iff]
    intro c hc
    simp [(hcalls c hc).1]
  · rw [List.filter_eq_nil_iff]
    intro c hc
    simp [(hcalls c hc).2]
  · intro ext0 h0
    cases hm : parseMode pf (St.init pf prog) (m :: s :: rest) with
    | stop r =>
      rw [main_mode_stop pf ext prog _ r hm, main_mode_stop pf ext0 prog _ r hm]
      obtain ⟨_, l, hl, hq⟩ := parseMode_stop pf _ _ r hm
      have : r.trace.map Call.unsetEnv = r.trace := by
        apply startup_unsetEnv
        rw [hl]
        intro c hc
        simp only [St.init, List.nil_append] at hc
        have := hq c hc
        cases c <;> simp_all [Call.quiet, Call.startup]
      simp [Run.unsetEnv, this]
    | go mode =>
      have hpa := parseArgs_socket pf ext prog m s rest mode hm
      have hpa0 := parseArgs_socket pf ext0 prog m s rest mode hm
      rw [hres] at hpa
      rw [resolveSocket_unset ext0 _ s h0.1] at hpa0
      simp only at hpa hpa0
      have hst := resolved_unsetEnv pf prog s (ext.getenv (lit "DTACH"))
      rw [← hst, parseRest_unsetEnv] at hpa0
      simp only [main, hpa, hpa0]
      cases parseRest pf mode rest _ with
      | stop r => rfl
      | go p => exact runMode_unsetEnv pf ext ext0 p h0

theorem C11_dtach_ignored_witness :
    ¬ dtachApplies (lit "./s") ∧ unsetWorld world worldUnset ∧
    (main linux world [lit "dtach", lit "-c", lit "./s", lit "vi"]).trace.filter Call.isStat
      = [] ∧
    main linux worldUnset [lit "dtach", lit "-c", lit "./s", lit "vi"] =
      (main linux world [lit "dtach", lit "-c", lit "./s", lit "vi"]).unsetEnv ∧
    ((main linux world [lit "dtach", lit "-c", lit "./s", lit "vi"]).trace.filterMap
      Call.seen).map Globals.sockname = [some (lit "./s"), some (lit "./s")] :=
  have hw : unsetWorld world worldUnset :=
    ⟨rfl, rfl, fun _ => rfl, fun _ => rfl, fun _ => rfl⟩
  ⟨by decide, hw,
    (C11_dtach_ignored linux world (lit "dtach") (lit "-c") (lit "./s") [lit "vi"]
      (by decide)).2.1,
    (C11_dtach_ignored linux world (lit "dtach") (lit "-c") (lit "./s") [lit "vi"]
      (by decide)).2.2.2 worldUnset hw,
    by decide⟩

/-! ## Standard output and standard error of a run -/

theorem complain_shape (st : St) (prog : CStr) (msg : String) (m : List Nat)
    (hp : st.g.progname = some prog) (h : lit msg = m ++ lit "\n") :
    (st.complain msg).tryHelp.ret 1 = ⟨st.trace ++ usageLines prog m, .returned 1⟩ := by
  simp [St.ret, St.tryHelp, St.complain, St.call, hp, fmt_s, h, usageLines]

theorem bad_option_shape (st : St) (prog : CStr) (c : Nat) (hp : st.g.progname = some prog) :
    ((st.call (.printf (fmt_s st.g.progname ++ lit ": Invalid option '-"
        ++ [c] ++ lit "'\n"))).tryHelp).ret 1 =
      ⟨st.trace ++ usageLines prog (lit "Invalid option '-" ++ [c] ++ lit "'"), .returned 1⟩ := by
  have e1 : lit ": Invalid option '-" = lit ": " ++ lit "Invalid option '-" := by decide
  have e2 : lit "'\n" = lit "'" ++ lit "\n" := by decide
  simp [St.ret, St.tryHelp, St.call, hp, fmt_s, usageLines, e1, e2]

theorem bad_mode_shape (st : St) (prog : CStr) (c : Nat) (hp : st.g.progname = some prog) :
    ((st.call (.printf (fmt_s st.g.progname ++ lit ": Invalid mode '-"
        ++ [c] ++ lit "'\n"))).tryHelp).ret 1 =
      ⟨st.trace ++ usageLines prog (lit "Invalid mode '-" ++ [c] ++ lit "'"), .returned 1⟩ := by
  have e1 : lit ": Invalid mode '-" = lit ": " ++ lit "Invalid mode '-" := by decide
  have e2 : lit "'\n" = lit "'" ++ lit "\n" := by decide
  simp [St.ret, St.tryHelp, St.call, hp, fmt_s, usageLines, e1, e2]

theorem silent_out (tr : List Call) (h : ∀ c ∈ tr, c.silent = true) :
    tr.filterMap Call.printed = [] ∧ tr.filter Call.isPerror = [] := by
  induction tr with
  | nil => simp
  | cons c tr ih =>
    have hc := h c (List.mem_cons_self _ _)
    have ht := ih (fun c' hc' => h c' (List.mem_cons_of_mem _ hc'))
    cases c <;> simp_all [Call.silent, Call.printed, Call.isPerror]

theorem out_append (tr l : List Call) (res : Outcome) (h : ∀ c ∈ tr, c.silent = true) :
    (Run.mk (tr ++ l) res).stdout = (l.filterMap Call.printed).flatten ∧
      (Run.mk (tr ++ l) res).stderr = l.filter Call.isPerror := by
  obtain ⟨h1, h2⟩ := silent_out tr h
  simp [Run.stdout, Run.stderr, List.filterMap_append, List.filter_append, h1, h2]

/-! ## C19: option clusters, on the option loop and on main -/

/-- What the entry points find of the three option settings, when the option
loop turns the globals `g` into `f g` and hands over the command: the
settings of `f g0` for globals `g0` with the initial settings. -/
theorem main_seen_loop (pf : Platform) (ext : Extern) (prog a s : CStr)
    (rest cmd : List CStr) (f : Globals → Globals)
    (hloop : ∀ st : St, parseOptions pf rest st = .go (cmd, { st with g := f st.g })) :
    ∀ c ∈ (main pf ext (prog :: a :: s :: rest)).trace, ∀ g, c.seen = some g →
      ∃ g0 : Globals, g0.detach_char = 0x1C ∧ g0.no_suspend = 0 ∧
        g0.redraw_method = .REDRAW_UNSPEC ∧ g.detach_char = (f g0).detach_char ∧
        g.no_suspend = (f g0).no_suspend ∧ g.redraw_method = (f g0).redraw_method := by
  intro c hc g hg
  simp only [main] at hc
  cases hp : parseArgs pf ext prog (a :: s :: rest) with
  | stop r =>
    simp only [hp] at hc
    have hst := startup_not_seen c ((parseArgs_stop pf ext prog _ r hp).1 c hc)
    rw [hst.1] at hg; cases hg
  | go p =>
    simp only [hp] at hc
    obtain ⟨_, _, _, hearly, _, m', s', rest', st1, hargs, _, hr, ho⟩ :=
      parseArgs_go pf ext prog _ p hp
    simp only [List.cons.injEq] at hargs
    obtain ⟨rfl, rfl, rfl⟩ := hargs
    rw [hloop st1] at ho
    simp only [Stage.go.injEq, Prod.mk.injEq] at ho
    rcases resolveSocket_cases ext (St.init pf prog) s with
      ⟨st1', l, hr', _, _, hsame, _⟩ | ⟨l, hr', _⟩
    · rw [hr] at hr'
      cases hr'
      have hopt := saveTerm_options pf ext p.st
      rw [← ho.2] at hopt
      have hdef : ∃ g0 : Globals, g0.detach_char = 0x1C ∧ g0.no_suspend = 0 ∧
          g0.redraw_method = .REDRAW_UNSPEC ∧
          (saveTerm pf ext p.st).g.detach_char = (f g0).detach_char ∧
          (saveTerm pf ext p.st).g.no_suspend = (f g0).no_suspend ∧
          (saveTerm pf ext p.st).g.redraw_method = (f g0).redraw_method := by
        refine ⟨st1.g, ?_, ?_, ?_, ?_, ?_, ?_⟩
        · rw [hsame.2.1]; rfl
        · rw [hsame.2.2.1]; rfl
        · rw [hsame.2.2.2.1]; rfl
        · rw [← ho.2]; exact hopt.1
        · rw [← ho.2]; exact hopt.2.1
        · rw [← ho.2]; exact hopt.2.2
      obtain ⟨l', hl', hcalls⟩ := runMode_calls pf ext p
      rw [hl'] at hc
      simp only [List.mem_append, List.mem_cons] at hc
      rcases hc with hc | rfl | hc
      · have hst := startup_not_seen c (hearly c hc)
        rw [hst.1] at hg; cases hg
      · simp [Call.seen] at hg
      · rcases hcalls c hc with ⟨o, rfl⟩ | ⟨n, rfl⟩ | ⟨n, rfl⟩ | rfl
        · simp [Call.seen] at hg
        · simp only [Call.seen, Option.some.injEq] at hg
          rw [← hg]; exact hdef
        · simp only [Call.seen, Option.some.injEq] at hg
          rw [← hg]; exact hdef
        · simp [Call.seen] at hg
    · rw [hr] at hr'; cases hr'

/-- Two lists of arguments that the option loop treats alike give the same
run. -/
theorem main_congr_options (pf : Platform) (ext : Extern) (prog a s : CStr)
    (rest rest' : List CStr)
    (h : ∀ st : St, parseOptions pf rest st = parseOptions pf rest' st) :
    main pf ext (prog :: a :: s :: rest) = main pf ext (prog :: a :: s :: rest') := by
  have e : parseArgs pf ext prog (a :: s :: rest) = parseArgs pf ext prog (a :: s :: rest') := by
    simp only [parseArgs, parseMode, List.tail_cons, parseRest, h]
  simp only [main, e]

/-- C19. Option clusters, on the option loop and on `main`. Let `cmd` be a
command, which does not begin with `-` (or nothing). The option loop, from
any state: at `-Ez` it hands over `cmd` with the detach character `-1` and
`no_suspend` equal to `1`; at `-ez v`, as at `-e v`, it hands over `cmd`
with the detach character that lines 201 to 209 make of `v` and every other
global, `no_suspend` among them, as it was, so the `z` is neither applied
nor reported; at `-ze v` it hands over `cmd` with `no_suspend` equal to `1`
and that detach character; and in general the letters `junk` that follow an
`e` or `r` which comes after letters `E` and `z` only leave no trace in the
result. In a run of `main` every call of `attach_main` and of `master_main`
finds these settings: `-1` and `1` after `-Ez`; the character of `v` and `0`
after `-ez v`; the character of `v` and `1` after `-ze v`. The runs with
`-ez v` and with `-e v` are the same run. -/
theorem C19_option_clusters (pf : Platform) (ext : Extern) (prog a s v : CStr)
    (cmd : List CStr) (hcmd : charAt (cmd.headD []) 0 ≠ 45) :
    (∀ st : St,
      parseOptions pf (lit "-Ez" :: cmd) st =
        .go (cmd, { st with g := { st.g with detach_char := -1, no_suspend := 1 } }) ∧
      parseOptions pf (lit "-ez" :: v :: cmd) st =
        .go (cmd, { st with g := { st.g with detach_char := escapeChar pf v } }) ∧
      parseOptions pf (lit "-e" :: v :: cmd) st =
        .go (cmd, { st with g := { st.g with detach_char := escapeChar pf v } }) ∧
      parseOptions pf (lit "-ze" :: v :: cmd) st =
        .go (cmd, { st with g := { st.g with
          detach_char := escapeChar pf v, no_suspend := 1 } }) ∧
      (∀ l junk : List Nat, (∀ c ∈ l, isFlag c) →
        parseOptions pf ((45 :: (l ++ 101 :: junk)) :: v :: cmd) st =
          .go (cmd, { st with g := { applyOpts pf (l.map flagOpt) st.g with
            detach_char := escapeChar pf v } }) ∧
        ∀ m, redrawMethod v = some m →
          parseOptions pf ((45 :: (l ++ 114 :: junk)) :: v :: cmd) st =
            .go (cmd, { st with g := { applyOpts pf (l.map flagOpt) st.g with
              redraw_method := m } }))) ∧
    (∀ c ∈ (main pf ext (prog :: a :: s :: lit "-Ez" :: cmd)).trace, ∀ g, c.seen = some g →
      g.detach_char = -1 ∧ g.no_suspend = 1 ∧ g.redraw_method = .REDRAW_UNSPEC) ∧
    (∀ c ∈ (main pf ext (prog :: a :: s :: lit "-ez" :: v :: cmd)).trace, ∀ g,
      c.seen = some g →
      g.detach_char = escapeChar pf v ∧ g.no_suspend = 0 ∧
        g.redraw_method = .REDRAW_UNSPEC) ∧
    (∀ c ∈ (main pf ext (prog :: a :: s :: lit "-ze" :: v :: cmd)).trace, ∀ g,
      c.seen = some g →
      g.detach_char = escapeChar pf v ∧ g.no_suspend = 1 ∧
        g.redraw_method = .REDRAW_UNSPEC) ∧
    main pf ext (prog :: a :: s :: lit "-ez" :: v :: cmd) =
      main pf ext (prog :: a :: s :: lit "-e" :: v :: cmd) := by
  have e1 : lit "-Ez" = 45 :: [69, 122] := by decide
  have e2 : lit "-ez" = 45 :: ([] ++ 101 :: [122]) := by decide
  have e3 : lit "-e" = 45 :: ([] ++ 101 :: []) := by decide
  have e4 : lit "-ze" = 45 :: ([122] ++ 101 :: []) := by decide
  have hEz : ∀ st : St, parseOptions pf (lit "-Ez" :: cmd) st =
      .go (cmd, { st with g := { st.g with detach_char := -1, no_suspend := 1 } }) := by
    intro st
    rw [e1, parseOptions_cluster_flags pf _ _ _ (by decide), parseOptions_command pf cmd _ hcmd]
    rfl
  have hez : ∀ st : St, parseOptions pf (lit "-ez" :: v :: cmd) st =
      .go (cmd, { st with g := { st.g with detach_char := escapeChar pf v } }) := by
    intro st
    rw [e2, parseOptions_cluster_e pf [] _ _ _ _ (by simp), parseOptions_command pf cmd _ hcmd]
    rfl
  have he : ∀ st : St, parseOptions pf (lit "-e" :: v :: cmd) st =
      .go (cmd, { st with g := { st.g with detach_char := escapeChar pf v } }) := by
    intro st
    rw [e3, parseOptions_cluster_e pf [] _ _ _ _ (by simp), parseOptions_command pf cmd _ hcmd]
    rfl
  have hze : ∀ st : St, parseOptions pf (lit "-ze" :: v :: cmd) st =
      .go (cmd, { st with g := { st.g with
        detach_char := escapeChar pf v, no_suspend := 1 } }) := by
    intro st
    rw [e4, parseOptions_cluster_e pf [122] _ _ _ _ (by decide),
      parseOptions_command pf cmd _ hcmd]
    rfl
  refine ⟨fun st => ⟨hEz st, hez st, he st, hze st, ?_⟩, ?_, ?_, ?_, ?_⟩
  · intro l junk hl
    refine ⟨?_, ?_⟩
    · rw [parseOptions_cluster_e pf l junk _ _ _ hl, parseOptions_command pf cmd _ hcmd]
    · intro m hm
      rw [parseOptions_cluster_r pf l junk _ _ _ m hl hm, parseOptions_command pf cmd _ hcmd]
  · intro c hc g hg
    obtain ⟨g0, h1, h2, h3, h4, h5, h6⟩ := main_seen_loop pf ext prog a s _ cmd
      (fun g => { g with detach_char := -1, no_suspend := 1 }) hEz c hc g hg
    exact ⟨h4, h5, by rw [h6]; exact h3⟩
  · intro c hc g hg
    obtain ⟨g0, h1, h2, h3, h4, h5, h6⟩ := main_seen_loop pf ext prog a s _ cmd
      (fun g => { g with detach_char := escapeChar pf v }) hez c hc g hg
    exact ⟨h4, by rw [h5]; exact h2, by rw [h6]; exact h3⟩
  · intro c hc g hg
    obtain ⟨g0, h1, h2, h3, h4, h5, h6⟩ := main_seen_loop pf ext prog a s _ cmd
      (fun g => { g with detach_char := escapeChar pf v, no_suspend := 1 }) hze c hc g hg
    exact ⟨h4, h5, by rw [h6]; exact h3⟩
  · exact main_congr_options pf ext prog a s _ _ (fun st => by rw [hez st, he st])

/-- The theorem of C19 at `dtach -c /tmp/s … vi` with the value `^C`: the
two entry points that are called, `master_main` and `attach_main`, find the
detach character `-1` and `no_suspend` `1` after `-Ez`, `3` and `0` after
`-ez ^C`, `3` and `1` after `-ze ^C`. -/
theorem C19_option_clusters_witness :
    charAt ([lit "vi"].headD []) 0 ≠ 45 ∧
    parseOptions linux [lit "-ez", lit "^C", lit "vi"] (St.init linux (lit "dtach")) =
      .go ([lit "vi"], { St.init linux (lit "dtach") with
        g := { (St.init linux (lit "dtach")).g with
          detach_char := escapeChar linux (lit "^C") } }) ∧
    escapeChar linux (lit "^C") = 3 ∧
    (∀ c ∈ (main linux world [lit "dtach", lit "-c", lit "/tmp/s", lit "-ze", lit "^C",
        lit "vi"]).trace, ∀ g, c.seen = some g →
      g.detach_char = escapeChar linux (lit "^C") ∧ g.no_suspend = 1 ∧
        g.redraw_method = .REDRAW_UNSPEC) ∧
    ((main linux world [lit "dtach", lit "-c", lit "/tmp/s", lit "-Ez", lit "vi"]).trace.filterMap
      Call.seen).map (fun g => (g.detach_char, g.no_suspend)) = [(-1, 1), (-1, 1)] ∧
    ((main linux world [lit "dtach", lit "-c", lit "/tmp/s", lit "-ez", lit "^C",
        lit "vi"]).trace.filterMap Call.seen).map (fun g => (g.detach_char, g.no_suspend))
      = [(3, 0), (3, 0)] ∧
    ((main linux world [lit "dtach", lit "-c", lit "/tmp/s", lit "-ze", lit "^C",
        lit "vi"]).trace.filterMap Call.seen).map (fun g => (g.detach_char, g.no_suspend))
      = [(3, 1), (3, 1)] :=
  have h := C19_option_clusters linux world (lit "dtach") (lit "-c") (lit "/tmp/s") (lit "^C")
    [lit "vi"] (by decide)
  ⟨by decide, (h.1 (St.init linux (lit "dtach"))).2.1, by decide, h.2.2.2.1,
    by decide, by decide, by decide⟩

/-! ## C12: each startup error and its diagnostic -/

theorem silent_noEntry (tr l : List Call) (res : Outcome)
    (h1 : ∀ c ∈ tr, c.silent = true)
    (h2 : ∀ c ∈ l, c.isAttach = false ∧ c.isMaster = false) :
    (Run.mk (tr ++ l) res).noEntry := by
  intro c hc
  simp only [List.mem_append] at hc
  rcases hc with hc | hc
  · have := h1 c hc
    cases c <;> simp_all [Call.silent, Call.isAttach, Call.isMaster]
  · exact h2 c hc

/-- A run that ends with the two lines of a usage error after calls that
write nothing reports that error. -/
theorem reports_usage (prog : CStr) (k : StartupError) (tr : List Call)
    (hk : k.further prog = lit "Try '" ++ prog ++ lit " --help' for more information.\n")
    (h : ∀ c ∈ tr, c.silent = true) :
    (Run.mk (tr ++ usageLines prog k.message) (.returned 1)).reports prog k := by
  obtain ⟨h1, h2⟩ := out_append tr (usageLines prog k.message) (.returned 1) h
  refine ⟨rfl, silent_noEntry _ _ _ h (by simp [usageLines, Call.isAttach, Call.isMaster]),
    ?_, ?_⟩
  · rw [h1, StartupError.text, hk]; simp [usageLines, Call.printed]
  · rw [h2]; simp [usageLines, Call.isPerror]

theorem applyOpts_same (pf : Platform) (opts : List Opt) (g : Globals) :
    (applyOpts pf opts g).progname = g.progname ∧
      (applyOpts pf opts g).dont_have_tty = g.dont_have_tty := by
  induction opts generalizing g with
  | nil => exact ⟨rfl, rfl⟩
  | cons o opts ih =>
    show (applyOpts pf opts (o.apply pf g)).progname = _ ∧
      (applyOpts pf opts (o.apply pf g)).dont_have_tty = _
    rw [(ih _).1, (ih _).2]
    cases o with
    | E => exact ⟨rfl, rfl⟩
    | z => exact ⟨rfl, rfl⟩
    | e v => exact ⟨rfl, rfl⟩
    | r v =>
      simp only [Opt.apply]
      cases redrawMethod v <;> exact ⟨rfl, rfl⟩

theorem parseMode_bad_exact (pf : Platform) (st : St) (prog a : CStr) (rest : List CStr)
    (hp : st.g.progname = some prog)
    (hwf : CStr.WF a) (h0 : charAt a 0 = 45) (hh : ¬ helpRequest a)
    (hl : ¬ isModeLetter (charAt a 1)) :
    parseMode pf st (a :: rest) = .stop ⟨st.trace ++
      usageLines prog (lit "Invalid mode '-" ++ [charAt a 1] ++ lit "'"), .returned 1⟩ := by
  have hnz : ∀ x ∈ a, x ≠ 0 := fun x hx => by have := (hwf x hx).1; omega
  have e1 : strncmp a (lit "--help") (strlen a) ≠ 0 := fun h =>
    hh ⟨h0, Or.inl ((strncmp_front a _ hnz).mp h)⟩
  have e2 : strncmp a (lit "--version") (strlen a) ≠ 0 := fun h =>
    hh ⟨h0, Or.inr (Or.inl ((strncmp_front a _ hnz).mp h))⟩
  have hlt := charAt_lt a hwf 1
  have e3 : charVal pf.char_signed (charAt a 1) ≠ 63 := fun h =>
    hh ⟨h0, Or.inr (Or.inr (by
      have := (charVal_eq_ascii _ _ 63 hlt (by decide) (by decide)).mp h
      omega))⟩
  have e4 : charVal pf.char_signed (charAt a 1) ≠ 97 ∧
      charVal pf.char_signed (charAt a 1) ≠ 99 ∧
      charVal pf.char_signed (charAt a 1) ≠ 110 ∧
      charVal pf.char_signed (charAt a 1) ≠ 65 := by
    simp only [isModeLetter, not_or] at hl
    refine ⟨fun h => ?_, fun h => ?_, fun h => ?_, fun h => ?_⟩
    · have := (charVal_eq_ascii _ _ 97 hlt (by decide) (by decide)).mp h; omega
    · have := (charVal_eq_ascii _ _ 99 hlt (by decide) (by decide)).mp h; omega
    · have := (charVal_eq_ascii _ _ 110 hlt (by decide) (by decide)).mp h; omega
    · have := (charVal_eq_ascii _ _ 65 hlt (by decide) (by decide)).mp h; omega
  have hbyte : (charVal pf.char_signed (charAt a 1) % 256).toNat = charAt a 1 := by
    unfold charVal
    split_ifs <;> omega
  simp only [parseMode, h0, if_true, e1, e2, if_false, e3]
  rw [if_pos e4, bad_mode_shape st prog _ hp, hbyte]

/-- With nothing wrong with `$DTACH`, lines 138 to 177 go on, with calls
that write nothing. -/
theorem resolveSocket_passes (ext : Extern) (st : St) (s prog : CStr)
    (hp : st.g.progname = some prog) (hs : ∀ c ∈ st.trace, c.silent = true)
    (hok : socketPasses ext s) :
    ∃ st1, resolveSocket ext st s = .go st1 ∧ (∀ c ∈ st1.trace, c.silent = true) ∧
      st1.g.progname = some prog ∧ st1.g.dont_have_tty = st.g.dont_have_tty := by
  have hsil : ∀ l : List Call, (∀ c ∈ l, c.silent = true) →
      ∀ c ∈ st.trace ++ l, c.silent = true := by
    intro l hl c hc
    rcases List.mem_append.mp hc with hc | hc
    · exact hs c hc
    · exact hl c hc
  cases hg : ext.getenv (lit "DTACH") with
  | none =>
    exact ⟨_, resolveSocket_unset ext st s hg, hsil _ (by simp [Call.silent]), hp, rfl⟩
  | some d =>
    by_cases ha : dtachApplies s
    · rcases hok d hg ha with hdir | ⟨hst, hm⟩
      · exact ⟨_, resolveSocket_dir ext st s d hg ha hdir, hsil _ (by simp [Call.silent]),
          hp, rfl⟩
      · exact ⟨_, resolveSocket_mkdir_ok ext st s d hg ha hst hm,
          hsil _ (by simp [Call.silent]), hp, rfl⟩
    · exact ⟨_, resolveSocket_skip ext st s d hg ha, hsil _ (by simp [Call.silent]), hp, rfl⟩

theorem main_rest (pf : Platform) (ext : Extern) (prog a s : CStr) (rest : List CStr)
    (st1 : St) (hv : validMode a) (hr : resolveSocket ext (St.init pf prog) s = .go st1) :
    main pf ext (prog :: a :: s :: rest) =
      match parseRest pf (charAt a 1 : Int) rest st1 with
      | .stop r => r
      | .go p => runMode pf ext p := by
  have hm := parseMode_valid pf (St.init pf prog) a (s :: rest) hv
  have hpa := parseArgs_socket pf ext prog a s rest _ hm
  rw [hr] at hpa
  simp only at hpa
  simp only [main, hpa]

/-- A run in which the option loop stops is that stop. -/
theorem main_options_stop (pf : Platform) (ext : Extern) (prog a s : CStr)
    (rest : List CStr) (st1 : St) (r : Run) (hv : validMode a)
    (hr : resolveSocket ext (St.init pf prog) s = .go st1)
    (ho : parseOptions pf rest st1 = .stop r) :
    main pf ext (prog :: a :: s :: rest) = r := by
  rw [main_rest pf ext prog a s rest st1 hv hr]
  simp only [parseRest, ho]

theorem scan_bad (pf : Platform) (l junk : List Nat) (c : Nat) (g : Globals)
    (hl : ∀ x ∈ l, isFlag x) (h1 : c ≠ 69) (h2 : c ≠ 122) (h3 : c ≠ 101) (h4 : c ≠ 114) :
    scanLetters (l ++ c :: junk) g = .bad c := by
  rw [scanLetters_flags pf l _ g hl]
  simp [scanLetters, h1, h2, h3, h4]

theorem scan_e (pf : Platform) (l junk : List Nat) (g : Globals) (hl : ∀ x ∈ l, isFlag x) :
    scanLetters (l ++ 101 :: junk) g = .at_e (applyOpts pf (l.map flagOpt) g) := by
  rw [scanLetters_flags pf l _ g hl]
  simp [scanLetters]

theorem scan_r (pf : Platform) (l junk : List Nat) (g : Globals) (hl : ∀ x ∈ l, isFlag x) :
    scanLetters (l ++ 114 :: junk) g = .at_r (applyOpts pf (l.map flagOpt) g) := by
  rw [scanLetters_flags pf l _ g hl]
  simp [scanLetters]

theorem runMode_notty_exact (pf : Platform) (ext : Extern) (prog : CStr) (p : Parsed)
    (hp : p.st.g.progname = some prog) (ht : ext.tcgetattr 0 = none) (hn : p.mode ≠ 110) :
    runMode pf ext p = ⟨p.st.trace ++ [.tcgetattr 0,
      .printf (prog ++ lit ": " ++ lit "Attaching to a session requires a terminal.\n")],
      .returned 1⟩ := by
  unfold runMode
  rw [saveTerm_notty pf ext p.st ht]
  simp only
  have hc : (1 : Int) ≠ 0 ∧ p.mode ≠ 110 := ⟨by decide, hn⟩
  rw [if_pos hc]
  simp [St.ret, St.complain, St.call, hp, fmt_s]

theorem runMode_args_exact (pf : Platform) (ext : Extern) (prog : CStr) (p : Parsed)
    (t : List Nat) (hp : p.st.g.progname = some prog) (h0 : p.st.g.dont_have_tty = 0)
    (ht : ext.tcgetattr 0 = some t) (hm : p.mode = 97) (hc : p.command.length > 0) :
    runMode pf ext p = ⟨(p.st.trace ++ [.tcgetattr 0]) ++
      usageLines prog (lit "Invalid number of arguments."), .returned 1⟩ := by
  rw [runMode_tty pf ext p t h0 ht, hm, dispatch_a, if_pos hc]
  exact complain_shape _ prog _ (lit "Invalid number of arguments.") hp (by decide)

theorem text_lines (prog : CStr) (k : StartupError) (hprog : 10 ∉ prog)
    (hk : 10 ∉ k.echoed) : (k.text prog).count 10 = k.lines := by
  have h0 : prog.count 10 = 0 := List.count_eq_zero_of_not_mem hprog
  have c1 : (lit ": ").count 10 = 0 := by decide
  have c2 : (lit "\n").count 10 = 1 := by decide
  have c3 : (lit "Try '").count 10 = 0 := by decide
  have c4 : (lit " --help' for more information.\n").count 10 = 1 := by decide
  have c5 : (lit "'").count 10 = 0 := by decide
  cases k with
  | no_mode =>
    have : (lit "No mode was specified.").count 10 = 0 := by decide
    simp [StartupError.text, StartupError.message, StartupError.further, StartupError.lines,
      List.count_append, h0, c1, c2, c3, c4, this]
  | bad_mode c =>
    have : (lit "Invalid mode '-").count 10 = 0 := by decide
    have hc : ¬ c = 10 := by simpa [StartupError.echoed, eq_comm] using hk
    simp [StartupError.text, StartupError.message, StartupError.further, StartupError.lines,
      List.count_append, List.count_cons, h0, c1, c2, c3, c4, c5, this, hc]
  | no_socket =>
    have : (lit "No socket was specified.").count 10 = 0 := by decide
    simp [StartupError.text, StartupError.message, StartupError.further, StartupError.lines,
      List.count_append, h0, c1, c2, c3, c4, this]
  | bad_option c =>
    have : (lit "Invalid option '-").count 10 = 0 := by decide
    have hc : ¬ c = 10 := by simpa [StartupError.echoed, eq_comm] using hk
    simp [StartupError.text, StartupError.message, StartupError.further, StartupError.lines,
      List.count_append, List.count_cons, h0, c1, c2, c3, c4, c5, this, hc]
  | no_escape =>
    have : (lit "No escape character specified.").count 10 = 0 := by decide
    simp [StartupError.text, StartupError.message, StartupError.further, StartupError.lines,
      List.count_append, h0, c1, c2, c3, c4, this]
  | no_method =>
    have : (lit "No redraw method specified.").count 10 = 0 := by decide
    simp [StartupError.text, StartupError.message, StartupError.further, StartupError.lines,
      List.count_append, h0, c1, c2, c3, c4, this]
  | bad_method =>
    have : (lit "Invalid redraw method specified.").count 10 = 0 := by decide
    simp [StartupError.text, StartupError.message, StartupError.further, StartupError.lines,
      List.count_append, h0, c1, c2, c3, c4, this]
  | no_command =>
    have : (lit "No command was specified.").count 10 = 0 := by decide
    simp [StartupError.text, StartupError.message, StartupError.further, StartupError.lines,
      List.count_append, h0, c1, c2, c3, c4, this]
  | no_tty =>
    have : (lit "Attaching to a session requires a terminal.").count 10 = 0 := by decide
    simp [StartupError.text, StartupError.message, StartupError.further, StartupError.lines,
      List.count_append, h0, c1, c2, this]
  | arg_count =>
    have : (lit "Invalid number of arguments.").count 10 = 0 := by decide
    simp [StartupError.text, StartupError.message, StartupError.further, StartupError.lines,
      List.count_append, h0, c1, c2, c3, c4, this]
  | not_dir d =>
    have d1 : (lit "$DTACH exists but is not a directory.").count 10 = 0 := by decide
    have d2 : (lit "Either delete it or point $DTACH elsewhere.\n").count 10 = 1 := by decide
    have d3 : (lit "$DTACH is: ").count 10 = 0 := by decide
    have hd : d.count 10 = 0 := List.count_eq_zero_of_not_mem hk
    simp [StartupError.text, StartupError.message, StartupError.further, StartupError.lines,
      List.count_append, h0, c1, c2, d1, d2, d3, hd]

/-- The run of `main` on arguments in which a startup error is detected
reports that error. -/
theorem main_reports (pf : Platform) (ext : Extern) (prog : CStr) (args : List CStr)
    (k : StartupError) (hwf : ∀ a ∈ args, CStr.WF a) (h : Detected ext args k) :
    (main pf ext (prog :: args)).reports prog k := by
  have hnil : ∀ c ∈ (St.init pf prog).trace, c.silent = true := by simp [St.init]
  have hprog : (St.init pf prog).g.progname = some prog := rfl
  have h0 : (St.init pf prog).g.dont_have_tty = 0 := rfl
  cases h with
  | no_args =>
    simp only [main, parseArgs, parseMode_none pf _ [] (Or.inl rfl)]
    rw [complain_shape _ prog _ (lit "No mode was specified.") hprog (by decide)]
    exact reports_usage prog .no_mode _ rfl hnil
  | no_mode a rest ha =>
    simp only [main, parseArgs, parseMode_none pf _ (a :: rest) (Or.inr (by simpa using ha))]
    rw [complain_shape _ prog _ (lit "No mode was specified.") hprog (by decide)]
    exact reports_usage prog .no_mode _ rfl hnil
  | bad_mode a rest ha hh hl =>
    simp only [main, parseArgs, parseMode_bad_exact pf _ prog a rest hprog
      (hwf a (List.mem_cons_self _ _)) ha hh hl]
    exact reports_usage prog (.bad_mode (charAt a 1)) _ rfl hnil
  | no_socket a hv =>
    simp only [main, parseArgs, parseMode_valid pf _ a [] hv, List.tail_cons]
    rw [complain_shape _ prog _ (lit "No socket was specified.") hprog (by decide)]
    exact reports_usage prog .no_socket _ rfl hnil
  | not_dir a s d rest hv hg ha hs =>
    rw [main_socket_stop pf ext prog a s rest _ _
      (parseMode_valid pf (St.init pf prog) a (s :: rest) hv)
      (resolveSocket_notdir ext (St.init pf prog) s d hg ha hs)]
    obtain ⟨h1, h2⟩ := out_append (St.init pf prog).trace
      [.getenv (lit "DTACH"), .stat d,
        .printf (fmt_s (St.init pf prog).g.progname ++ lit ": "),
        .printf (lit "$DTACH exists but is not a directory.\n"),
        .printf (lit "Either delete it or point $DTACH elsewhere.\n"),
        .printf (lit "$DTACH is: " ++ d ++ lit "\n")] (.returned 1) hnil
    have e : lit "$DTACH exists but is not a directory.\n" =
        lit "$DTACH exists but is not a directory." ++ lit "\n" := by decide
    refine ⟨rfl, silent_noEntry _ _ _ hnil (by simp [Call.isAttach, Call.isMaster]), ?_, ?_⟩
    · rw [h1]
      simp [Call.printed, hprog, fmt_s, StartupError.text, StartupError.message,
        StartupError.further, e]
    · rw [h2]; simp [Call.isPerror]
  | bad_option a s pre opts l c junk more hv hok hpre hl h1 h2 h3 h4 =>
    obtain ⟨st1, hr, hsil, hp1, _⟩ := resolveSocket_passes ext _ s prog hprog hnil hok
    have hp2 : (applyOpts pf opts st1.g).progname = some prog := by
      rw [(applyOpts_same pf opts st1.g).1]; exact hp1
    have ho : parseOptions pf (pre ++ (45 :: (l ++ c :: junk)) :: more) st1 =
        .stop ⟨st1.trace ++ usageLines prog (StartupError.bad_option c).message,
          .returned 1⟩ := by
      rw [parseOptions_opts pf pre opts hpre,
        step_bad pf (45 :: (l ++ c :: junk)) more _ c (by simp [charAt])
          (scan_bad pf l junk c _ hl h1 h2 h3 h4)]
      exact congrArg Stage.stop
        (bad_option_shape { g := applyOpts pf opts st1.g, trace := st1.trace } prog c hp2)
    rw [main_options_stop pf ext prog a s _ st1 _ hv hr ho]
    exact reports_usage prog (.bad_option c) _ rfl hsil
  | no_escape a s pre opts l junk hv hok hpre hl =>
    obtain ⟨st1, hr, hsil, hp1, _⟩ := resolveSocket_passes ext _ s prog hprog hnil hok
    have hp2 : (applyOpts pf (l.map flagOpt) (applyOpts pf opts st1.g)).progname
        = some prog := by
      rw [(applyOpts_same pf _ _).1, (applyOpts_same pf opts st1.g).1]; exact hp1
    have ho : parseOptions pf (pre ++ [45 :: (l ++ 101 :: junk)]) st1 =
        .stop ⟨st1.trace ++ usageLines prog StartupError.no_escape.message,
          .returned 1⟩ := by
      rw [parseOptions_opts pf pre opts hpre,
        step_e_last pf (45 :: (l ++ 101 :: junk)) _ _ (by simp [charAt])
          (scan_e pf l junk _ hl)]
      exact congrArg Stage.stop
        (complain_shape { g := applyOpts pf (l.map flagOpt) (applyOpts pf opts st1.g),
                          trace := st1.trace } prog _
          (lit "No escape character specified.") hp2 (by decide))
    rw [main_options_stop pf ext prog a s _ st1 _ hv hr ho]
    exact reports_usage prog .no_escape _ rfl hsil
  | no_method a s pre opts l junk hv hok hpre hl =>
    obtain ⟨st1, hr, hsil, hp1, _⟩ := resolveSocket_passes ext _ s prog hprog hnil hok
    have hp2 : (applyOpts pf (l.map flagOpt) (applyOpts pf opts st1.g)).progname
        = some prog := by
      rw [(applyOpts_same pf _ _).1, (applyOpts_same pf opts st1.g).1]; exact hp1
    have ho : parseOptions pf (pre ++ [45 :: (l ++ 114 :: junk)]) st1 =
        .stop ⟨st1.trace ++ usageLines prog StartupError.no_method.message,
          .returned 1⟩ := by
      rw [parseOptions_opts pf pre opts hpre,
        step_r_last pf (45 :: (l ++ 114 :: junk)) _ _ (by simp [charAt])
          (scan_r pf l junk _ hl)]
      exact congrArg Stage.stop
        (complain_shape { g := applyOpts pf (l.map flagOpt) (applyOpts pf opts st1.g),
                          trace := st1.trace } prog _
          (lit "No redraw method specified.") hp2 (by decide))
    rw [main_options_stop pf ext prog a s _ st1 _ hv hr ho]
    exact reports_usage prog .no_method _ rfl hsil
  | bad_method a s pre opts l junk v more hv hok hpre hl hm =>
    obtain ⟨st1, hr, hsil, hp1, _⟩ := resolveSocket_passes ext _ s prog hprog hnil hok
    have hp2 : (applyOpts pf (l.map flagOpt) (applyOpts pf opts st1.g)).progname
        = some prog := by
      rw [(applyOpts_same pf _ _).1, (applyOpts_same pf opts st1.g).1]; exact hp1
    have hvwf : CStr.WF v := hwf v (by simp)
    have ho : parseOptions pf (pre ++ (45 :: (l ++ 114 :: junk)) :: v :: more) st1 =
        .stop ⟨st1.trace ++ usageLines prog StartupError.bad_method.message,
          .returned 1⟩ := by
      rw [parseOptions_opts pf pre opts hpre,
        step_r_invalid pf (45 :: (l ++ 114 :: junk)) v more _ _ (by simp [charAt])
          (scan_r pf l junk _ hl) (redrawMethod_none v hvwf hm)]
      exact congrArg Stage.stop
        (complain_shape { g := applyOpts pf (l.map flagOpt) (applyOpts pf opts st1.g),
                          trace := st1.trace } prog _
          (lit "Invalid redraw method specified.") hp2 (by decide))
    rw [main_options_stop pf ext prog a s _ st1 _ hv hr ho]
    exact reports_usage prog .bad_method _ rfl hsil
  | no_command a s pre opts hv hok hna hpre =>
    obtain ⟨st1, hr, hsil, hp1, _⟩ := resolveSocket_passes ext _ s prog hprog hnil hok
    have hp2 : ({ st1 with g := applyOpts pf opts st1.g } : St).g.progname = some prog := by
      show (applyOpts pf opts st1.g).progname = some prog
      rw [(applyOpts_same pf opts st1.g).1]; exact hp1
    have ho : parseOptions pf pre st1 = .go ([], { st1 with g := applyOpts pf opts st1.g }) := by
      have := parseOptions_opts pf pre opts hpre [] st1
      rw [List.append_nil] at this
      rw [this]; rfl
    have hmode : (charAt a 1 : Int) ≠ 97 := by omega
    have e : main pf ext (prog :: a :: s :: pre) =
        (({ st1 with g := applyOpts pf opts st1.g } : St).complain
          "No command was specified.\n").tryHelp.ret 1 := by
      rw [main_rest pf ext prog a s pre st1 hv hr]
      simp [parseRest, ho, hmode]
    rw [e, complain_shape _ prog _ (lit "No command was specified.") hp2 (by decide)]
    exact reports_usage prog .no_command _ rfl hsil
  | no_tty a s pre opts cmd hv hok hnn hpre hcmd hc ht =>
    obtain ⟨st1, hr, hsil, hp1, _⟩ := resolveSocket_passes ext _ s prog hprog hnil hok
    have hp2 : (applyOpts pf opts st1.g).progname = some prog := by
      rw [(applyOpts_same pf opts st1.g).1]; exact hp1
    have hmode : (charAt a 1 : Int) ≠ 110 := by omega
    rw [main_go pf ext prog _ _ (parseArgs_valid pf ext prog a s pre cmd opts st1 hv hpre
        hcmd hc hr),
      runMode_notty_exact pf ext prog _ hp2 ht hmode]
    obtain ⟨h1, h2⟩ := out_append st1.trace [.tcgetattr 0,
      .printf (prog ++ lit ": " ++ lit "Attaching to a session requires a terminal.\n")]
      (.returned 1) hsil
    have e : lit "Attaching to a session requires a terminal.\n" =
        lit "Attaching to a session requires a terminal." ++ lit "\n" := by decide
    refine ⟨rfl, silent_noEntry _ _ _ hsil (by simp [Call.isAttach, Call.isMaster]), ?_, ?_⟩
    · rw [h1]
      simp [Call.printed, StartupError.text, StartupError.message, StartupError.further, e]
    · rw [h2]; simp [Call.isPerror]
  | arg_count a s pre opts x more t hv hok ha hpre hx ht =>
    obtain ⟨st1, hr, hsil, hp1, htty⟩ := resolveSocket_passes ext _ s prog hprog hnil hok
    have hp2 : (applyOpts pf opts st1.g).progname = some prog := by
      rw [(applyOpts_same pf opts st1.g).1]; exact hp1
    have h02 : (applyOpts pf opts st1.g).dont_have_tty = 0 := by
      rw [(applyOpts_same pf opts st1.g).2, htty]; rfl
    have hmode : (charAt a 1 : Int) = 97 := by omega
    have hsil2 : ∀ c ∈ st1.trace ++ [.tcgetattr 0], c.silent = true := by
      intro c hc
      rcases List.mem_append.mp hc with hc | hc
      · exact hsil c hc
      · simp only [List.mem_singleton] at hc
        subst hc
        rfl
    rw [main_go pf ext prog _ _ (parseArgs_valid pf ext prog a s pre (x :: more) opts st1 hv
        hpre (by simpa using hx) (fun _ => by simp) hr),
      runMode_args_exact pf ext prog _ t hp2 h02 ht hmode (by simp)]
    exact reports_usage prog .arg_count _ rfl hsil2

/-- C12, as amended. Diagnostics of startup errors. Let the arguments be C
strings in which `main` detects the startup error `k` (relation `Detected`:
no mode, invalid mode, no socket, `$DTACH` not a directory, invalid option,
missing value of `-e` or `-r`, invalid redraw method, no command, no
terminal, wrong number of arguments; the first one in the order of the
checks). Then `main` returns `1` and calls no entry point; the diagnostic
is written by `printf`, to standard output, and nothing is written to
standard error; the output is the program name, `": "`, the message of `k`
and a newline, followed for a usage error by the line
`Try '<program> --help' for more information.`, for the missing terminal by
nothing, and for `$DTACH` by two more lines, the second of which repeats
the value of `$DTACH`. The program name, the letter of an invalid mode or
option and the value of `$DTACH` are put out as they are: when none of them
holds a newline, the output is two lines for a usage error, one line for
the missing terminal and three lines for `$DTACH`. -/
theorem C12_startup_diagnostics (pf : Platform) (ext : Extern) (prog : CStr)
    (args : List CStr) (k : StartupError) (hwf : ∀ a ∈ args, CStr.WF a)
    (h : Detected ext args k) :
    (main pf ext (prog :: args)).result = .returned 1 ∧
    (main pf ext (prog :: args)).noEntry ∧
    (main pf ext (prog :: args)).stdout =
      prog ++ lit ": " ++ k.message ++ lit "\n" ++ k.further prog ∧
    (main pf ext (prog :: args)).stderr = [] ∧
    (10 ∉ prog → 10 ∉ k.echoed →
      (main pf ext (prog :: args)).stdout.count 10 = k.lines) := by
  obtain ⟨h1, h2, h3, h4⟩ := main_reports pf ext prog args k hwf h
  refine ⟨h1, h2, h3, h4, fun hp he => ?_⟩
  rw [h3]
  exact text_lines prog k hp he

/-- The theorem of C12 at `dtach -a /tmp/s -r bogus`, the error of an
invalid redraw method: the run returns `1`, and standard output receives
the two lines of the diagnostic. -/
theorem C12_startup_diagnostics_witness :
    (∀ a ∈ [lit "-a", lit "/tmp/s", lit "-r", lit "bogus"], CStr.WF a) ∧
    Detected world [lit "-a", lit "/tmp/s", lit "-r", lit "bogus"] .bad_method ∧
    10 ∉ lit "dtach" ∧ 10 ∉ StartupError.bad_method.echoed ∧
    (main linux world [lit "dtach", lit "-a", lit "/tmp/s", lit "-r", lit "bogus"]).result
      = .returned 1 ∧
    (main linux world [lit "dtach", lit "-a", lit "/tmp/s", lit "-r", lit "bogus"]).stdout =
      lit "dtach: Invalid redraw method specified.\nTry 'dtach --help' for more information.\n" ∧
    (main linux world [lit "dtach", lit "-a", lit "/tmp/s", lit "-r", lit "bogus"]).stderr
      = [] ∧
    (main linux world
      [lit "dtach", lit "-a", lit "/tmp/s", lit "-r", lit "bogus"]).stdout.count 10 = 2 :=
  have hwf : ∀ a ∈ [lit "-a", lit "/tmp/s", lit "-r", lit "bogus"], CStr.WF a := by decide
  have hd : Detected world [lit "-a", lit "/tmp/s", lit "-r", lit "bogus"] .bad_method :=
    Detected.bad_method (lit "-a") (lit "/tmp/s") [] [] [] [] (lit "bogus") []
      (by decide) (fun _ _ ha => absurd ha (by decide)) Opts.done (by simp) (by decide)
  have h := C12_startup_diagnostics linux world (lit "dtach")
    [lit "-a", lit "/tmp/s", lit "-r", lit "bogus"] .bad_method hwf hd
  ⟨hwf, hd, by decide, by decide, h.1, h.2.2.1.trans (by decide), h.2.2.2.1,
    h.2.2.2.2 (by decide) (by decide)⟩

/-- C12 as it is stated fails. `dtach` without arguments is the usage error
"no mode": `main` returns `1`, nothing is written to standard error, and
standard output receives two lines, not one. Without a terminal,
`dtach -a /tmp/s` returns `1` with one line, and that line too goes to
standard output. And the mode argument `-` followed by a newline is an
invalid mode whose letter, the newline, is repeated in the message: three
newlines are put out. -/
theorem C12_counterexample :
    (main linux world [lit "dtach"]).result = .returned 1 ∧
    (main linux world [lit "dtach"]).stderr = [] ∧
    (main linux world [lit "dtach"]).stdout =
      lit "dtach: No mode was specified.\nTry 'dtach --help' for more information.\n" ∧
    ((main linux world [lit "dtach"]).stdout.count 10 = 2) ∧
    (main linux noTtyWorld [lit "dtach", lit "-a", lit "/tmp/s"]).result = .returned 1 ∧
    (main linux noTtyWorld [lit "dtach", lit "-a", lit "/tmp/s"]).stderr = [] ∧
    (main linux noTtyWorld [lit "dtach", lit "-a", lit "/tmp/s"]).stdout =
      lit "dtach: Attaching to a session requires a terminal.\n" ∧
    (main linux world [lit "dtach", lit "-\n"]).result = .returned 1 ∧
    (main linux world [lit "dtach", lit "-\n"]).stderr = [] ∧
    (main linux world [lit "dtach", lit "-\n"]).stdout.count 10 = 3 := by
  refine ⟨by decide, by decide, by decide, by decide, by decide, by decide, by decide,
    by decide, by decide, by decide⟩

end Dtach
